import Mathlib

/-! Sales bonus report.

A model of `src/main.js`: the two reference policies `calculateSimpleRevenue` and
`calculateBonusByProfit`, and the report pipeline `analyzeSalesData`.

The development has two layers.

* `analyzeSalesData` is the program over exact arithmetic: numbers are rationals, a
  dictionary is the finite map of its own properties, and the two policies are functions.
* `analyzeSalesDataJs` is the run of the program on doubles.  Every arithmetic operation is
  rounded by a function `fl`, which is `toDouble` (IEEE 754 binary64, round to nearest, ties
  to even) for the program and the identity for exact arithmetic; the lookups in
  `sellerIndex`, `productIndex` and `products_sold` also find the names inherited from
  `Object.prototype`; a policy may be a value that is not a function.  Its outcome is a
  report, one of the two errors of the validation, a `TypeError`, or `notModelled` for a run
  on which a quantity becomes a string or `Object.prototype` is written to: about the
  result of such a run nothing is stated.  On the runs over exact arithmetic that return a
  report the two layers agree (`analyzeSalesData_of_exact_run`).

Modelling conventions.

* In `analyzeSalesData` sums, products and comparisons are those of `ℚ`, and `0.15`,
  `0.10`, `0.05` are the rationals `15/100`, `10/100`, `5/100`.  In `analyzeSalesDataJs`
  the decimal literals are their nearest doubles and every sum, difference, product and
  quotient is rounded; input numbers range over all rationals, the doubles among them.
  Overflow to infinity and `NaN` are outside the model.
* A field that may be missing is an `Option`; `x || 0` and `x ?? 0` on a numeric field are
  `Option.getD · 0` (a present `0` and a missing value both give `0`).
* Identifiers (`id`, `seller_id`, `sku`) are strings, as object keys are.
* `sellerIndex` holds references to the objects of `sellerStats`; a reference is modelled as
  the position of the object in `sellerStats`.
* `Array.prototype.sort` is a stable sort; it is modelled by the stable insertion sort
  `List.insertionSort`.  The comparator `b.profit - a.profit` has the sign of the exact
  difference, also on doubles.
* `+x.toFixed(2)` is the rounding of the exact value of `x` to the nearest multiple of
  `0.01`, a tie going away from zero (`round2`); the emitted number is identified with that
  2-decimal numeral.  The switch of `toFixed` to exponent notation from `1e21` on is outside
  the model.
* The two policies are pure total functions that return numbers.
* A thrown `Error` is the `Except.error` result.
-/

namespace SalesBonus

/-! ## Data model -/

/-- Seller card of the input dataset. -/
structure Seller where
  id : String
  first_name : String
  last_name : String
deriving DecidableEq, Repr

/-- Product card of the input dataset. -/
structure Product where
  sku : String
  purchase_price : Option ℚ
deriving DecidableEq, Repr

/-- Line item of a purchase record. -/
structure LineItem where
  sku : String
  quantity : Option ℚ
  sale_price : Option ℚ
  discount : Option ℚ
deriving DecidableEq, Repr

/-- Purchase record (one receipt of one seller). -/
structure PurchaseRecord where
  seller_id : String
  total_amount : Option ℚ
  total_discount : Option ℚ
  items : Option (List LineItem)
deriving DecidableEq, Repr

/-- Value of a property that is expected to hold an array: the property can be missing,
hold something that is not an array, or hold an array. -/
inductive JsField (α : Type) where
  | missing : JsField α
  | notArray : JsField α
  | array (xs : List α) : JsField α
deriving DecidableEq, Repr

/-- The `data` argument of `analyzeSalesData`. -/
structure Data where
  sellers : JsField Seller
  products : JsField Product
  purchase_records : JsField PurchaseRecord
deriving DecidableEq, Repr

/-- Intermediate statistics of one seller (an element of `sellerStats`); `products_sold` is
the object `sku -> quantity`, kept as the list of its own properties in creation order. -/
structure SellerStat where
  id : String
  name : String
  revenue : ℚ
  profit : ℚ
  sales_count : Nat
  products_sold : List (String × ℚ)
deriving DecidableEq, Repr

/-- The `seller` argument as `calculateBonusByProfit` reads it: only `profit`, which may be
missing. -/
structure SellerCard where
  profit : Option ℚ
deriving DecidableEq, Repr

/-- The `options` argument of `analyzeSalesData`. -/
structure Options where
  calculateRevenue : Option (LineItem → Option Product → ℚ)
  calculateBonus : Option (Int → Int → SellerStat → ℚ)

/-- Entry of `top_products`. -/
structure TopProduct where
  sku : String
  quantity : ℚ
deriving DecidableEq, Repr

/-- Row of the report returned by `analyzeSalesData`. -/
structure ReportRow where
  seller_id : String
  name : String
  revenue : ℚ
  profit : ℚ
  sales_count : Nat
  top_products : List TopProduct
  bonus : ℚ
deriving DecidableEq, Repr

/-- The two errors thrown by `analyzeSalesData`, told apart by their message. -/
inductive AnalysisError where
  | malformedData : AnalysisError
  | missingPolicy : AnalysisError
deriving DecidableEq, Repr

/-! ## Reference policies -/

/-- Revenue of a line item, `calculateSimpleRevenue(purchase, _product)` (lines 7-13). -/
def calculateSimpleRevenue (purchase : Option LineItem) (_product : Option Product) : ℚ :=
  let discount := (purchase.bind (fun p => p.discount)).getD 0
  let sale_price := (purchase.bind (fun p => p.sale_price)).getD 0
  let quantity := (purchase.bind (fun p => p.quantity)).getD 0
  let rest := 1 - discount / 100
  sale_price * quantity * rest

/-- Bonus of a ranked seller, `calculateBonusByProfit(index, total, seller)` (lines 22-39). -/
def calculateBonusByProfit (index total : Int) (seller : Option SellerCard) : ℚ :=
  let profit := (seller.bind (fun s => s.profit)).getD 0
  if total ≤ 0 then 0
  else if index = 0 then profit * (15 / 100)
  else if index = 1 ∨ index = 2 then profit * (10 / 100)
  else if index = total - 1 then 0
  else profit * (5 / 100)

/-- The view of an accumulator that `calculateBonusByProfit` reads. -/
def SellerStat.card (s : SellerStat) : Option SellerCard :=
  some { profit := some s.profit }

/-- The reference bonus policy as it is passed in `options.calculateBonus`. -/
def bonusByProfit (index total : Int) (seller : SellerStat) : ℚ :=
  calculateBonusByProfit index total seller.card

/-- The reference revenue policy as it is passed in `options.calculateRevenue`. -/
def simpleRevenue (item : LineItem) (product : Option Product) : ℚ :=
  calculateSimpleRevenue (some item) product

/-! ## Helpers of the JavaScript runtime -/

/-- Rounding of `+x.toFixed(2)`: the nearest multiple of `0.01`, a tie going away from
zero (`toFixed` works on the absolute value and picks the larger candidate). -/
def round2 (x : ℚ) : ℚ :=
  if x < 0 then -((⌊(-x) * 100 + 1 / 2⌋ : ℤ) : ℚ) / 100
  else ((⌊x * 100 + 1 / 2⌋ : ℤ) : ℚ) / 100

/-- Reading `obj[key]` on a dictionary of numbers; `none` is `undefined`. -/
def objGet : List (String × ℚ) → String → Option ℚ
  | [], _ => none
  | e :: m, k => if e.1 = k then some e.2 else objGet m k

/-- Writing `obj[key] = v`: an existing property keeps its place, a new one goes last. -/
def objSet : List (String × ℚ) → String → ℚ → List (String × ℚ)
  | [], k, v => [(k, v)]
  | e :: m, k, v => if e.1 = k then (k, v) :: m else e :: objSet m k v

/-- Numeric value of a key that is an array index (a canonical decimal numeral below
`2^32 - 1`); `none` for any other key. -/
def arrayIndex (key : String) : Option Nat :=
  match key.data with
  | [] => none
  | c :: cs =>
    if (c :: cs).all Char.isDigit ∧ (c ≠ '0' ∨ cs = []) then
      let n := (c :: cs).foldl (fun acc d => 10 * acc + (d.toNat - 48)) 0
      if n < 4294967295 then some n else none
    else none

/-- Enumeration order of `Object.entries`: the array-index keys first, in ascending numeric
order, then the other keys in creation order. -/
def objectEntries (m : List (String × ℚ)) : List (String × ℚ) :=
  (m.filter (fun e => (arrayIndex e.1).isSome)).insertionSort
      (fun a b => (arrayIndex a.1).getD 0 ≤ (arrayIndex b.1).getD 0)
    ++ m.filter (fun e => (arrayIndex e.1).isNone)

/-- Applies `f` to the element at position `i`, leaving a list without such a position
unchanged: the effect on `sellerStats` of mutating the object that a reference points to. -/
def modifyAt {α : Type} (f : α → α) : Nat → List α → List α
  | _, [] => []
  | 0, a :: l => f a :: l
  | n + 1, a :: l => a :: modifyAt f n l

/-- Position of the last element satisfying `p`. -/
def lastIndexWhere {α : Type} (p : α → Bool) : List α → Option Nat
  | [] => none
  | a :: l =>
    match lastIndexWhere p l with
    | some i => some (i + 1)
    | none => if p a then some 0 else none

/-! ## The pipeline of `analyzeSalesData` -/

/-- The `Array.isArray(x)` test. -/
def JsField.isArray {α : Type} : JsField α → Bool
  | .array _ => true
  | _ => false

/-- Elements of an array-valued property. -/
def JsField.elems {α : Type} : JsField α → List α
  | .array xs => xs
  | _ => []

/-- The condition of the first `if` (lines 49-53). -/
def invalidData (data : Option Data) : Bool :=
  match data with
  | none => true
  | some d =>
    !d.sellers.isArray || d.sellers.elems.length == 0
      || !d.products.isArray || d.products.elems.length == 0
      || !d.purchase_records.isArray || d.purchase_records.elems.length == 0

/-- Initial statistics, one object per seller in input order (lines 64-71). -/
def initStats (sellers : List Seller) : List SellerStat :=
  sellers.map fun seller =>
    { id := seller.id
      name := seller.first_name ++ " " ++ seller.last_name
      revenue := 0
      profit := 0
      sales_count := 0
      products_sold := [] }

/-- Lookup `sellerIndex[id]` (line 74): `Object.fromEntries` keeps the last entry of a key,
so the reference is to the last object of `sellerStats` with that id. -/
def sellerIndex (stats : List SellerStat) (id : String) : Option Nat :=
  lastIndexWhere (fun s => s.id = id) stats

/-- Lookup `productIndex[sku]` (line 75): the last product with that sku. -/
def productIndex (products : List Product) (sku : String) : Option Product :=
  products.reverse.find? (fun p => p.sku = sku)

/-- Lines 95-98: the property of the sku is set to `0` when it is missing or `0`, then the
quantity is added to it. -/
def addSold (sold : List (String × ℚ)) (sku : String) (quantity : ℚ) : List (String × ℚ) :=
  let sold1 := if (objGet sold sku).getD 0 = 0 then objSet sold sku 0 else sold
  objSet sold1 sku ((objGet sold1 sku).getD 0 + quantity)

/-- Body of the inner `forEach` (lines 87-98) for one line item. -/
def processItem (calculateRevenue : LineItem → Option Product → ℚ) (products : List Product)
    (seller : SellerStat) (item : LineItem) : SellerStat :=
  let product := productIndex products item.sku
  let quantity := item.quantity.getD 0
  let cost := (product.bind (fun p => p.purchase_price)).getD 0 * quantity
  let revenue := calculateRevenue item product
  let profit := revenue - cost
  { seller with
    profit := seller.profit + profit
    products_sold := addSold seller.products_sold item.sku quantity }

/-- Effect of one purchase record on the object of its seller (lines 81-99). -/
def applyRecord (calculateRevenue : LineItem → Option Product → ℚ) (products : List Product)
    (record : PurchaseRecord) (seller : SellerStat) : SellerStat :=
  let checkRevenue := record.total_amount.getD 0 - record.total_discount.getD 0
  let seller1 : SellerStat :=
    { seller with
      sales_count := seller.sales_count + 1
      revenue := seller.revenue + checkRevenue }
  (record.items.getD []).foldl (processItem calculateRevenue products) seller1

/-- Body of the outer `forEach` (lines 78-100) for one purchase record. -/
def processRecord (calculateRevenue : LineItem → Option Product → ℚ) (products : List Product)
    (index : String → Option Nat) (stats : List SellerStat) (record : PurchaseRecord) :
    List SellerStat :=
  match index record.seller_id with
  | none => stats
  | some i => modifyAt (applyRecord calculateRevenue products record) i stats

/-- The statistics after the scan of all purchase records (lines 64-100). -/
def aggregate (calculateRevenue : LineItem → Option Product → ℚ) (sellers : List Seller)
    (products : List Product) (records : List PurchaseRecord) : List SellerStat :=
  records.foldl (processRecord calculateRevenue products (sellerIndex (initStats sellers)))
    (initStats sellers)

/-- Line 103: stable sort by profit, descending. -/
def sortByProfit (stats : List SellerStat) : List SellerStat :=
  stats.insertionSort (fun a b => b.profit ≤ a.profit)

/-- Lines 108-111: the entries of `products_sold`, sorted by quantity descending, first 10. -/
def topProducts (sold : List (String × ℚ)) : List TopProduct :=
  ((((objectEntries sold).map (fun e => ({ sku := e.1, quantity := e.2 } : TopProduct))).insertionSort
    (fun a b => b.quantity ≤ a.quantity))).take 10

/-- Lines 106-123 from position `index` on: bonus by rank, top products and the projection
of each object to its report row. -/
def reportRows (calculateBonus : Int → Int → SellerStat → ℚ) (total : Nat) :
    Nat → List SellerStat → List ReportRow
  | _, [] => []
  | index, seller :: rest =>
    { seller_id := seller.id
      name := seller.name
      revenue := round2 seller.revenue
      profit := round2 seller.profit
      sales_count := seller.sales_count
      top_products := topProducts seller.products_sold
      bonus := round2 (calculateBonus index total seller) }
      :: reportRows calculateBonus total (index + 1) rest

/-- Lines 64-123: the report for validated arguments. -/
def buildReport (calculateRevenue : LineItem → Option Product → ℚ)
    (calculateBonus : Int → Int → SellerStat → ℚ) (sellers : List Seller)
    (products : List Product) (records : List PurchaseRecord) : List ReportRow :=
  let sellerStats := sortByProfit (aggregate calculateRevenue sellers products records)
  reportRows calculateBonus sellerStats.length 0 sellerStats

/-- The function `analyzeSalesData(data, options)` (lines 47-124). -/
def analyzeSalesData (data : Option Data) (options : Option Options) :
    Except AnalysisError (List ReportRow) :=
  if invalidData data then .error .malformedData
  else
    match options.bind (fun o => o.calculateRevenue), options.bind (fun o => o.calculateBonus) with
    | some calculateRevenue, some calculateBonus =>
      .ok (buildReport calculateRevenue calculateBonus
        ((data.map (fun d => d.sellers.elems)).getD [])
        ((data.map (fun d => d.products.elems)).getD [])
        ((data.map (fun d => d.purchase_records.elems)).getD []))
    | _, _ => .error .missingPolicy

/-- A dataset whose three properties are arrays. -/
def mkData (sellers : List Seller) (products : List Product) (records : List PurchaseRecord) :
    Option Data :=
  some { sellers := .array sellers, products := .array products, purchase_records := .array records }

/-- An `options` object with both policies. -/
def mkOptions (calculateRevenue : LineItem → Option Product → ℚ)
    (calculateBonus : Int → Int → SellerStat → ℚ) : Option Options :=
  some { calculateRevenue := some calculateRevenue, calculateBonus := some calculateBonus }

/-! ## Reference statements

Definitions that follow the words of the specification; the theorems compare them with the
definitions above. -/

/-- Value of the first branch whose condition holds; `otherwise` when none does. -/
def firstMatch : List (Bool × ℚ) → ℚ → ℚ
  | [], otherwise => otherwise
  | (true, value) :: _, _ => value
  | (false, _) :: rest, otherwise => firstMatch rest otherwise

/-- The branches of the reference bonus policy in the order of the specification, for a
seller of profit `p`: degenerate total, rank 0, rank 1 or 2, last rank. -/
def bonusBranches (index total : Int) (p : ℚ) : List (Bool × ℚ) :=
  [ (decide (total ≤ 0), 0),
    (decide (index = 0), (15 / 100) * p),
    (decide (index = 1 ∨ index = 2), (10 / 100) * p),
    (decide (index = total - 1), 0) ]

/-- A required sequence is bad when it is missing, not a sequence, or empty. -/
def BadSequence {α : Type} (f : JsField α) : Prop :=
  f = .missing ∨ f = .notArray ∨ f = .array []

/-- The dataset is absent, or one of its three required sequences is bad. -/
def MalformedData (data : Option Data) : Prop :=
  data = none ∨
    ∃ d, data = some d ∧
      (BadSequence d.sellers ∨ BadSequence d.products ∨ BadSequence d.purchase_records)

/-- One of the two policies is absent from the options (or there are no options). -/
def PolicyMissing (options : Option Options) : Prop :=
  options = none ∨ ∃ o, options = some o ∧ (o.calculateRevenue = none ∨ o.calculateBonus = none)

/-- Profit of one line item: the revenue given by the policy minus the purchase price of
the product times the quantity, a missing product, price or quantity counting as 0. -/
def itemProfit (calculateRevenue : LineItem → Option Product → ℚ) (products : List Product)
    (item : LineItem) : ℚ :=
  calculateRevenue item (productIndex products item.sku)
    - ((productIndex products item.sku).bind (fun p => p.purchase_price)).getD 0
        * item.quantity.getD 0

/-- Sum of the item profits of one purchase record. -/
def recordProfit (calculateRevenue : LineItem → Option Product → ℚ) (products : List Product)
    (r : PurchaseRecord) : ℚ :=
  ((r.items.getD []).map (itemProfit calculateRevenue products)).sum

/-- Exact profit of a seller: the sum over every line item of every purchase record with the
seller id. -/
def sellerProfit (calculateRevenue : LineItem → Option Product → ℚ) (products : List Product)
    (records : List PurchaseRecord) (id : String) : ℚ :=
  ((records.filter (fun r => decide (r.seller_id = id))).map
    (recordProfit calculateRevenue products)).sum

/-- Exact revenue of a seller: the sum of `total_amount - total_discount` over the purchase
records with the seller id, a missing field counting as 0. -/
def sellerRevenue (records : List PurchaseRecord) (id : String) : ℚ :=
  ((records.filter (fun r => decide (r.seller_id = id))).map
    (fun r => r.total_amount.getD 0 - r.total_discount.getD 0)).sum

/-! ## Sample dataset

A small dataset used to run the model: three sellers, one of them without sales, a record of
an unknown seller and a line item of an unknown product. -/

deriving instance DecidableEq for Except

/-- Sample sellers. -/
def sampleSellers : List Seller :=
  [⟨"s1", "Ann", "Lee"⟩, ⟨"s2", "Bob", "Ray"⟩, ⟨"s3", "Cy", "Dow"⟩]

/-- Sample products. -/
def sampleProducts : List Product := [⟨"p1", some 2⟩, ⟨"p2", some 5⟩]

/-- Sample record of a seller id that no seller has. -/
def ghostRecord : PurchaseRecord :=
  ⟨"ghost", some 70, some 1, some [⟨"p1", some 4, some 10, none⟩]⟩

/-- Sample purchase records of known sellers. -/
def sampleRecords : List PurchaseRecord :=
  [ ⟨"s2", some 100, some 10,
      some [⟨"p1", some 3, some 10, some 5⟩, ⟨"p2", some 1, some 20, none⟩]⟩,
    ⟨"s1", some 50, none, some [⟨"p1", some 2, some 10, some 0⟩]⟩,
    ⟨"s2", some 30, some 5, some [⟨"p3", some 2, some 8, some 50⟩]⟩ ]

/-- The report of the sample dataset under the two reference policies. -/
def sampleReport : List ReportRow :=
  [ ⟨"s2", "Bob Ray", 115, 91 / 2, 2, [⟨"p1", 3⟩, ⟨"p3", 2⟩, ⟨"p2", 1⟩], 683 / 100⟩,
    ⟨"s1", "Ann Lee", 50, 16, 1, [⟨"p1", 2⟩], 8 / 5⟩,
    ⟨"s3", "Cy Dow", 0, 0, 0, [], 0⟩ ]

/-- The line items of the purchase records that carry the seller id, in scan order. -/
def sellerItems (records : List PurchaseRecord) (id : String) : List LineItem :=
  (records.filter (fun r => decide (r.seller_id = id))).flatMap (fun r => r.items.getD [])

/-- The distinct keys of a list in the order of their first occurrence. -/
def firstSeen : List String → List String
  | [] => []
  | k :: ks => k :: (firstSeen ks).filter (fun x => decide (x ≠ k))

/-- Cumulative quantity of a sku: the sum of `quantity` over the items with that sku, a
missing quantity counting as 0. -/
def quantityOf (items : List LineItem) (sku : String) : ℚ :=
  ((items.filter (fun it => decide (it.sku = sku))).map (fun it => it.quantity.getD 0)).sum

/-- The per-sku cumulative quantity map of a list of line items: one entry for each sku that
occurs, in first-seen order, with the cumulative quantity of the sku. -/
def soldMap (items : List LineItem) : List (String × ℚ) :=
  (firstSeen (items.map (fun it => it.sku))).map (fun k => (k, quantityOf items k))

/-- The accumulation of lines 95-98 over a list of line items. -/
def foldSold (sold : List (String × ℚ)) (items : List LineItem) : List (String × ℚ) :=
  items.foldl (fun m it => addSold m it.sku (it.quantity.getD 0)) sold

/-- The first 10 entries of a quantity map sorted by quantity descending, ties kept in the
order of the map. -/
def topByQuantity (m : List (String × ℚ)) : List TopProduct :=
  ((m.map (fun e => ({ sku := e.1, quantity := e.2 } : TopProduct))).insertionSort
    (fun a b => b.quantity ≤ a.quantity)).take 10


/-- Two sample sellers that share the id `s1`. -/
def twinSellers : List Seller := [⟨"s1", "Ann", "Lee"⟩, ⟨"s1", "Al", "Lee"⟩]


/-- Sample record whose two skus are array-index numerals, seen in the order "2", "1". -/
def numericSkuRecords : List PurchaseRecord :=
  [⟨"s1", some 10, none, some [⟨"2", some 1, some 5, none⟩, ⟨"1", some 1, some 5, none⟩]⟩]


/-- The record `r2` is the record `r` with its line items in another order. -/
def ItemsPermuted (r r2 : PurchaseRecord) : Prop :=
  r2.seller_id = r.seller_id ∧ r2.total_amount = r.total_amount
    ∧ r2.total_discount = r.total_discount ∧ (r2.items.getD []).Perm (r.items.getD [])

/-- The list `records2` is a rearrangement of `records`: the line items are permuted inside
the records and the records are then permuted. -/
def Rearranged (records records2 : List PurchaseRecord) : Prop :=
  ∃ mid, List.Forall₂ ItemsPermuted records mid ∧ mid.Perm records2

/-- Two accumulators agree in everything but the enumeration order of `products_sold`. -/
def SameTotals (a b : SellerStat) : Prop :=
  a.id = b.id ∧ a.name = b.name ∧ a.revenue = b.revenue ∧ a.profit = b.profit
    ∧ a.sales_count = b.sales_count ∧ a.products_sold.Perm b.products_sold

/-- Two rows agree in seller id, revenue, profit and sales count. -/
def SameFigures (a b : ReportRow) : Prop :=
  a.seller_id = b.seller_id ∧ a.revenue = b.revenue ∧ a.profit = b.profit
    ∧ a.sales_count = b.sales_count

/-- A bonus policy that does not read the enumeration order of `products_sold`. -/
def OrderInsensitive (bon : Int → Int → SellerStat → ℚ) : Prop :=
  ∀ (i n : Int) (s s2 : SellerStat), SameTotals s s2 → bon i n s = bon i n s2

/-- A bonus policy that reads the first key of `products_sold`: 1 when the first sku sold is
`p1`, else 0. -/
def firstSkuBonus (_index _total : Int) (seller : SellerStat) : ℚ :=
  match seller.products_sold with
  | [] => 0
  | e :: _ => if e.1 = "p1" then 1 else 0

/-- Two sample records of seller `s1`, the first selling `p1` and the second `p2`. -/
def twoRecords : List PurchaseRecord :=
  [ ⟨"s1", some 20, none, some [⟨"p1", some 1, some 20, none⟩]⟩,
    ⟨"s1", some 30, none, some [⟨"p2", some 1, some 30, none⟩]⟩ ]


/-! ## Binary floating point

The arithmetic of the program is that of IEEE 754 binary64.  `toDouble` rounds an exact
result to the nearest double, a tie going to the even significand, with gradual underflow;
overflow to infinity and `NaN` are outside the model.  The definitions below take the
rounding `fl` as a parameter: `fl := toDouble` is the program, `fl := id` is the program
over exact arithmetic. -/

/-- The product `x * 2^k`. -/
def scale2 (x : ℚ) (k : Int) : ℚ :=
  match k with
  | Int.ofNat n => x * ((2 ^ n : Nat) : ℚ)
  | Int.negSucc n => x / ((2 ^ (n + 1) : Nat) : ℚ)

/-- Number of halvings that bring `n` below 2, at most `fuel` of them. -/
def halvings : Nat → Nat → Nat
  | 0, _ => 0
  | fuel + 1, n => if n < 2 then 0 else halvings fuel (n / 2) + 1

/-- Position of the leading binary digit of `n`: the `k` with `2^k <= n < 2^(k+1)` for a
positive `n`. -/
def leadingBit (n : Nat) : Nat := halvings n n

/-- Exponent of the leading binary digit of a positive rational `x`: the `e` with
`2^e <= x < 2^(e+1)`. -/
def binaryExponent (x : ℚ) : Int :=
  let k : Int := (leadingBit x.num.natAbs : Int) - (leadingBit x.den : Int)
  if scale2 1 k ≤ x then k else k - 1

/-- Nearest integer, a tie going to the even one. -/
def roundHalfEven (q : ℚ) : Int :=
  let f := ⌊q⌋
  let r := q - f
  if r < 1 / 2 then f
  else if 1 / 2 < r then f + 1
  else if f % 2 = 0 then f else f + 1

/-- The double nearest to `x` (53 significant bits, least exponent -1022). -/
def toDouble (x : ℚ) : ℚ :=
  if x = 0 then 0
  else
    let a := |x|
    let e := max (binaryExponent a) (-1022)
    let m := roundHalfEven (scale2 a (52 - e))
    let v := scale2 (m : ℚ) (e - 52)
    if x < 0 then -v else v

/-- The reference revenue policy `calculateSimpleRevenue` (lines 7-13) with every operation
rounded by `fl`. -/
def calculateSimpleRevenueWith (fl : ℚ → ℚ) (purchase : Option LineItem)
    (_product : Option Product) : ℚ :=
  let discount := (purchase.bind (fun p => p.discount)).getD 0
  let sale_price := (purchase.bind (fun p => p.sale_price)).getD 0
  let quantity := (purchase.bind (fun p => p.quantity)).getD 0
  let rest := fl (1 - fl (discount / 100))
  fl (fl (sale_price * quantity) * rest)

/-- The reference bonus policy `calculateBonusByProfit` (lines 22-39) with every operation
rounded by `fl`; the literals `0.15`, `0.10`, `0.05` are the roundings of the decimals. -/
def calculateBonusByProfitWith (fl : ℚ → ℚ) (index total : Int) (seller : Option SellerCard) :
    ℚ :=
  let profit := (seller.bind (fun s => s.profit)).getD 0
  if total ≤ 0 then 0
  else if index = 0 then fl (profit * fl (15 / 100))
  else if index = 1 ∨ index = 2 then fl (profit * fl (10 / 100))
  else if index = total - 1 then 0
  else fl (profit * fl (5 / 100))

/-- The policy `calculateSimpleRevenueWith fl` as it is passed in the options. -/
def simpleRevenueWith (fl : ℚ → ℚ) (item : LineItem) (product : Option Product) : ℚ :=
  calculateSimpleRevenueWith fl (some item) product

/-- The policy `calculateBonusByProfitWith fl` as it is passed in the options. -/
def bonusByProfitWith (fl : ℚ → ℚ) (index total : Int) (seller : SellerStat) : ℚ :=
  calculateBonusByProfitWith fl index total seller.card

/-- Lines 95-98 with the addition rounded by `fl`. -/
def addSoldWith (fl : ℚ → ℚ) (sold : List (String × ℚ)) (sku : String) (quantity : ℚ) :
    List (String × ℚ) :=
  let sold1 := if (objGet sold sku).getD 0 = 0 then objSet sold sku 0 else sold
  objSet sold1 sku (fl ((objGet sold1 sku).getD 0 + quantity))

/-- Body of the inner `forEach` (lines 87-98) with every operation rounded by `fl`. -/
def processItemWith (fl : ℚ → ℚ) (calculateRevenue : LineItem → Option Product → ℚ)
    (products : List Product) (seller : SellerStat) (item : LineItem) : SellerStat :=
  let product := productIndex products item.sku
  let quantity := item.quantity.getD 0
  let cost := fl ((product.bind (fun p => p.purchase_price)).getD 0 * quantity)
  let revenue := calculateRevenue item product
  let profit := fl (revenue - cost)
  { seller with
    profit := fl (seller.profit + profit)
    products_sold := addSoldWith fl seller.products_sold item.sku quantity }

/-- Effect of one purchase record on the object of its seller (lines 81-99) with every
operation rounded by `fl`; the count of sales is an integer and stays exact. -/
def applyRecordWith (fl : ℚ → ℚ) (calculateRevenue : LineItem → Option Product → ℚ)
    (products : List Product) (record : PurchaseRecord) (seller : SellerStat) : SellerStat :=
  let checkRevenue := fl (record.total_amount.getD 0 - record.total_discount.getD 0)
  let seller1 : SellerStat :=
    { seller with
      sales_count := seller.sales_count + 1
      revenue := fl (seller.revenue + checkRevenue) }
  (record.items.getD []).foldl (processItemWith fl calculateRevenue products) seller1

/-- Body of the outer `forEach` (lines 78-100) as far as the accumulators go: the record of a
seller updates the object of that seller; every other record changes no accumulator, also
the one that finds an inherited value as its seller (what else such a record does is in
`recordEvent`). -/
def processRecordWith (fl : ℚ → ℚ) (calculateRevenue : LineItem → Option Product → ℚ)
    (products : List Product) (index : String → Option Nat) (stats : List SellerStat)
    (record : PurchaseRecord) : List SellerStat :=
  match index record.seller_id with
  | none => stats
  | some i => modifyAt (applyRecordWith fl calculateRevenue products record) i stats

/-- The statistics after the scan of all purchase records (lines 64-100). -/
def aggregateWith (fl : ℚ → ℚ) (calculateRevenue : LineItem → Option Product → ℚ)
    (sellers : List Seller) (products : List Product) (records : List PurchaseRecord) :
    List SellerStat :=
  records.foldl
    (processRecordWith fl calculateRevenue products (sellerIndex (initStats sellers)))
    (initStats sellers)

/-- Lines 64-123 for a run whose scan has no event (`scanEvent`) and whose bonus policy is
a function.  The emitted `+x.toFixed(2)` is identified with the 2-decimal numeral it is
parsed from. -/
def buildReportWith (fl : ℚ → ℚ) (calculateRevenue : LineItem → Option Product → ℚ)
    (calculateBonus : Int → Int → SellerStat → ℚ) (sellers : List Seller)
    (products : List Product) (records : List PurchaseRecord) : List ReportRow :=
  let sellerStats := sortByProfit (aggregateWith fl calculateRevenue sellers products records)
  reportRows calculateBonus sellerStats.length 0 sellerStats

/-! ## Inherited property names and values that are not functions

`sellerIndex`, `productIndex` and `products_sold` are plain objects: a key that is not an own
property is looked up in `Object.prototype`.  `analyzeSalesDataJs` is the run of the program
with these lookups and with policies that may be values other than functions. -/

/-- The names every plain object inherits from `Object.prototype`; their values are
functions, and `Object.prototype` itself for `__proto__`. -/
def inheritedNames : List String :=
  ["constructor", "__defineGetter__", "__defineSetter__", "hasOwnProperty",
    "__lookupGetter__", "__lookupSetter__", "isPrototypeOf", "propertyIsEnumerable",
    "toString", "valueOf", "__proto__", "toLocaleString"]

/-- A policy slot of `options`: missing (`undefined`, `null` or another falsy value), a
truthy value that is not a function, or a function. -/
inductive PolicyValue (α : Type) where
  | missing : PolicyValue α
  | notCallable : PolicyValue α
  | function (f : α) : PolicyValue α

/-- The test `!policy` of line 59. -/
def PolicyValue.isMissing {α : Type} : PolicyValue α → Bool
  | .missing => true
  | _ => false

/-- Whether calling the policy works. -/
def PolicyValue.isCallable {α : Type} : PolicyValue α → Bool
  | .function _ => true
  | _ => false

/-- The function of a callable policy; `otherwise` stands for a policy that is never
called. -/
def PolicyValue.fn {α : Type} (otherwise : α) : PolicyValue α → α
  | .function f => f
  | _ => otherwise

/-- The `options` argument when a policy may be any value. -/
structure JsOptions where
  calculateRevenue : PolicyValue (LineItem → Option Product → ℚ)
  calculateBonus : PolicyValue (Int → Int → SellerStat → ℚ)

/-- Outcome of a run other than a report: the two errors thrown by the validation, a
`TypeError` thrown by the runtime, or a run that leaves the model (a quantity that became a
string, a polluted `Object.prototype`), about whose result nothing is said. -/
inductive RunError where
  | malformedData : RunError
  | missingPolicy : RunError
  | typeError : RunError
  | notModelled : RunError
deriving DecidableEq, Repr

/-- The record is processed: `sellerIndex[record.seller_id]` is an own property. -/
def isProcessed (sellers : List Seller) (record : PurchaseRecord) : Bool :=
  decide (record.seller_id ∈ sellers.map (fun s => s.id))

/-- The lookup `sellerIndex[record.seller_id]` (line 79) finds no own property but an
inherited one, which is truthy: the guard of line 80 lets the record through. -/
def hitsInheritedSeller (sellers : List Seller) (record : PurchaseRecord) : Bool :=
  !isProcessed sellers record && decide (record.seller_id ∈ inheritedNames)

/-- What one pass of the outer `forEach` (lines 78-100) does besides updating the
accumulators: nothing (`none`), a `TypeError`, or a step that leaves the model.

* The record of a seller (`sellerIndex[record.seller_id]` is an own property) with a line
  item calls the revenue policy at line 90: a `TypeError` when the policy is not a function.
  When one of its line items has an inherited name as sku, `productIndex[item.sku]` and
  `products_sold[item.sku]` are inherited values (the policy receives a function as product
  and line 98 stores a string or nothing): the run leaves the model.
* A record that finds an inherited value as its seller passes the guard of line 80.  With a
  line item it throws a `TypeError`: at line 90 when the revenue policy is not a function,
  else at line 95, which reads `products_sold` of `undefined`.  Without line items it
  changes no accumulator.  The seller id `__proto__` writes to `Object.prototype` at lines
  81-83, and a first line item with an inherited sku hands an inherited value to the
  policy: there the run leaves the model. -/
def recordEvent (revenueCallable : Bool) (sellers : List Seller) (record : PurchaseRecord) :
    Option RunError :=
  if isProcessed sellers record then
    match record.items.getD [] with
    | [] => none
    | item :: items =>
      if !revenueCallable then some .typeError
      else if (item :: items).any (fun it => decide (it.sku ∈ inheritedNames)) then
        some .notModelled
      else none
  else if hitsInheritedSeller sellers record then
    match record.items.getD [] with
    | [] => if record.seller_id = "__proto__" then some .notModelled else none
    | item :: _ =>
      if !revenueCallable then some .typeError
      else if record.seller_id = "__proto__" ∨ item.sku ∈ inheritedNames then
        some .notModelled
      else some .typeError
  else none

/-- The first event of the scan of the purchase records, in scan order. -/
def scanEvent (revenueCallable : Bool) (sellers : List Seller)
    (records : List PurchaseRecord) : Option RunError :=
  records.findSome? (recordEvent revenueCallable sellers)

/-- The function `analyzeSalesData(data, options)` (lines 47-124) on doubles (`fl`), with
inherited property names and with policies that may be values other than functions.  After
the validation (lines 49-61) the scan stops at its first event; a scan without event is
followed by the call of the bonus policy for the first seller (line 107), a `TypeError` when
that policy is not a function. -/
def analyzeSalesDataJs (fl : ℚ → ℚ) (data : Option Data) (options : Option JsOptions) :
    Except RunError (List ReportRow) :=
  let revenue := (options.map (fun o => o.calculateRevenue)).getD .missing
  let bonus := (options.map (fun o => o.calculateBonus)).getD .missing
  let sellers := (data.map (fun d => d.sellers.elems)).getD []
  let products := (data.map (fun d => d.products.elems)).getD []
  let records := (data.map (fun d => d.purchase_records.elems)).getD []
  if invalidData data then .error .malformedData
  else if revenue.isMissing || bonus.isMissing then .error .missingPolicy
  else
    match scanEvent revenue.isCallable sellers records with
    | some event => .error event
    | none =>
      if bonus.isCallable then
        .ok (buildReportWith fl (revenue.fn (fun _ _ => 0)) (bonus.fn (fun _ _ _ => 0))
          sellers products records)
      else .error .typeError

/-- An `options` object with two functions. -/
def jsOptions (calculateRevenue : LineItem → Option Product → ℚ)
    (calculateBonus : Int → Int → SellerStat → ℚ) : Option JsOptions :=
  some { calculateRevenue := .function calculateRevenue,
         calculateBonus := .function calculateBonus }


/-- One of the two policies is missing from the options (or there are no options), a falsy
value counting as missing. -/
def JsPolicyMissing (options : Option JsOptions) : Prop :=
  options = none
    ∨ ∃ o, options = some o ∧ (o.calculateRevenue = .missing ∨ o.calculateBonus = .missing)

/-- Both policies of the options are functions. -/
def PoliciesAreFunctions (options : Option JsOptions) : Prop :=
  ∃ rev bon, options = jsOptions rev bon

/-- No `seller_id` of a purchase record and no `sku` of a line item is a name inherited from
`Object.prototype`. -/
def OrdinaryNames (data : Option Data) : Prop :=
  ∀ d, data = some d → ∀ r ∈ d.purchase_records.elems,
    r.seller_id ∉ inheritedNames ∧ ∀ it ∈ r.items.getD [], it.sku ∉ inheritedNames

/-- Sample record whose `seller_id` is the inherited name `constructor`, with one line
item. -/
def constructorRecord : PurchaseRecord :=
  ⟨"constructor", some 1, none, some [⟨"p1", some 1, some 1, none⟩]⟩

/-- Sample record whose `seller_id` is the inherited name `constructor`, without line
items. -/
def constructorRecordNoItems : PurchaseRecord := ⟨"constructor", some 5, none, none⟩

/-- Sample record of seller `s1` whose two line items earn 1 and 0.005 (the double). -/
def halfCentItems : List PurchaseRecord :=
  [⟨"s1", some 1, none,
    some [⟨"x1", some 1, some 1, none⟩, ⟨"x2", some 1, some (toDouble (5 / 1000)), none⟩]⟩]

/-- Two sample records of seller `s1` with the totals 1 and 0.005 (the double). -/
def halfCentTotals : List PurchaseRecord :=
  [⟨"s1", some 1, none, none⟩, ⟨"s1", some (toDouble (5 / 1000)), none, none⟩]

/-- Sample record of seller `s1` whose one line item earns 0.1 (the double). -/
def dimeRecords : List PurchaseRecord :=
  [⟨"s1", some (toDouble (1 / 10)), none,
    some [⟨"x1", some 1, some (toDouble (1 / 10)), none⟩]⟩]

/-- Two sample sellers, `b` listed before `a`. -/
def tieSellers : List Seller := [⟨"b", "Bea", "Moss"⟩, ⟨"a", "Abe", "Long"⟩]

/-- Sample records: `b` sells for 0.3, 0.2, 0.1 and `a` for 0.1, 0.2, 0.3 (the doubles). -/
def tieRecords : List PurchaseRecord :=
  [ ⟨"b", none, none,
      some [⟨"x1", some 1, some (toDouble (3 / 10)), none⟩,
            ⟨"x1", some 1, some (toDouble (2 / 10)), none⟩,
            ⟨"x1", some 1, some (toDouble (1 / 10)), none⟩]⟩,
    ⟨"a", none, none,
      some [⟨"x1", some 1, some (toDouble (1 / 10)), none⟩,
            ⟨"x1", some 1, some (toDouble (2 / 10)), none⟩,
            ⟨"x1", some 1, some (toDouble (3 / 10)), none⟩]⟩ ]


/-- Sample records: `b` and `a` both sell for 0.1 and 0.2 (the doubles), in that order. -/
def levelRecords : List PurchaseRecord :=
  [ ⟨"b", none, none,
      some [⟨"x1", some 1, some (toDouble (1 / 10)), none⟩,
            ⟨"x1", some 1, some (toDouble (2 / 10)), none⟩]⟩,
    ⟨"a", none, none,
      some [⟨"x1", some 1, some (toDouble (1 / 10)), none⟩,
            ⟨"x1", some 1, some (toDouble (2 / 10)), none⟩]⟩ ]

/-- The running total of line 92 over a list of line items in scan order: each item profit
`calculateRevenue(item, product) - purchase_price * quantity` and each addition to the total
is rounded by `fl`. -/
def runningProfit (fl : ℚ → ℚ) (calculateRevenue : LineItem → Option Product → ℚ)
    (products : List Product) (items : List LineItem) : ℚ :=
  items.foldl
    (fun total it =>
      fl (total + fl (calculateRevenue it (productIndex products it.sku)
        - fl (((productIndex products it.sku).bind (fun p => p.purchase_price)).getD 0
            * it.quantity.getD 0))))
    0

/-- The running total of line 83 over the purchase records with the seller id in scan order:
each `total_amount - total_discount` and each addition to the total is rounded by `fl`. -/
def runningRevenue (fl : ℚ → ℚ) (records : List PurchaseRecord) (id : String) : ℚ :=
  (records.filter (fun r => decide (r.seller_id = id))).foldl
    (fun total r => fl (total + fl (r.total_amount.getD 0 - r.total_discount.getD 0))) 0

/-- The running quantity of a sku over a list of line items in scan order, each addition
rounded by `fl`, a missing quantity counting as 0. -/
def runningQuantity (fl : ℚ → ℚ) (items : List LineItem) (sku : String) : ℚ :=
  (items.filter (fun it => decide (it.sku = sku))).foldl
    (fun total it => fl (total + it.quantity.getD 0)) 0

/-- The per-sku quantity map of a list of line items: one entry for each sku that occurs, in
first-seen order, with the running quantity of the sku. -/
def soldMapWith (fl : ℚ → ℚ) (items : List LineItem) : List (String × ℚ) :=
  (firstSeen (items.map (fun it => it.sku))).map (fun k => (k, runningQuantity fl items k))

/-- The accumulation of lines 95-98 over a list of line items, each addition rounded by
`fl`. -/
def foldSoldWith (fl : ℚ → ℚ) (sold : List (String × ℚ)) (items : List LineItem) :
    List (String × ℚ) :=
  items.foldl (fun m it => addSoldWith fl m it.sku (it.quantity.getD 0)) sold

/-! ## Rounding -/

theorem round2_mono {x y : ℚ} (h : x ≤ y) : round2 x ≤ round2 y := by
  unfold round2
  have h100 : (0:ℚ) < 100 := by norm_num
  split_ifs with hx hy hy
  · have : ⌊(-y) * 100 + 1 / 2⌋ ≤ ⌊(-x) * 100 + 1 / 2⌋ := Int.floor_mono (by linarith)
    have h2 : ((⌊(-y) * 100 + 1 / 2⌋ : ℤ) : ℚ) ≤ ((⌊(-x) * 100 + 1 / 2⌋ : ℤ) : ℚ) := by
      exact_mod_cast this
    rw [div_le_div_iff_of_pos_right h100]
    linarith
  · have h1 : (0 : ℤ) ≤ ⌊(-x) * 100 + 1 / 2⌋ := Int.floor_nonneg.mpr (by linarith)
    have h2 : (0 : ℤ) ≤ ⌊y * 100 + 1 / 2⌋ := Int.floor_nonneg.mpr (by linarith)
    have h1q : (0 : ℚ) ≤ ((⌊(-x) * 100 + 1 / 2⌋ : ℤ) : ℚ) := by exact_mod_cast h1
    have h2q : (0 : ℚ) ≤ ((⌊y * 100 + 1 / 2⌋ : ℤ) : ℚ) := by exact_mod_cast h2
    rw [div_le_div_iff_of_pos_right h100]
    linarith
  · exfalso; linarith
  · have : ⌊x * 100 + 1 / 2⌋ ≤ ⌊y * 100 + 1 / 2⌋ := Int.floor_mono (by linarith)
    have h2 : ((⌊x * 100 + 1 / 2⌋ : ℤ) : ℚ) ≤ ((⌊y * 100 + 1 / 2⌋ : ℤ) : ℚ) := by
      exact_mod_cast this
    rw [div_le_div_iff_of_pos_right h100]
    exact h2

theorem round2_hundredths (n : ℤ) : round2 ((n : ℚ) / 100) = (n : ℚ) / 100 := by
  unfold round2
  split_ifs with hx
  · have : ⌊(-((n : ℚ) / 100)) * 100 + 1 / 2⌋ = -n := by
      rw [Int.floor_eq_iff]; push_cast; constructor <;> linarith
    rw [this]; push_cast; ring
  · have : ⌊((n : ℚ) / 100) * 100 + 1 / 2⌋ = n := by
      rw [Int.floor_eq_iff]; constructor <;> linarith
    rw [this]

/-! ## The reference bonus policy -/

/-- C2 (as stated, refuted): with total 2 the seller at position 1 with profit 50 does not
get 0; the branch of ranks 1 and 2 comes before the branch of the last rank, so the rounded
bonuses of profits 100 and 50 are not 15 and 0. -/
theorem bonus_two_sellers_not_15_0 :
    [round2 (calculateBonusByProfit 0 2 (some { profit := some 100 })),
        round2 (calculateBonusByProfit 1 2 (some { profit := some 50 }))] ≠ [15, 0]
      ∧ round2 (calculateBonusByProfit (2 - 1) 2 (some { profit := some 50 })) ≠ 0 := by
  simp only [calculateBonusByProfit, round2]
  norm_num

/-- C2 (amended): the reference bonus policy applied to two ranked sellers with profits 100
and 50 (positions 0 and 1, total 2) gives the rounded bonuses 15 and 5: the seller at
position `total - 1 = 1` is at rank 1 and gets 10% of its profit. -/
theorem bonus_two_sellers (s0 s1 : SellerStat) (h0 : s0.profit = 100) (h1 : s1.profit = 50) :
    (reportRows bonusByProfit [s0, s1].length 0 [s0, s1]).map (fun row => row.bonus) = [15, 5]
      ∧ round2 (calculateBonusByProfit 0 2 s0.card) = 15
      ∧ round2 (calculateBonusByProfit (2 - 1) 2 s1.card) = 5 := by
  simp only [reportRows, bonusByProfit, calculateBonusByProfit, SellerStat.card, h0, h1,
    round2, List.length, List.map]
  norm_num

theorem bonus_two_sellers_witness :
    (⟨"s0", "A B", 0, 100, 0, []⟩ : SellerStat).profit = 100
      ∧ (⟨"s1", "C D", 0, 50, 0, []⟩ : SellerStat).profit = 50
      ∧ (reportRows bonusByProfit 2 0
          [⟨"s0", "A B", 0, 100, 0, []⟩, ⟨"s1", "C D", 0, 50, 0, []⟩]).map
            (fun row => row.bonus) = [15, 5] :=
  ⟨rfl, rfl, (bonus_two_sellers ⟨"s0", "A B", 0, 100, 0, []⟩ ⟨"s1", "C D", 0, 50, 0, []⟩ rfl rfl).1⟩

/-- C3 (as stated, refuted): with total 4 the seller at position 2 with profit 200 gets 10%
and not 5%, so the rounded bonuses of profits 400, 300, 200, 100 are not 60, 30, 10, 0. -/
theorem bonus_four_sellers_not_60_30_10_0 :
    [round2 (calculateBonusByProfit 0 4 (some { profit := some 400 })),
        round2 (calculateBonusByProfit 1 4 (some { profit := some 300 })),
        round2 (calculateBonusByProfit 2 4 (some { profit := some 200 })),
        round2 (calculateBonusByProfit 3 4 (some { profit := some 100 }))] ≠ [60, 30, 10, 0] := by
  simp only [calculateBonusByProfit, round2]
  norm_num

/-- C3 (amended): the reference bonus policy applied to four ranked sellers with profits
400, 300, 200, 100 (positions 0..3, total 4) gives the rounded bonuses 60, 30, 20, 0, which
are 15%, 10%, 10% and 0% of the profits. -/
theorem bonus_four_sellers (s0 s1 s2 s3 : SellerStat) (h0 : s0.profit = 400)
    (h1 : s1.profit = 300) (h2 : s2.profit = 200) (h3 : s3.profit = 100) :
    (reportRows bonusByProfit [s0, s1, s2, s3].length 0 [s0, s1, s2, s3]).map
        (fun row => row.bonus) = [60, 30, 20, 0]
      ∧ [60, 30, 20, (0 : ℚ)]
        = [s0.profit * (15 / 100), s1.profit * (10 / 100), s2.profit * (10 / 100),
            s3.profit * 0] := by
  simp only [reportRows, bonusByProfit, calculateBonusByProfit, SellerStat.card, h0, h1, h2, h3,
    round2, List.length, List.map]
  norm_num

theorem bonus_four_sellers_witness :
    (⟨"s0", "A B", 0, 400, 0, []⟩ : SellerStat).profit = 400
      ∧ (⟨"s1", "C D", 0, 300, 0, []⟩ : SellerStat).profit = 300
      ∧ (⟨"s2", "E F", 0, 200, 0, []⟩ : SellerStat).profit = 200
      ∧ (⟨"s3", "G H", 0, 100, 0, []⟩ : SellerStat).profit = 100
      ∧ (reportRows bonusByProfit 4 0
          [⟨"s0", "A B", 0, 400, 0, []⟩, ⟨"s1", "C D", 0, 300, 0, []⟩,
            ⟨"s2", "E F", 0, 200, 0, []⟩, ⟨"s3", "G H", 0, 100, 0, []⟩]).map
            (fun row => row.bonus) = [60, 30, 20, 0] :=
  ⟨rfl, rfl, rfl, rfl,
    (bonus_four_sellers ⟨"s0", "A B", 0, 400, 0, []⟩ ⟨"s1", "C D", 0, 300, 0, []⟩
      ⟨"s2", "E F", 0, 200, 0, []⟩ ⟨"s3", "G H", 0, 100, 0, []⟩ rfl rfl rfl rfl).1⟩

/-- C4: for every index, total and seller, `calculateBonusByProfit` is the first matching
branch of: 0 if `total <= 0`; 15% of the profit if `index = 0`; 10% if `index` is 1 or 2;
0 if `index = total - 1`; 5% otherwise, a missing seller or profit counting as profit 0.
A single seller (index 0 = total - 1) with profit 1000 gets 150. -/
theorem calculateBonusByProfit_first_match (index total : Int) (seller : Option SellerCard) :
    calculateBonusByProfit index total seller
        = firstMatch (bonusBranches index total ((seller.bind (fun s => s.profit)).getD 0))
            ((5 / 100) * (seller.bind (fun s => s.profit)).getD 0)
      ∧ calculateBonusByProfit 0 1 (some { profit := some 1000 }) = 150
      ∧ calculateBonusByProfit (1 - 1) 1 (some { profit := some 1000 }) = 150 := by
  refine ⟨?_, ?_, ?_⟩
  · unfold calculateBonusByProfit bonusBranches
    by_cases ht : total ≤ 0
    · simp [firstMatch, ht]
    · by_cases h0 : index = 0
      · simp [firstMatch, ht, h0, mul_comm]
      · by_cases h12 : index = 1 ∨ index = 2
        · simp [firstMatch, ht, h0, h12, mul_comm]
        · by_cases hl : index = total - 1
          · simp only [firstMatch, ht, h0, h12, hl, decide_False, if_false, decide_True, if_true]
            simp [firstMatch, ← hl, h0, h12]
          · simp [firstMatch, ht, h0, h12, hl, mul_comm]
  · simp only [calculateBonusByProfit]
    norm_num
  · simp only [calculateBonusByProfit]
    norm_num

/-! ## Validation -/

theorem isArray_and_nonempty_iff {α : Type} (f : JsField α) :
    (f.isArray = false ∨ f.elems = []) ↔ BadSequence f := by
  cases f with
  | missing => simp [JsField.isArray, BadSequence]
  | notArray => simp [JsField.isArray, BadSequence]
  | array xs => cases xs <;> simp [JsField.isArray, JsField.elems, BadSequence]

theorem invalidData_iff (data : Option Data) : invalidData data = true ↔ MalformedData data := by
  cases data with
  | none => simp [invalidData, MalformedData]
  | some d =>
    simp only [invalidData, MalformedData, ← isArray_and_nonempty_iff]
    simp
    tauto

theorem policies_none_iff (options : Option Options) :
    (options.bind (fun o => o.calculateRevenue) = none
        ∨ options.bind (fun o => o.calculateBonus) = none) ↔ PolicyMissing options := by
  cases options with
  | none => simp [PolicyMissing]
  | some o => simp [PolicyMissing]

/-! ## Lists and references -/

theorem length_modifyAt {α : Type} (f : α → α) (i : Nat) (l : List α) :
    (modifyAt f i l).length = l.length := by
  induction l generalizing i with
  | nil => simp [modifyAt]
  | cons a l ih => cases i <;> simp [modifyAt, ih]

theorem getElem?_modifyAt {α : Type} (f : α → α) (j : Nat) (l : List α) (i : Nat) :
    (modifyAt f j l)[i]? = if j = i then (l[i]?).map f else l[i]? := by
  induction l generalizing i j with
  | nil => simp [modifyAt]
  | cons a l ih =>
    cases j with
    | zero =>
      cases i with
      | zero => simp [modifyAt]
      | succ i => simp [modifyAt]
    | succ j =>
      cases i with
      | zero => simp [modifyAt]
      | succ i => simp [modifyAt, ih]

theorem map_modifyAt_of_fixed {α β : Type} (g : α → β) (f : α → α) (hf : ∀ a, g (f a) = g a)
    (i : Nat) (l : List α) : (modifyAt f i l).map g = l.map g := by
  induction l generalizing i with
  | nil => simp [modifyAt]
  | cons a l ih => cases i <;> simp [modifyAt, ih, hf]

theorem lastIndexWhere_eq_none {α : Type} (p : α → Bool) (l : List α) :
    lastIndexWhere p l = none ↔ ∀ a ∈ l, p a = false := by
  induction l with
  | nil => simp [lastIndexWhere]
  | cons a l ih =>
    simp only [lastIndexWhere, List.mem_cons, forall_eq_or_imp]
    cases h : lastIndexWhere p l with
    | none =>
      have := ih.mp h
      cases hp : p a
      · simpa using this
      · simp
    | some i =>
      have : ¬ ∀ a ∈ l, p a = false := fun hall => by
        rw [ih.mpr hall] at h; cases h
      simp [this]

theorem lastIndexWhere_isSome {α : Type} (p : α → Bool) (l : List α) :
    (lastIndexWhere p l).isSome = true ↔ ∃ a ∈ l, p a = true := by
  rw [← not_iff_not]
  simp only [Bool.not_eq_true, Option.not_isSome, Option.isNone_iff_eq_none,
    lastIndexWhere_eq_none, not_exists, not_and]

theorem lastIndexWhere_lt {α : Type} (p : α → Bool) (l : List α) (i : Nat)
    (h : lastIndexWhere p l = some i) : i < l.length := by
  induction l generalizing i with
  | nil => simp [lastIndexWhere] at h
  | cons a l ih =>
    simp only [lastIndexWhere] at h
    cases h2 : lastIndexWhere p l with
    | none =>
      rw [h2] at h
      split_ifs at h
      simp only [Option.some.injEq] at h
      subst h
      simp
    | some k =>
      rw [h2] at h
      simp only [Option.some.injEq] at h
      subst h
      simpa using ih k h2

/-- With pairwise distinct keys, the reference found for a key is the position of the one
element that has this key. -/
theorem lastIndexWhere_key_eq_some_iff {α : Type} (key : α → String) (l : List α)
    (hnd : (l.map key).Nodup) (i : Nat) (a : α) (ha : l[i]? = some a) (k : String) :
    lastIndexWhere (fun s => decide (key s = k)) l = some i ↔ key a = k := by
  induction l generalizing i with
  | nil => simp at ha
  | cons b l ih =>
    simp only [List.map_cons, List.nodup_cons, List.mem_map, not_exists, not_and] at hnd
    cases i with
    | zero =>
      simp only [List.getElem?_cons_zero, Option.some.injEq] at ha
      subst ha
      simp only [lastIndexWhere]
      by_cases hk : key b = k
      · have hnone : lastIndexWhere (fun s => decide (key s = k)) l = none := by
          rw [lastIndexWhere_eq_none]
          intro c hc
          simp only [decide_eq_false_iff_not]
          intro hck
          exact hnd.1 c hc (hck.trans hk.symm)
        simp [hnone, hk]
      · cases h2 : lastIndexWhere (fun s => decide (key s = k)) l <;> simp [hk]
    | succ i =>
      simp only [List.getElem?_cons_succ] at ha
      simp only [lastIndexWhere]
      rw [← ih hnd.2 i ha]
      cases h2 : lastIndexWhere (fun s => decide (key s = k)) l with
      | some j => simp
      | none => split_ifs <;> simp

/-! ## One record, one line item -/

theorem processItem_id (rev : LineItem → Option Product → ℚ) (products : List Product)
    (s : SellerStat) (item : LineItem) : (processItem rev products s item).id = s.id := rfl

theorem foldl_processItem_fixed (rev : LineItem → Option Product → ℚ) (products : List Product)
    (items : List LineItem) (s : SellerStat) :
    (items.foldl (processItem rev products) s).id = s.id
      ∧ (items.foldl (processItem rev products) s).name = s.name
      ∧ (items.foldl (processItem rev products) s).revenue = s.revenue
      ∧ (items.foldl (processItem rev products) s).sales_count = s.sales_count := by
  induction items generalizing s with
  | nil => simp
  | cons item items ih =>
    simp only [List.foldl_cons]
    obtain ⟨h1, h2, h3, h4⟩ := ih (processItem rev products s item)
    exact ⟨h1, h2, h3, h4⟩

theorem applyRecord_id (rev : LineItem → Option Product → ℚ) (products : List Product)
    (r : PurchaseRecord) (s : SellerStat) : (applyRecord rev products r s).id = s.id := by
  unfold applyRecord
  exact (foldl_processItem_fixed rev products _ _).1

theorem applyRecord_sales_count (rev : LineItem → Option Product → ℚ) (products : List Product)
    (r : PurchaseRecord) (s : SellerStat) :
    (applyRecord rev products r s).sales_count = s.sales_count + 1 := by
  unfold applyRecord
  exact (foldl_processItem_fixed rev products _ _).2.2.2

theorem applyRecord_revenue (rev : LineItem → Option Product → ℚ) (products : List Product)
    (r : PurchaseRecord) (s : SellerStat) :
    (applyRecord rev products r s).revenue
      = s.revenue + (r.total_amount.getD 0 - r.total_discount.getD 0) := by
  unfold applyRecord
  exact (foldl_processItem_fixed rev products _ _).2.2.1

theorem foldl_processItem_profit (rev : LineItem → Option Product → ℚ) (products : List Product)
    (items : List LineItem) (s : SellerStat) :
    (items.foldl (processItem rev products) s).profit
      = s.profit + (items.map (itemProfit rev products)).sum := by
  induction items generalizing s with
  | nil => simp
  | cons item items ih =>
    simp only [List.foldl_cons, List.map_cons, List.sum_cons]
    rw [ih]
    simp only [processItem, itemProfit]
    ring

theorem applyRecord_profit (rev : LineItem → Option Product → ℚ) (products : List Product)
    (r : PurchaseRecord) (s : SellerStat) :
    (applyRecord rev products r s).profit = s.profit + recordProfit rev products r := by
  unfold applyRecord recordProfit
  rw [foldl_processItem_profit]

/-! ## The scan of the purchase records -/

theorem length_processRecord (rev : LineItem → Option Product → ℚ) (products : List Product)
    (index : String → Option Nat) (stats : List SellerStat) (r : PurchaseRecord) :
    (processRecord rev products index stats r).length = stats.length := by
  unfold processRecord
  cases index r.seller_id <;> simp [length_modifyAt]

theorem map_id_processRecord (rev : LineItem → Option Product → ℚ) (products : List Product)
    (index : String → Option Nat) (stats : List SellerStat) (r : PurchaseRecord) :
    (processRecord rev products index stats r).map (fun s => s.id) = stats.map (fun s => s.id) := by
  unfold processRecord
  cases index r.seller_id with
  | none => rfl
  | some i => exact map_modifyAt_of_fixed _ _ (applyRecord_id rev products r) i stats

theorem map_id_foldl_processRecord (rev : LineItem → Option Product → ℚ)
    (products : List Product) (index : String → Option Nat) (records : List PurchaseRecord)
    (stats : List SellerStat) :
    (records.foldl (processRecord rev products index) stats).map (fun s => s.id)
      = stats.map (fun s => s.id) := by
  induction records generalizing stats with
  | nil => rfl
  | cons r records ih => simp only [List.foldl_cons, ih, map_id_processRecord]

theorem map_id_initStats (sellers : List Seller) :
    (initStats sellers).map (fun s => s.id) = sellers.map (fun s => s.id) := by
  simp [initStats, Function.comp_def]

theorem map_id_aggregate (rev : LineItem → Option Product → ℚ) (sellers : List Seller)
    (products : List Product) (records : List PurchaseRecord) :
    (aggregate rev sellers products records).map (fun s => s.id)
      = sellers.map (fun s => s.id) := by
  unfold aggregate
  rw [map_id_foldl_processRecord, map_id_initStats]

/-- Every object of `sellerStats` receives exactly the records whose reference points to it,
in input order. -/
theorem getElem?_foldl_processRecord (rev : LineItem → Option Product → ℚ)
    (products : List Product) (index : String → Option Nat) (records : List PurchaseRecord)
    (stats : List SellerStat) (i : Nat) :
    (records.foldl (processRecord rev products index) stats)[i]?
      = (stats[i]?).map (fun s =>
          (records.filter (fun r => decide (index r.seller_id = some i))).foldl
            (fun acc r => applyRecord rev products r acc) s) := by
  induction records generalizing stats with
  | nil => simp
  | cons r records ih =>
    simp only [List.foldl_cons]
    rw [ih]
    unfold processRecord
    cases h : index r.seller_id with
    | none => simp [List.filter_cons, h]
    | some j =>
      rw [getElem?_modifyAt]
      by_cases hji : j = i
      · subst hji
        simp only [List.filter_cons, h, decide_True, if_true, List.foldl_cons, Option.map_map]
        rfl
      · simp [List.filter_cons, h, hji]

/-! ## Ranking and projection -/

theorem mem_reportRows (bon : Int → Int → SellerStat → ℚ) (total : Nat) (k : Nat)
    (l : List SellerStat) (row : ReportRow) (h : row ∈ reportRows bon total k l) :
    ∃ s ∈ l, row.seller_id = s.id ∧ row.name = s.name ∧ row.revenue = round2 s.revenue
      ∧ row.profit = round2 s.profit ∧ row.sales_count = s.sales_count
      ∧ row.top_products = topProducts s.products_sold := by
  induction l generalizing k with
  | nil => simp [reportRows] at h
  | cons s l ih =>
    simp only [reportRows, List.mem_cons] at h
    rcases h with h | h
    · exact ⟨s, List.mem_cons_self _ _, by subst h; exact ⟨rfl, rfl, rfl, rfl, rfl, rfl⟩⟩
    · obtain ⟨t, ht, hrest⟩ := ih (k + 1) h
      exact ⟨t, List.mem_cons_of_mem _ ht, hrest⟩

theorem map_seller_id_reportRows (bon : Int → Int → SellerStat → ℚ) (total : Nat) (k : Nat)
    (l : List SellerStat) :
    (reportRows bon total k l).map (fun row => row.seller_id) = l.map (fun s => s.id) := by
  induction l generalizing k with
  | nil => rfl
  | cons s l ih => simp [reportRows, ih]

theorem map_sales_count_reportRows (bon : Int → Int → SellerStat → ℚ) (total : Nat) (k : Nat)
    (l : List SellerStat) :
    (reportRows bon total k l).map (fun row => row.sales_count)
      = l.map (fun s => s.sales_count) := by
  induction l generalizing k with
  | nil => rfl
  | cons s l ih => simp [reportRows, ih]

theorem pairwise_profit_reportRows (bon : Int → Int → SellerStat → ℚ) (total : Nat) (k : Nat)
    (l : List SellerStat) (h : l.Pairwise (fun a b => b.profit ≤ a.profit)) :
    (reportRows bon total k l).Pairwise (fun a b => b.profit ≤ a.profit) := by
  induction l generalizing k with
  | nil => simp [reportRows]
  | cons s l ih =>
    rw [List.pairwise_cons] at h
    simp only [reportRows, List.pairwise_cons]
    refine ⟨?_, ih (k + 1) h.2⟩
    intro row hrow
    obtain ⟨t, ht, _, _, _, hp, _⟩ := mem_reportRows bon total (k + 1) l row hrow
    rw [hp]
    exact round2_mono (h.1 t ht)

theorem sortByProfit_perm (stats : List SellerStat) : (sortByProfit stats).Perm stats :=
  List.perm_insertionSort _ stats

theorem sortByProfit_pairwise (stats : List SellerStat) :
    (sortByProfit stats).Pairwise (fun a b => b.profit ≤ a.profit) := by
  haveI : IsTotal SellerStat (fun a b => b.profit ≤ a.profit) := ⟨fun a b => le_total _ _⟩
  haveI : IsTrans SellerStat (fun a b => b.profit ≤ a.profit) :=
    ⟨fun a b c hab hbc => le_trans hbc hab⟩
  exact List.sorted_insertionSort _ stats

theorem analyzeSalesData_valid (rev : LineItem → Option Product → ℚ)
    (bon : Int → Int → SellerStat → ℚ) (sellers : List Seller) (products : List Product)
    (records : List PurchaseRecord) (hs : sellers ≠ []) (hp : products ≠ [])
    (hr : records ≠ []) :
    analyzeSalesData (mkData sellers products records) (mkOptions rev bon)
      = .ok (buildReport rev bon sellers products records) := by
  have h : invalidData (mkData sellers products records) = false := by
    simp [invalidData, mkData, JsField.isArray, JsField.elems, hs, hp, hr]
  unfold analyzeSalesData
  rw [h]
  simp [mkOptions, mkData, JsField.elems]

theorem analyzeSalesData_ok (data : Option Data) (options : Option Options)
    (rows : List ReportRow) (h : analyzeSalesData data options = .ok rows) :
    ∃ rev bon sellers products records, rows = buildReport rev bon sellers products records := by
  unfold analyzeSalesData at h
  split_ifs at h
  split at h
  · simp only [Except.ok.injEq] at h
    exact ⟨_, _, _, _, _, h.symm⟩
  · cases h

theorem foldl_applyRecord (rev : LineItem → Option Product → ℚ) (products : List Product)
    (rs : List PurchaseRecord) (s : SellerStat) :
    (rs.foldl (fun acc r => applyRecord rev products r acc) s).id = s.id
      ∧ (rs.foldl (fun acc r => applyRecord rev products r acc) s).profit
          = s.profit + (rs.map (recordProfit rev products)).sum
      ∧ (rs.foldl (fun acc r => applyRecord rev products r acc) s).revenue
          = s.revenue + (rs.map (fun r => r.total_amount.getD 0 - r.total_discount.getD 0)).sum
      ∧ (rs.foldl (fun acc r => applyRecord rev products r acc) s).sales_count
          = s.sales_count + rs.length := by
  induction rs generalizing s with
  | nil => simp
  | cons r rs ih =>
    simp only [List.foldl_cons, List.map_cons, List.sum_cons, List.length_cons]
    obtain ⟨h1, h2, h3, h4⟩ := ih (applyRecord rev products r s)
    rw [h1, h2, h3, h4, applyRecord_id, applyRecord_profit, applyRecord_revenue,
      applyRecord_sales_count]
    refine ⟨rfl, by ring, by ring, by omega⟩

theorem mem_initStats (sellers : List Seller) (s : SellerStat) (h : s ∈ initStats sellers) :
    s.revenue = 0 ∧ s.profit = 0 ∧ s.sales_count = 0 ∧ s.products_sold = [] := by
  simp only [initStats, List.mem_map] at h
  obtain ⟨x, _, rfl⟩ := h
  exact ⟨rfl, rfl, rfl, rfl⟩

/-- With pairwise distinct seller ids, each object of `sellerStats` ends the scan with the
exact totals of the records that carry its id. -/
theorem mem_aggregate_of_nodup (rev : LineItem → Option Product → ℚ) (sellers : List Seller)
    (products : List Product) (records : List PurchaseRecord)
    (hnd : (sellers.map (fun s => s.id)).Nodup) (s : SellerStat)
    (hs : s ∈ aggregate rev sellers products records) :
    s.profit = sellerProfit rev products records s.id
      ∧ s.revenue = sellerRevenue records s.id := by
  obtain ⟨i, hi⟩ := List.mem_iff_getElem?.mp hs
  unfold aggregate at hi
  rw [getElem?_foldl_processRecord] at hi
  cases h0 : (initStats sellers)[i]? with
  | none => rw [h0] at hi; cases hi
  | some s0 =>
    rw [h0] at hi
    simp only [Option.map_some', Option.some.injEq] at hi
    have hnd0 : ((initStats sellers).map (fun s => s.id)).Nodup := by
      rw [map_id_initStats]; exact hnd
    have hfilter : records.filter (fun r => decide (sellerIndex (initStats sellers) r.seller_id
          = some i)) = records.filter (fun r => decide (r.seller_id = s0.id)) := by
      apply List.filter_congr
      intro r _
      have := lastIndexWhere_key_eq_some_iff (fun s : SellerStat => s.id) (initStats sellers)
        hnd0 i s0 h0 r.seller_id
      unfold sellerIndex
      by_cases hk : s0.id = r.seller_id
      · simp [this.mpr hk, hk]
      · have hne : ¬ lastIndexWhere (fun s => decide (s.id = r.seller_id)) (initStats sellers)
            = some i := fun hl => hk (this.mp hl)
        have hk2 : ¬ r.seller_id = s0.id := fun e => hk e.symm
        simp [hne, hk2]
    rw [hfilter] at hi
    obtain ⟨z1, z2, _, _⟩ := mem_initStats sellers s0 (List.getElem?_mem h0)
    obtain ⟨f1, f2, f3, _⟩ := foldl_applyRecord rev products
      (records.filter (fun r => decide (r.seller_id = s0.id))) s0
    rw [hi] at f1 f2 f3
    rw [f1, f2, f3, z1, z2]
    simp [sellerProfit, sellerRevenue]

theorem sum_sales_count_modifyAt (rev : LineItem → Option Product → ℚ)
    (products : List Product) (r : PurchaseRecord) (i : Nat) (l : List SellerStat)
    (hi : i < l.length) :
    ((modifyAt (applyRecord rev products r) i l).map (fun s => s.sales_count)).sum
      = (l.map (fun s => s.sales_count)).sum + 1 := by
  induction l generalizing i with
  | nil => simp at hi
  | cons a l ih =>
    cases i with
    | zero => simp [modifyAt, applyRecord_sales_count]; omega
    | succ i =>
      simp only [List.length_cons, Nat.add_lt_add_iff_right] at hi
      simp only [modifyAt, List.map_cons, List.sum_cons, ih i hi]
      omega

theorem sum_sales_count_foldl (rev : LineItem → Option Product → ℚ) (products : List Product)
    (index : String → Option Nat) (records : List PurchaseRecord) (stats : List SellerStat)
    (hidx : ∀ id i, index id = some i → i < stats.length) :
    ((records.foldl (processRecord rev products index) stats).map (fun s => s.sales_count)).sum
      = (stats.map (fun s => s.sales_count)).sum
        + (records.filter (fun r => (index r.seller_id).isSome)).length := by
  induction records generalizing stats with
  | nil => simp
  | cons r records ih =>
    simp only [List.foldl_cons]
    rw [ih _ (by rw [length_processRecord]; exact hidx)]
    unfold processRecord
    cases h : index r.seller_id with
    | none => simp [List.filter_cons, h]
    | some i =>
      simp only [List.filter_cons, h, Option.isSome_some, if_true, List.length_cons]
      rw [sum_sales_count_modifyAt rev products r i stats (hidx _ _ h)]
      omega

theorem sellerIndex_isSome_iff (sellers : List Seller) (id : String) :
    (sellerIndex (initStats sellers) id).isSome = true ↔ id ∈ sellers.map (fun s => s.id) := by
  unfold sellerIndex
  rw [lastIndexWhere_isSome, ← map_id_initStats]
  simp only [decide_eq_true_eq, List.mem_map]

theorem foldl_processRecord_skip (rev : LineItem → Option Product → ℚ) (products : List Product)
    (index : String → Option Nat) (pre post : List PurchaseRecord) (r : PurchaseRecord)
    (stats : List SellerStat) (h : index r.seller_id = none) :
    (pre ++ r :: post).foldl (processRecord rev products index) stats
      = (pre ++ post).foldl (processRecord rev products index) stats := by
  simp only [List.foldl_append, List.foldl_cons, processRecord, h]

/-! ## The report -/

/-- C5: the rows returned by `analyzeSalesData` are ordered by profit descending: for every
adjacent pair of rows `(i, i+1)` the rounded profit of row `i` is at least the rounded profit
of row `i+1`. -/
theorem analyzeSalesData_profit_descending (data : Option Data) (options : Option Options)
    (rows : List ReportRow) (h : analyzeSalesData data options = .ok rows) (i : Nat)
    (hi : i + 1 < rows.length) :
    (rows.get ⟨i + 1, hi⟩).profit ≤ (rows.get ⟨i, Nat.lt_of_succ_lt hi⟩).profit := by
  obtain ⟨rev, bon, sellers, products, records, rfl⟩ := analyzeSalesData_ok data options rows h
  have hpw : (buildReport rev bon sellers products records).Pairwise
      (fun a b => b.profit ≤ a.profit) := by
    unfold buildReport
    exact pairwise_profit_reportRows bon _ 0 _ (sortByProfit_pairwise _)
  exact List.pairwise_iff_get.mp hpw ⟨i, Nat.lt_of_succ_lt hi⟩ ⟨i + 1, hi⟩ (by simp)

theorem analyzeSalesData_profit_descending_witness :
    analyzeSalesData (mkData sampleSellers sampleProducts sampleRecords)
        (mkOptions simpleRevenue bonusByProfit) = .ok sampleReport
      ∧ (sampleReport.get ⟨0 + 1, by decide⟩).profit ≤ (sampleReport.get ⟨0, by decide⟩).profit :=
  ⟨by decide!,
    analyzeSalesData_profit_descending (mkData sampleSellers sampleProducts sampleRecords)
      (mkOptions simpleRevenue bonusByProfit) sampleReport (by decide!) 0 (by decide)⟩

/-! ## Rounding is idempotent -/

theorem round2_is_hundredth (x : ℚ) : ∃ n : ℤ, round2 x = (n : ℚ) / 100 := by
  unfold round2
  split_ifs
  · exact ⟨-⌊(-x) * 100 + 1 / 2⌋, by push_cast; ring⟩
  · exact ⟨⌊x * 100 + 1 / 2⌋, rfl⟩

theorem round2_round2 (x : ℚ) : round2 (round2 x) = round2 x := by
  obtain ⟨n, hn⟩ := round2_is_hundredth x
  rw [hn, round2_hundredths]

theorem bonus_mem_reportRows (bon : Int → Int → SellerStat → ℚ) (total : Nat) (k : Nat)
    (l : List SellerStat) (row : ReportRow) (h : row ∈ reportRows bon total k l) :
    ∃ x, row.bonus = round2 x := by
  induction l generalizing k with
  | nil => simp [reportRows] at h
  | cons s l ih =>
    simp only [reportRows, List.mem_cons] at h
    rcases h with h | h
    · exact ⟨_, by subst h; rfl⟩
    · exact ih (k + 1) h

/-- C17: the 2-decimal rounding of the projection is idempotent: rounding a rounded value
again returns it unchanged, every rounded value is an integer number of hundredths, and so
the revenue, profit and bonus of every emitted row are fixed points of the rounding and
exact multiples of 0.01. -/
theorem rounding_idempotent (x : ℚ) (data : Option Data) (options : Option Options)
    (rows : List ReportRow) (h : analyzeSalesData data options = .ok rows) (row : ReportRow)
    (hrow : row ∈ rows) :
    round2 (round2 x) = round2 x
      ∧ (∃ n : ℤ, round2 x = (n : ℚ) / 100)
      ∧ round2 row.revenue = row.revenue ∧ round2 row.profit = row.profit
      ∧ round2 row.bonus = row.bonus
      ∧ (∃ n : ℤ, row.revenue = (n : ℚ) / 100) ∧ (∃ n : ℤ, row.profit = (n : ℚ) / 100)
      ∧ (∃ n : ℤ, row.bonus = (n : ℚ) / 100) := by
  obtain ⟨rev, bon, sellers, products, records, rfl⟩ := analyzeSalesData_ok data options rows h
  unfold buildReport at hrow
  obtain ⟨s, _, _, _, hrev, hprofit, _⟩ := mem_reportRows bon _ 0 _ row hrow
  obtain ⟨b, hb⟩ := bonus_mem_reportRows bon _ 0 _ row hrow
  rw [hrev, hprofit, hb]
  exact ⟨round2_round2 x, round2_is_hundredth x, round2_round2 _, round2_round2 _,
    round2_round2 _, round2_is_hundredth _, round2_is_hundredth _, round2_is_hundredth _⟩

theorem rounding_idempotent_witness :
    analyzeSalesData (mkData sampleSellers sampleProducts sampleRecords)
        (mkOptions simpleRevenue bonusByProfit) = .ok sampleReport
      ∧ (⟨"s2", "Bob Ray", 115, 91 / 2, 2, [⟨"p1", 3⟩, ⟨"p3", 2⟩, ⟨"p2", 1⟩], 683 / 100⟩
          : ReportRow) ∈ sampleReport
      ∧ round2 (round2 (6825 / 1000)) = round2 (6825 / 1000)
      ∧ round2 (683 / 100) = 683 / 100 :=
  ⟨by decide!, by decide!,
    (rounding_idempotent (6825 / 1000) (mkData sampleSellers sampleProducts sampleRecords)
      (mkOptions simpleRevenue bonusByProfit) sampleReport (by decide!)
      ⟨"s2", "Bob Ray", 115, 91 / 2, 2, [⟨"p1", 3⟩, ⟨"p3", 2⟩, ⟨"p2", 1⟩], 683 / 100⟩
      (by decide!)).1,
    (rounding_idempotent (6825 / 1000) (mkData sampleSellers sampleProducts sampleRecords)
      (mkOptions simpleRevenue bonusByProfit) sampleReport (by decide!)
      ⟨"s2", "Bob Ray", 115, 91 / 2, 2, [⟨"p1", 3⟩, ⟨"p3", 2⟩, ⟨"p2", 1⟩], 683 / 100⟩
      (by decide!)).2.2.2.2.1⟩

/-! ## The reference revenue policy -/

/-- C18: for every line item, `calculateSimpleRevenue(item, product)` is
`sale_price * quantity * (1 - discount / 100)` with a missing discount, sale price or
quantity counting as 0, and 0 for an absent item; it does not depend on the product, is
`sale_price * quantity` when the discount is 0 (or missing) and 0 when the discount is 100. -/
theorem calculateSimpleRevenue_formula (item : LineItem) (product other : Option Product) :
    calculateSimpleRevenue (some item) product
        = item.sale_price.getD 0 * item.quantity.getD 0 * (1 - item.discount.getD 0 / 100)
      ∧ calculateSimpleRevenue none product = 0
      ∧ calculateSimpleRevenue (some item) product = calculateSimpleRevenue (some item) other
      ∧ calculateSimpleRevenue (some { item with discount := some 0 }) product
          = item.sale_price.getD 0 * item.quantity.getD 0
      ∧ calculateSimpleRevenue (some { item with discount := none }) product
          = item.sale_price.getD 0 * item.quantity.getD 0
      ∧ calculateSimpleRevenue (some { item with discount := some 100 }) product = 0 := by
  simp [calculateSimpleRevenue]


/-! ## Top products, ranks and bonuses -/

theorem topProducts_length_le (sold : List (String × ℚ)) : (topProducts sold).length ≤ 10 := by
  unfold topProducts
  rw [List.length_take]
  exact Nat.min_le_left _ _

theorem topProducts_pairwise (sold : List (String × ℚ)) :
    (topProducts sold).Pairwise (fun a b => b.quantity ≤ a.quantity) := by
  haveI : IsTotal TopProduct (fun a b => b.quantity ≤ a.quantity) := ⟨fun a b => le_total _ _⟩
  haveI : IsTrans TopProduct (fun a b => b.quantity ≤ a.quantity) :=
    ⟨fun a b c hab hbc => le_trans hbc hab⟩
  unfold topProducts
  exact (List.sorted_insertionSort _ _).sublist (List.take_sublist _ _)

theorem getElem?_reportRows (bon : Int → Int → SellerStat → ℚ) (total : Nat) (k : Nat)
    (l : List SellerStat) (i : Nat) :
    (reportRows bon total k l)[i]?
      = (l[i]?).map (fun s =>
          ({ seller_id := s.id
             name := s.name
             revenue := round2 s.revenue
             profit := round2 s.profit
             sales_count := s.sales_count
             top_products := topProducts s.products_sold
             bonus := round2 (bon ((k + i : Nat) : Int) total s) } : ReportRow)) := by
  induction l generalizing k i with
  | nil => simp [reportRows]
  | cons s l ih =>
    cases i with
    | zero => simp [reportRows]
    | succ i =>
      simp only [reportRows, List.getElem?_cons_succ, ih]
      have : k + 1 + i = k + (i + 1) := by omega
      rw [this]

theorem length_reportRows (bon : Int → Int → SellerStat → ℚ) (total : Nat) (k : Nat)
    (l : List SellerStat) : (reportRows bon total k l).length = l.length := by
  induction l generalizing k with
  | nil => rfl
  | cons s l ih => simp [reportRows, ih]

theorem length_aggregate (rev : LineItem → Option Product → ℚ) (sellers : List Seller)
    (products : List Product) (records : List PurchaseRecord) :
    (aggregate rev sellers products records).length = sellers.length := by
  have := congrArg List.length (map_id_aggregate rev sellers products records)
  simpa using this

theorem length_sortByProfit (stats : List SellerStat) :
    (sortByProfit stats).length = stats.length := (sortByProfit_perm stats).length_eq

theorem round2_zero : round2 0 = 0 := by
  have := round2_hundredths 0
  simpa using this

theorem round2_nonneg {x : ℚ} (h : 0 ≤ x) : 0 ≤ round2 x := by
  have := round2_mono h
  rwa [round2_zero] at this

theorem calculateBonusByProfit_nonneg (i n : Int) (p : ℚ) (hp : 0 ≤ p) :
    0 ≤ calculateBonusByProfit i n (some { profit := some p }) := by
  simp only [calculateBonusByProfit, Option.some_bind, Option.getD_some]
  split_ifs <;> first | exact le_refl _ | positivity

/-- Down the ranking the reference bonus does not grow: the rate of rank `i + 1` is at most
the rate of rank `i` as long as rank `i + 1` exists, and the profits are non-increasing. -/
theorem calculateBonusByProfit_step (i n : Nat) (pa pb : ℚ) (hi : i + 1 < n) (hb : 0 ≤ pb)
    (hab : pb ≤ pa) :
    calculateBonusByProfit ((i + 1 : Nat) : Int) (n : Int) (some { profit := some pb })
      ≤ calculateBonusByProfit (i : Int) (n : Int) (some { profit := some pa }) := by
  simp only [calculateBonusByProfit, Option.some_bind, Option.getD_some]
  push_cast
  split_ifs <;> first | (exfalso; omega) | linarith

/-- C20: with `calculateBonusByProfit` as the bonus policy and every accumulated profit
non-negative, no bonus of the report is negative and the bonuses do not increase down the
ranking: `row[i].bonus >= row[i+1].bonus >= 0` for every adjacent pair of rows. -/
theorem reference_bonus_non_increasing (rev : LineItem → Option Product → ℚ)
    (sellers : List Seller) (products : List Product) (records : List PurchaseRecord)
    (hs : sellers ≠ []) (hp : products ≠ []) (hr : records ≠ [])
    (hnonneg : ∀ s ∈ aggregate rev sellers products records, 0 ≤ s.profit) :
    ∃ rows, analyzeSalesData (mkData sellers products records)
          (mkOptions rev bonusByProfit) = .ok rows
      ∧ (∀ row ∈ rows, 0 ≤ row.bonus)
      ∧ ∀ (i : Nat) (a b : ReportRow), rows[i]? = some a → rows[i + 1]? = some b →
          b.bonus ≤ a.bonus ∧ 0 ≤ b.bonus := by
  refine ⟨_, analyzeSalesData_valid rev bonusByProfit sellers products records hs hp hr, ?_⟩
  have hsorted := sortByProfit_pairwise (aggregate rev sellers products records)
  have hmem : ∀ s ∈ sortByProfit (aggregate rev sellers products records), 0 ≤ s.profit :=
    fun s h => hnonneg s ((sortByProfit_perm _).mem_iff.mp h)
  have hall : ∀ row ∈ buildReport rev bonusByProfit sellers products records,
      0 ≤ row.bonus := by
    intro row hrow
    obtain ⟨i, hi⟩ := List.mem_iff_getElem?.mp hrow
    unfold buildReport at hi
    simp only at hi
    rw [getElem?_reportRows] at hi
    cases hsi : (sortByProfit (aggregate rev sellers products records))[i]? with
    | none => rw [hsi] at hi; cases hi
    | some s =>
      rw [hsi] at hi
      simp only [Option.map_some', Option.some.injEq] at hi
      rw [← hi]
      exact round2_nonneg (calculateBonusByProfit_nonneg _ _ _ (hmem s (List.getElem?_mem hsi)))
  refine ⟨hall, ?_⟩
  intro i a b ha hb
  refine ⟨?_, hall b (List.getElem?_mem hb)⟩
  unfold buildReport at ha hb
  simp only at ha hb
  rw [getElem?_reportRows] at ha hb
  cases hsa : (sortByProfit (aggregate rev sellers products records))[i]? with
  | none => rw [hsa] at ha; cases ha
  | some sa =>
    cases hsb : (sortByProfit (aggregate rev sellers products records))[i + 1]? with
    | none => rw [hsb] at hb; cases hb
    | some sb =>
      rw [hsa] at ha
      rw [hsb] at hb
      simp only [Option.map_some', Option.some.injEq] at ha hb
      rw [← ha, ← hb]
      obtain ⟨hia, hsa2⟩ := List.getElem?_eq_some.mp hsa
      obtain ⟨hib, hsb2⟩ := List.getElem?_eq_some.mp hsb
      have hle : sb.profit ≤ sa.profit := by
        rw [← hsa2, ← hsb2]
        exact List.pairwise_iff_getElem.mp hsorted i (i + 1) hia hib (Nat.lt_succ_self i)
      apply round2_mono
      simp only [Nat.zero_add, bonusByProfit, SellerStat.card]
      exact calculateBonusByProfit_step i _ sa.profit sb.profit hib
        (hmem sb (List.getElem?_mem hsb)) hle

theorem reference_bonus_non_increasing_witness :
    sampleSellers ≠ [] ∧ sampleProducts ≠ [] ∧ sampleRecords ≠ []
      ∧ (∀ s ∈ aggregate simpleRevenue sampleSellers sampleProducts sampleRecords, 0 ≤ s.profit)
      ∧ ∃ rows, analyzeSalesData (mkData sampleSellers sampleProducts sampleRecords)
            (mkOptions simpleRevenue bonusByProfit) = .ok rows
          ∧ (∀ row ∈ rows, 0 ≤ row.bonus)
          ∧ ∀ (i : Nat) (a b : ReportRow), rows[i]? = some a → rows[i + 1]? = some b →
              b.bonus ≤ a.bonus ∧ 0 ≤ b.bonus :=
  ⟨by decide, by decide, by decide, by decide!,
    reference_bonus_non_increasing simpleRevenue sampleSellers sampleProducts sampleRecords
      (by decide) (by decide) (by decide) (by decide!)⟩

theorem pair_sublist_of_getElem? {α : Type} (l : List α) (i j : Nat) (a b : α) (hij : i < j)
    (ha : l[i]? = some a) (hb : l[j]? = some b) : List.Sublist [a, b] l := by
  induction l generalizing i j with
  | nil => simp at ha
  | cons x l ih =>
    cases j with
    | zero => omega
    | succ j =>
      simp only [List.getElem?_cons_succ] at hb
      cases i with
      | zero =>
        simp only [List.getElem?_cons_zero, Option.some.injEq] at ha
        subst ha
        exact List.Sublist.cons₂ _ (List.singleton_sublist.mpr (List.getElem?_mem hb))
      | succ i =>
        simp only [List.getElem?_cons_succ] at ha
        exact List.Sublist.cons _ (ih i j (by omega) ha hb)

/-! ## The quantity map -/

theorem objGet_eq_none_iff (m : List (String × ℚ)) (k : String) :
    objGet m k = none ↔ k ∉ m.map Prod.fst := by
  induction m with
  | nil => simp [objGet]
  | cons e m ih =>
    simp only [objGet, List.map_cons, List.mem_cons, not_or]
    by_cases h : e.1 = k
    · simp [h]
    · simp only [h, if_false, ih]
      exact ⟨fun hk => ⟨fun hke => h hke.symm, hk⟩, fun hk => hk.2⟩

theorem objGet_objSet (m : List (String × ℚ)) (k : String) (v : ℚ) (k2 : String) :
    objGet (objSet m k v) k2 = if k = k2 then some v else objGet m k2 := by
  induction m with
  | nil => simp [objSet, objGet]
  | cons e m ih =>
    simp only [objSet]
    by_cases h : e.1 = k
    · simp only [h, if_true, objGet]
      by_cases h2 : k = k2
      · simp [h2]
      · simp [h2]
    · simp only [h, if_false, objGet, ih]
      by_cases h3 : e.1 = k2
      · have : ¬ k = k2 := fun hk => h (h3.trans hk.symm)
        simp [h3, this]
      · simp [h3]

theorem keys_objSet (m : List (String × ℚ)) (k : String) (v : ℚ) :
    (objSet m k v).map Prod.fst
      = if k ∈ m.map Prod.fst then m.map Prod.fst else m.map Prod.fst ++ [k] := by
  induction m with
  | nil => simp [objSet]
  | cons e m ih =>
    simp only [objSet]
    by_cases h : e.1 = k
    · simp [h]
    · have hk : ¬ k = e.1 := fun hk => h hk.symm
      simp only [h, if_false, List.map_cons, ih, List.mem_cons, hk, false_or]
      split_ifs <;> simp

theorem objGet_addSold (m : List (String × ℚ)) (sku : String) (q : ℚ) (k : String) :
    objGet (addSold m sku q) k
      = if sku = k then some ((objGet m sku).getD 0 + q) else objGet m k := by
  unfold addSold
  simp only
  by_cases h0 : (objGet m sku).getD 0 = 0
  · simp only [h0, if_true, objGet_objSet]
    by_cases hk : sku = k
    · simp [hk]
    · simp [hk]
  · simp only [h0, if_false, objGet_objSet]

theorem keys_addSold (m : List (String × ℚ)) (sku : String) (q : ℚ) :
    (addSold m sku q).map Prod.fst
      = if sku ∈ m.map Prod.fst then m.map Prod.fst else m.map Prod.fst ++ [sku] := by
  unfold addSold
  simp only
  by_cases h0 : (objGet m sku).getD 0 = 0
  · simp only [h0, if_true, keys_objSet]
    by_cases hk : sku ∈ m.map Prod.fst
    · simp [hk]
    · simp [hk]
  · have hk : sku ∈ m.map Prod.fst := by
      by_contra hk
      rw [(objGet_eq_none_iff m sku).mpr hk] at h0
      exact h0 rfl
    simp only [h0, if_false, keys_objSet, hk, if_true]

/-! ## Sellers that share an id -/

theorem lastIndexWhere_eq_some_iff {α : Type} (p : α → Bool) (l : List α) (i : Nat) :
    lastIndexWhere p l = some i
      ↔ (∃ a, l[i]? = some a ∧ p a = true)
        ∧ ∀ (j : Nat) (b : α), i < j → l[j]? = some b → p b = false := by
  induction l generalizing i with
  | nil => simp [lastIndexWhere]
  | cons x l ih =>
    simp only [lastIndexWhere]
    cases h : lastIndexWhere p l with
    | some k =>
      obtain ⟨⟨a, hka, hpa⟩, hlater⟩ := (ih k).mp h
      constructor
      · intro hi
        simp only [Option.some.injEq] at hi
        subst hi
        refine ⟨⟨a, by simpa using hka, hpa⟩, ?_⟩
        intro j b hj hb
        cases j with
        | zero => omega
        | succ j =>
          simp only [List.getElem?_cons_succ] at hb
          exact hlater j b (by omega) hb
      · rintro ⟨⟨a2, ha2, hpa2⟩, hlater2⟩
        simp only [Option.some.injEq]
        cases i with
        | zero =>
          have := hlater2 (k + 1) a (by omega) (by simpa using hka)
          rw [hpa] at this
          cases this
        | succ i =>
          simp only [List.getElem?_cons_succ] at ha2
          have hi : lastIndexWhere p l = some i :=
            (ih i).mpr ⟨⟨a2, ha2, hpa2⟩, fun j b hj hb =>
              hlater2 (j + 1) b (by omega) (by simpa using hb)⟩
          rw [h] at hi
          simpa using hi
    | none =>
      have hall := (lastIndexWhere_eq_none p l).mp h
      constructor
      · intro hi
        split_ifs at hi with hpx
        simp only [Option.some.injEq] at hi
        subst hi
        refine ⟨⟨x, by simp, hpx⟩, ?_⟩
        intro j b hj hb
        cases j with
        | zero => omega
        | succ j =>
          simp only [List.getElem?_cons_succ] at hb
          exact hall b (List.getElem?_mem hb)
      · rintro ⟨⟨a2, ha2, hpa2⟩, _⟩
        cases i with
        | zero =>
          simp only [List.getElem?_cons_zero, Option.some.injEq] at ha2
          subst ha2
          simp [hpa2]
        | succ i =>
          simp only [List.getElem?_cons_succ] at ha2
          have := hall a2 (List.getElem?_mem ha2)
          rw [hpa2] at this
          cases this

theorem getElem?_initStats (sellers : List Seller) (i : Nat) :
    (initStats sellers)[i]?
      = (sellers[i]?).map (fun seller =>
          ({ id := seller.id
             name := seller.first_name ++ " " ++ seller.last_name
             revenue := 0
             profit := 0
             sales_count := 0
             products_sold := [] } : SellerStat)) := by
  simp [initStats]

theorem mem_reportRows_of_mem (bon : Int → Int → SellerStat → ℚ) (total : Nat) (k : Nat)
    (l : List SellerStat) (s : SellerStat) (h : s ∈ l) :
    ∃ row ∈ reportRows bon total k l, row.seller_id = s.id ∧ row.revenue = round2 s.revenue
      ∧ row.profit = round2 s.profit ∧ row.sales_count = s.sales_count
      ∧ row.top_products = topProducts s.products_sold := by
  induction l generalizing k with
  | nil => simp at h
  | cons t l ih =>
    simp only [List.mem_cons] at h
    rcases h with h | h
    · subst h
      exact ⟨_, by simp only [reportRows]; exact List.mem_cons_self _ _, rfl, rfl, rfl, rfl, rfl⟩
    · obtain ⟨row, hrow, hrest⟩ := ih (k + 1) h
      exact ⟨row, by simp only [reportRows]; exact List.mem_cons_of_mem _ hrow, hrest⟩

theorem map_view_reportRows (bon : Int → Int → SellerStat → ℚ) (total : Nat) (k : Nat)
    (l : List SellerStat) :
    (reportRows bon total k l).map
        (fun row => (row.seller_id, row.revenue, row.profit, row.sales_count, row.top_products))
      = l.map (fun s => (s.id, round2 s.revenue, round2 s.profit, s.sales_count,
          topProducts s.products_sold)) := by
  induction l generalizing k with
  | nil => rfl
  | cons s l ih => simp [reportRows, ih]

/-- C19: when two input sellers share an id, `analyzeSalesData` still emits one row for each
seller (the rows are, up to the ranking order, the projections of the accumulators, one per
seller); every purchase record with that id is accumulated into the seller that comes last
in the seller list, and each earlier seller with the id keeps revenue 0, profit 0,
sales_count 0 and empty top_products. -/
theorem duplicate_seller_id (rev : LineItem → Option Product → ℚ)
    (bon : Int → Int → SellerStat → ℚ) (sellers : List Seller) (products : List Product)
    (records : List PurchaseRecord) (hs : sellers ≠ []) (hp : products ≠ [])
    (hr : records ≠ []) :
    ∃ rows, analyzeSalesData (mkData sellers products records) (mkOptions rev bon) = .ok rows
      ∧ rows.length = sellers.length
      ∧ (rows.map (fun row =>
            (row.seller_id, row.revenue, row.profit, row.sales_count, row.top_products))).Perm
          ((aggregate rev sellers products records).map (fun s =>
            (s.id, round2 s.revenue, round2 s.profit, s.sales_count,
              topProducts s.products_sold)))
      ∧ (∀ (i j : Nat) (si sj : Seller) (a : SellerStat), i < j →
          sellers[i]? = some si → sellers[j]? = some sj → si.id = sj.id →
          (aggregate rev sellers products records)[i]? = some a →
          (a.id, round2 a.revenue, round2 a.profit, a.sales_count, topProducts a.products_sold)
            = (si.id, 0, 0, 0, []))
      ∧ (∀ (j : Nat) (sj : Seller) (b : SellerStat), sellers[j]? = some sj →
          (∀ (k : Nat) (sk : Seller), j < k → sellers[k]? = some sk → sk.id ≠ sj.id) →
          (aggregate rev sellers products records)[j]? = some b →
          b.id = sj.id
            ∧ b.sales_count
                = (records.filter (fun r => decide (r.seller_id = sj.id))).length
            ∧ b.revenue = sellerRevenue records sj.id
            ∧ b.profit = sellerProfit rev products records sj.id) := by
  refine ⟨_, analyzeSalesData_valid rev bon sellers products records hs hp hr, ?_, ?_, ?_, ?_⟩
  · unfold buildReport
    simp only
    rw [length_reportRows, length_sortByProfit, length_aggregate]
  · unfold buildReport
    simp only
    rw [map_view_reportRows]
    exact (sortByProfit_perm _).map _
  · intro i j si sj a hij hsi hsj hid ha
    unfold aggregate at ha
    rw [getElem?_foldl_processRecord, getElem?_initStats, hsi] at ha
    have hfilter : records.filter (fun r => decide (sellerIndex (initStats sellers) r.seller_id
          = some i)) = [] := by
      rw [List.filter_eq_nil_iff]
      intro r _
      simp only [decide_eq_true_eq]
      intro hidx
      unfold sellerIndex at hidx
      obtain ⟨_, hlater⟩ := (lastIndexWhere_eq_some_iff _ _ i).mp hidx
      obtain ⟨⟨a0, ha0, hpa0⟩, _⟩ := (lastIndexWhere_eq_some_iff _ _ i).mp hidx
      rw [getElem?_initStats, hsi] at ha0
      simp only [Option.map_some', Option.some.injEq] at ha0
      have hj := hlater j _ hij (by rw [getElem?_initStats, hsj]; rfl)
      simp only [decide_eq_false_iff_not] at hj
      simp only [decide_eq_true_eq] at hpa0
      rw [← ha0] at hpa0
      exact hj (hid.symm.trans hpa0)
    rw [hfilter] at ha
    simp only [Option.map_some', List.foldl_nil, Option.some.injEq] at ha
    subst ha
    simp [round2_zero, topProducts, objectEntries]
  · intro j sj b hsj hlast hb
    unfold aggregate at hb
    rw [getElem?_foldl_processRecord, getElem?_initStats, hsj] at hb
    have hfilter : records.filter (fun r => decide (sellerIndex (initStats sellers) r.seller_id
          = some j)) = records.filter (fun r => decide (r.seller_id = sj.id)) := by
      apply List.filter_congr
      intro r _
      rw [Bool.eq_iff_iff]
      simp only [decide_eq_true_eq]
      unfold sellerIndex
      rw [lastIndexWhere_eq_some_iff]
      constructor
      · rintro ⟨⟨a0, ha0, hpa0⟩, _⟩
        rw [getElem?_initStats, hsj] at ha0
        simp only [Option.map_some', Option.some.injEq] at ha0
        simp only [decide_eq_true_eq] at hpa0
        rw [← ha0] at hpa0
        exact hpa0.symm
      · intro hrid
        refine ⟨⟨_, by rw [getElem?_initStats, hsj]; rfl, by simp [hrid]⟩, ?_⟩
        intro k bk hjk hbk
        rw [getElem?_initStats] at hbk
        cases hsk : sellers[k]? with
        | none => rw [hsk] at hbk; cases hbk
        | some sk =>
          rw [hsk] at hbk
          simp only [Option.map_some', Option.some.injEq] at hbk
          simp only [decide_eq_false_iff_not]
          rw [← hbk, hrid]
          exact hlast k sk hjk hsk
    rw [hfilter] at hb
    simp only [Option.map_some', Option.some.injEq] at hb
    obtain ⟨f1, f2, f3, f4⟩ := foldl_applyRecord rev products
      (records.filter (fun r => decide (r.seller_id = sj.id)))
      { id := sj.id, name := sj.first_name ++ " " ++ sj.last_name, revenue := 0, profit := 0,
        sales_count := 0, products_sold := [] }
    rw [hb] at f1 f2 f3 f4
    refine ⟨f1, by simpa using f4, by simpa [sellerRevenue] using f3,
      by simpa [sellerProfit] using f2⟩


theorem duplicate_seller_id_witness :
    twinSellers ≠ [] ∧ sampleProducts ≠ [] ∧ sampleRecords ≠ []
      ∧ (∃ rows, analyzeSalesData (mkData twinSellers sampleProducts sampleRecords)
            (mkOptions simpleRevenue bonusByProfit) = .ok rows
          ∧ rows.length = twinSellers.length)
      ∧ analyzeSalesData (mkData twinSellers sampleProducts sampleRecords)
          (mkOptions simpleRevenue bonusByProfit)
        = .ok [ ⟨"s1", "Al Lee", 50, 16, 1, [⟨"p1", 2⟩], 12 / 5⟩,
                ⟨"s1", "Ann Lee", 0, 0, 0, [], 0⟩ ] :=
  ⟨by decide, by decide, by decide,
    (fun h => ⟨h.choose, h.choose_spec.1, h.choose_spec.2.1⟩)
      (duplicate_seller_id simpleRevenue bonusByProfit twinSellers sampleProducts sampleRecords
        (by decide) (by decide) (by decide)),
    by decide!⟩


/-! ## The quantity map of a seller -/

theorem mem_firstSeen (l : List String) (x : String) : x ∈ firstSeen l ↔ x ∈ l := by
  induction l with
  | nil => simp [firstSeen]
  | cons k ks ih =>
    simp only [firstSeen, List.mem_cons, List.mem_filter, ih, decide_eq_true_eq]
    by_cases h : x = k
    · simp [h]
    · simp [h]

theorem firstSeen_nodup (l : List String) : (firstSeen l).Nodup := by
  induction l with
  | nil => simp [firstSeen]
  | cons k ks ih =>
    simp only [firstSeen, List.nodup_cons, List.mem_filter, decide_eq_true_eq]
    exact ⟨fun h => h.2 rfl, ih.filter _⟩

theorem keys_foldSold (items : List LineItem) (m : List (String × ℚ)) :
    (foldSold m items).map Prod.fst
      = m.map Prod.fst
        ++ (firstSeen (items.map (fun it => it.sku))).filter
            (fun x => decide (x ∉ m.map Prod.fst)) := by
  induction items generalizing m with
  | nil => simp [foldSold, firstSeen]
  | cons it rest ih =>
    have hstep : foldSold m (it :: rest)
        = foldSold (addSold m it.sku (it.quantity.getD 0)) rest := rfl
    rw [hstep, ih, keys_addSold]
    simp only [List.map_cons, firstSeen]
    by_cases hk : it.sku ∈ m.map Prod.fst
    · simp only [hk, if_true, List.filter_cons, not_true_eq_false, decide_False, if_false,
        List.filter_filter]
      congr 1
      apply List.filter_congr
      intro x _
      by_cases hx : x = it.sku
      · subst hx; simp [hk]
      · simp [hx]
    · simp only [hk, if_false, List.filter_cons, not_false_eq_true, decide_True, if_true,
        List.filter_filter, List.append_assoc, List.singleton_append]
      congr 2
      apply List.filter_congr
      intro x _
      by_cases hx : x = it.sku
      · subst hx; simp
      · simp [hx]

theorem quantityOf_cons (it : LineItem) (rest : List LineItem) (k : String) :
    quantityOf (it :: rest) k
      = (if it.sku = k then it.quantity.getD 0 else 0) + quantityOf rest k := by
  unfold quantityOf
  by_cases h : it.sku = k
  · simp [List.filter_cons, h]
  · simp [List.filter_cons, h]

theorem getD_objGet_foldSold (items : List LineItem) (m : List (String × ℚ)) (k : String) :
    (objGet (foldSold m items) k).getD 0 = (objGet m k).getD 0 + quantityOf items k := by
  induction items generalizing m with
  | nil => simp [foldSold, quantityOf]
  | cons it rest ih =>
    have hstep : foldSold m (it :: rest)
        = foldSold (addSold m it.sku (it.quantity.getD 0)) rest := rfl
    rw [hstep, ih, objGet_addSold, quantityOf_cons]
    by_cases h : it.sku = k
    · subst h
      simp only [if_true, Option.getD_some]
      ring
    · simp only [h, if_false]
      ring

theorem eq_map_keys_of_nodup (m : List (String × ℚ)) (hnd : (m.map Prod.fst).Nodup) :
    m = (m.map Prod.fst).map (fun k => (k, (objGet m k).getD 0)) := by
  induction m with
  | nil => rfl
  | cons e m ih =>
    simp only [List.map_cons, List.nodup_cons] at hnd
    simp only [List.map_cons, objGet, if_true, Option.getD_some, List.map_map]
    congr 1
    conv_lhs => rw [ih hnd.2]
    rw [List.map_map]
    apply List.map_congr_left
    intro x hx
    have hne : ¬ e.1 = x.1 := fun h => hnd.1 (h ▸ List.mem_map_of_mem Prod.fst hx)
    simp [hne]

theorem foldSold_nil_eq_soldMap (items : List LineItem) : foldSold [] items = soldMap items := by
  have hkeys : (foldSold [] items).map Prod.fst = firstSeen (items.map (fun it => it.sku)) := by
    rw [keys_foldSold]
    simp
  have hnd : ((foldSold [] items).map Prod.fst).Nodup := by
    rw [hkeys]; exact firstSeen_nodup _
  rw [eq_map_keys_of_nodup _ hnd, hkeys]
  unfold soldMap
  apply List.map_congr_left
  intro k _
  rw [getD_objGet_foldSold]
  simp [objGet]

theorem foldl_processItem_products_sold (rev : LineItem → Option Product → ℚ)
    (products : List Product) (items : List LineItem) (s : SellerStat) :
    (items.foldl (processItem rev products) s).products_sold
      = foldSold s.products_sold items := by
  induction items generalizing s with
  | nil => rfl
  | cons it rest ih =>
    simp only [List.foldl_cons]
    rw [ih]
    rfl

theorem applyRecord_products_sold (rev : LineItem → Option Product → ℚ)
    (products : List Product) (r : PurchaseRecord) (s : SellerStat) :
    (applyRecord rev products r s).products_sold
      = foldSold s.products_sold (r.items.getD []) := by
  unfold applyRecord
  rw [foldl_processItem_products_sold]

theorem foldSold_append (m : List (String × ℚ)) (xs ys : List LineItem) :
    foldSold m (xs ++ ys) = foldSold (foldSold m xs) ys := by
  unfold foldSold
  rw [List.foldl_append]

theorem foldl_applyRecord_products_sold (rev : LineItem → Option Product → ℚ)
    (products : List Product) (rs : List PurchaseRecord) (s : SellerStat) :
    (rs.foldl (fun acc r => applyRecord rev products r acc) s).products_sold
      = foldSold s.products_sold (rs.flatMap (fun r => r.items.getD [])) := by
  induction rs generalizing s with
  | nil => rfl
  | cons r rs ih =>
    simp only [List.foldl_cons, List.flatMap_cons]
    rw [ih, applyRecord_products_sold, foldSold_append]

/-- With pairwise distinct seller ids, an accumulator after the scan is its initial object
updated with the records that carry its id, in scan order. -/
theorem mem_aggregate_eq_foldl_of_nodup (rev : LineItem → Option Product → ℚ)
    (sellers : List Seller) (products : List Product) (records : List PurchaseRecord)
    (hnd : (sellers.map (fun s => s.id)).Nodup) (s : SellerStat)
    (hs : s ∈ aggregate rev sellers products records) :
    ∃ s0 ∈ initStats sellers,
      s = (records.filter (fun r => decide (r.seller_id = s0.id))).foldl
            (fun acc r => applyRecord rev products r acc) s0 := by
  obtain ⟨i, hi⟩ := List.mem_iff_getElem?.mp hs
  unfold aggregate at hi
  rw [getElem?_foldl_processRecord] at hi
  cases h0 : (initStats sellers)[i]? with
  | none => rw [h0] at hi; cases hi
  | some s0 =>
    rw [h0] at hi
    simp only [Option.map_some', Option.some.injEq] at hi
    have hnd0 : ((initStats sellers).map (fun s => s.id)).Nodup := by
      rw [map_id_initStats]; exact hnd
    have hfilter : records.filter (fun r => decide (sellerIndex (initStats sellers) r.seller_id
          = some i)) = records.filter (fun r => decide (r.seller_id = s0.id)) := by
      apply List.filter_congr
      intro r _
      rw [Bool.eq_iff_iff]
      simp only [decide_eq_true_eq]
      unfold sellerIndex
      rw [lastIndexWhere_key_eq_some_iff (fun s : SellerStat => s.id) (initStats sellers)
        hnd0 i s0 h0 r.seller_id]
      exact eq_comm
    rw [hfilter] at hi
    exact ⟨s0, List.getElem?_mem h0, hi.symm⟩

theorem products_sold_of_mem_aggregate (rev : LineItem → Option Product → ℚ)
    (sellers : List Seller) (products : List Product) (records : List PurchaseRecord)
    (hnd : (sellers.map (fun s => s.id)).Nodup) (s : SellerStat)
    (hs : s ∈ aggregate rev sellers products records) :
    s.products_sold = soldMap (sellerItems records s.id) := by
  obtain ⟨s0, hs0, rfl⟩ := mem_aggregate_eq_foldl_of_nodup rev sellers products records hnd s hs
  obtain ⟨_, _, _, hsold⟩ := mem_initStats sellers s0 hs0
  rw [foldl_applyRecord_products_sold, (foldl_applyRecord rev products _ s0).1, hsold,
    foldSold_nil_eq_soldMap]
  rfl

theorem objectEntries_of_no_arrayIndex (m : List (String × ℚ))
    (h : ∀ e ∈ m, arrayIndex e.1 = none) : objectEntries m = m := by
  unfold objectEntries
  have h1 : m.filter (fun e => (arrayIndex e.1).isSome) = [] := by
    rw [List.filter_eq_nil_iff]
    intro e he
    simp [h e he]
  have h2 : m.filter (fun e => (arrayIndex e.1).isNone) = m := by
    rw [List.filter_eq_self]
    intro e he
    simp [h e he]
  rw [h1, h2]
  rfl


/-! ## Independence of the scan order -/

theorem forall₂_of_getElem? {α β : Type} (R : α → β → Prop) (l1 : List α) (l2 : List β)
    (hlen : l1.length = l2.length)
    (h : ∀ (i : Nat) (a : α) (b : β), l1[i]? = some a → l2[i]? = some b → R a b) :
    List.Forall₂ R l1 l2 := by
  induction l1 generalizing l2 with
  | nil =>
    cases l2 with
    | nil => exact List.Forall₂.nil
    | cons b l2 => simp at hlen
  | cons a l1 ih =>
    cases l2 with
    | nil => simp at hlen
    | cons b l2 =>
      refine List.Forall₂.cons (h 0 a b (by simp) (by simp)) (ih l2 (by simpa using hlen) ?_)
      intro i x y hx hy
      exact h (i + 1) x y (by simpa using hx) (by simpa using hy)

theorem forall₂_filter_itemsPermuted (p : String → Bool) (rs mid : List PurchaseRecord)
    (h : List.Forall₂ ItemsPermuted rs mid) :
    List.Forall₂ ItemsPermuted (rs.filter (fun r => p r.seller_id))
      (mid.filter (fun r => p r.seller_id)) := by
  induction h with
  | nil => exact List.Forall₂.nil
  | cons hab _ ih =>
    simp only [List.filter_cons, hab.1]
    split_ifs
    · exact List.Forall₂.cons hab ih
    · exact ih

theorem rearranged_filter (p : String → Bool) (rs rs2 : List PurchaseRecord)
    (h : Rearranged rs rs2) :
    Rearranged (rs.filter (fun r => p r.seller_id)) (rs2.filter (fun r => p r.seller_id)) := by
  obtain ⟨mid, hf, hp⟩ := h
  exact ⟨_, forall₂_filter_itemsPermuted p rs mid hf, hp.filter _⟩

theorem rearranged_length (rs rs2 : List PurchaseRecord) (h : Rearranged rs rs2) :
    rs.length = rs2.length := by
  obtain ⟨mid, hf, hp⟩ := h
  exact hf.length_eq.trans hp.length_eq

theorem rearranged_sum (g : PurchaseRecord → ℚ)
    (hg : ∀ r r2, ItemsPermuted r r2 → g r2 = g r) (rs rs2 : List PurchaseRecord)
    (h : Rearranged rs rs2) : (rs.map g).sum = (rs2.map g).sum := by
  obtain ⟨mid, hf, hp⟩ := h
  have h1 : (rs.map g).sum = (mid.map g).sum := by
    clear hp
    induction hf with
    | nil => rfl
    | cons hab _ ih => simp only [List.map_cons, List.sum_cons, ih, hg _ _ hab]
  rw [h1]
  exact (hp.map g).sum_eq

theorem rearranged_items (rs rs2 : List PurchaseRecord) (h : Rearranged rs rs2) :
    (rs.flatMap (fun r => r.items.getD [])).Perm (rs2.flatMap (fun r => r.items.getD [])) := by
  obtain ⟨mid, hf, hp⟩ := h
  have h1 : (rs.flatMap (fun r => r.items.getD [])).Perm
      (mid.flatMap (fun r => r.items.getD [])) := by
    clear hp
    induction hf with
    | nil => exact List.Perm.refl _
    | cons hab _ ih =>
      simp only [List.flatMap_cons]
      exact hab.2.2.2.symm.append ih
  exact h1.trans (hp.flatMap_right _)

theorem recordProfit_of_itemsPermuted (rev : LineItem → Option Product → ℚ)
    (products : List Product) (r r2 : PurchaseRecord) (h : ItemsPermuted r r2) :
    recordProfit rev products r2 = recordProfit rev products r := by
  unfold recordProfit
  exact (h.2.2.2.map _).sum_eq

theorem quantityOf_perm (items items2 : List LineItem) (h : items.Perm items2) (k : String) :
    quantityOf items k = quantityOf items2 k := by
  unfold quantityOf
  exact ((h.filter _).map _).sum_eq

theorem soldMap_perm (items items2 : List LineItem) (h : items.Perm items2) :
    (soldMap items).Perm (soldMap items2) := by
  unfold soldMap
  have hkeys : (firstSeen (items.map (fun it => it.sku))).Perm
      (firstSeen (items2.map (fun it => it.sku))) := by
    rw [List.perm_ext_iff_of_nodup (firstSeen_nodup _) (firstSeen_nodup _)]
    intro k
    rw [mem_firstSeen, mem_firstSeen]
    exact (h.map _).mem_iff
  have hfun : (fun k => (k, quantityOf items k)) = (fun k => (k, quantityOf items2 k)) := by
    funext k
    rw [quantityOf_perm items items2 h k]
  rw [hfun]
  exact hkeys.map _

/-- The accumulator of a seller after two rearranged lists of records has the same totals. -/
theorem foldl_applyRecord_sameTotals (rev : LineItem → Option Product → ℚ)
    (products : List Product) (rs rs2 : List PurchaseRecord) (h : Rearranged rs rs2)
    (s : SellerStat) (hsold : s.products_sold = []) :
    SameTotals (rs.foldl (fun acc r => applyRecord rev products r acc) s)
      (rs2.foldl (fun acc r => applyRecord rev products r acc) s) := by
  obtain ⟨a1, a2, a3, a4⟩ := foldl_applyRecord rev products rs s
  obtain ⟨b1, b2, b3, b4⟩ := foldl_applyRecord rev products rs2 s
  have hname : ∀ (l : List PurchaseRecord) (t : SellerStat),
      (l.foldl (fun acc r => applyRecord rev products r acc) t).name = t.name := by
    intro l
    induction l with
    | nil => intro t; rfl
    | cons r l ih =>
      intro t
      simp only [List.foldl_cons, ih]
      unfold applyRecord
      exact (foldl_processItem_fixed rev products _ _).2.1
  refine ⟨a1.trans b1.symm, (hname rs s).trans (hname rs2 s).symm, ?_, ?_, ?_, ?_⟩
  · rw [a3, b3, rearranged_sum _ (fun r r2 hr => by rw [hr.2.1, hr.2.2.1]) rs rs2 h]
  · rw [a2, b2, rearranged_sum _ (recordProfit_of_itemsPermuted rev products) rs rs2 h]
  · rw [a4, b4, rearranged_length rs rs2 h]
  · rw [foldl_applyRecord_products_sold, foldl_applyRecord_products_sold, hsold,
      foldSold_nil_eq_soldMap, foldSold_nil_eq_soldMap]
    exact soldMap_perm _ _ (rearranged_items rs rs2 h)

theorem aggregate_sameTotals (rev : LineItem → Option Product → ℚ) (sellers : List Seller)
    (products : List Product) (records records2 : List PurchaseRecord)
    (h : Rearranged records records2) :
    List.Forall₂ SameTotals (aggregate rev sellers products records)
      (aggregate rev sellers products records2) := by
  apply forall₂_of_getElem?
  · rw [length_aggregate, length_aggregate]
  · intro i a b ha hb
    unfold aggregate at ha hb
    rw [getElem?_foldl_processRecord] at ha hb
    cases h0 : (initStats sellers)[i]? with
    | none => rw [h0] at ha; cases ha
    | some s0 =>
      rw [h0] at ha hb
      simp only [Option.map_some', Option.some.injEq] at ha hb
      rw [← ha, ← hb]
      exact foldl_applyRecord_sameTotals rev products _ _
        (rearranged_filter (fun id => decide (sellerIndex (initStats sellers) id = some i))
          records records2 h) s0 (mem_initStats sellers s0 (List.getElem?_mem h0)).2.2.2

theorem orderedInsert_sameTotals (a b : SellerStat) (hab : SameTotals a b)
    (l1 l2 : List SellerStat) (h : List.Forall₂ SameTotals l1 l2) :
    List.Forall₂ SameTotals
      (List.orderedInsert (fun x y : SellerStat => y.profit ≤ x.profit) a l1)
      (List.orderedInsert (fun x y : SellerStat => y.profit ≤ x.profit) b l2) := by
  induction h with
  | nil => exact List.Forall₂.cons hab List.Forall₂.nil
  | cons hxy hrest ih =>
    rename_i x y _ _
    simp only [List.orderedInsert]
    by_cases hle : x.profit ≤ a.profit
    · have hle2 : y.profit ≤ b.profit := by rw [← hab.2.2.2.1, ← hxy.2.2.2.1]; exact hle
      rw [if_pos hle, if_pos hle2]
      exact List.Forall₂.cons hab (List.Forall₂.cons hxy hrest)
    · have hle2 : ¬ y.profit ≤ b.profit := by rw [← hab.2.2.2.1, ← hxy.2.2.2.1]; exact hle
      rw [if_neg hle, if_neg hle2]
      exact List.Forall₂.cons hxy ih

theorem sortByProfit_sameTotals (l1 l2 : List SellerStat)
    (h : List.Forall₂ SameTotals l1 l2) :
    List.Forall₂ SameTotals (sortByProfit l1) (sortByProfit l2) := by
  unfold sortByProfit
  induction h with
  | nil => exact List.Forall₂.nil
  | cons hab _ ih =>
    simp only [List.insertionSort]
    exact orderedInsert_sameTotals _ _ hab _ _ ih

theorem reportRows_sameFigures (bon : Int → Int → SellerStat → ℚ) (total : Nat) (k : Nat)
    (l1 l2 : List SellerStat) (h : List.Forall₂ SameTotals l1 l2) :
    List.Forall₂ SameFigures (reportRows bon total k l1) (reportRows bon total k l2)
      ∧ (OrderInsensitive bon →
          List.Forall₂ (fun a b : ReportRow => a.bonus = b.bonus)
            (reportRows bon total k l1) (reportRows bon total k l2)) := by
  induction h generalizing k with
  | nil => exact ⟨List.Forall₂.nil, fun _ => List.Forall₂.nil⟩
  | cons hab _ ih =>
    simp only [reportRows]
    refine ⟨List.Forall₂.cons ⟨hab.1, ?_, ?_, hab.2.2.2.2.1⟩ (ih (k + 1)).1, ?_⟩
    · show round2 _ = round2 _
      rw [hab.2.2.1]
    · show round2 _ = round2 _
      rw [hab.2.2.2.1]
    · intro hbon
      refine List.Forall₂.cons ?_ ((ih (k + 1)).2 hbon)
      show round2 _ = round2 _
      rw [hbon _ _ _ _ hab]

theorem orderInsensitive_bonusByProfit : OrderInsensitive bonusByProfit := by
  intro i n s s2 h
  simp only [bonusByProfit, SellerStat.card, h.2.2.2.1]

/-- C16 (as stated, refuted): with a bonus policy that reads the first key of
`products_sold`, swapping the two purchase records of a seller changes the bonus of its
row. -/
theorem bonus_depends_on_scan_order :
    twoRecords.Perm twoRecords.reverse
      ∧ (buildReport simpleRevenue firstSkuBonus [⟨"s1", "Ann", "Lee"⟩] sampleProducts
          twoRecords).map (fun row => row.bonus) = [1]
      ∧ (buildReport simpleRevenue firstSkuBonus [⟨"s1", "Ann", "Lee"⟩] sampleProducts
          twoRecords.reverse).map (fun row => row.bonus) = [0]
      ∧ analyzeSalesData (mkData [⟨"s1", "Ann", "Lee"⟩] sampleProducts twoRecords)
          (mkOptions simpleRevenue firstSkuBonus)
        ≠ analyzeSalesData (mkData [⟨"s1", "Ann", "Lee"⟩] sampleProducts twoRecords.reverse)
          (mkOptions simpleRevenue firstSkuBonus) := by
  refine ⟨(List.reverse_perm _).symm, by decide!, by decide!, by decide!⟩

/-- C16 (amended): over exact arithmetic, for every valid dataset and every rearrangement of
its purchase records (the records permuted, the line items permuted inside the records),
`analyzeSalesData` returns rows with the same seller_id, revenue, profit and sales_count at
every position, and with the same bonus at every position when the bonus policy does not
read the enumeration order of `products_sold`, as `calculateBonusByProfit` does not. -/
theorem totals_independent_of_scan_order (rev : LineItem → Option Product → ℚ)
    (bon : Int → Int → SellerStat → ℚ) (sellers : List Seller) (products : List Product)
    (records records2 : List PurchaseRecord) (hs : sellers ≠ []) (hp : products ≠ [])
    (hr : records ≠ []) (hre : Rearranged records records2) :
    ∃ rows rows2,
      analyzeSalesData (mkData sellers products records) (mkOptions rev bon) = .ok rows
      ∧ analyzeSalesData (mkData sellers products records2) (mkOptions rev bon) = .ok rows2
      ∧ List.Forall₂ SameFigures rows rows2
      ∧ (OrderInsensitive bon →
          List.Forall₂ (fun a b : ReportRow => a.bonus = b.bonus) rows rows2)
      ∧ OrderInsensitive bonusByProfit := by
  have hr2 : records2 ≠ [] := by
    intro h0
    have := rearranged_length records records2 hre
    rw [h0] at this
    exact hr (List.length_eq_zero.mp this)
  have hsorted := sortByProfit_sameTotals _ _
    (aggregate_sameTotals rev sellers products records records2 hre)
  have hlen : (sortByProfit (aggregate rev sellers products records)).length
      = (sortByProfit (aggregate rev sellers products records2)).length := hsorted.length_eq
  refine ⟨_, _, analyzeSalesData_valid rev bon sellers products records hs hp hr,
    analyzeSalesData_valid rev bon sellers products records2 hs hp hr2, ?_, ?_,
    orderInsensitive_bonusByProfit⟩
  · unfold buildReport
    simp only
    rw [← hlen]
    exact (reportRows_sameFigures bon _ 0 _ _ hsorted).1
  · unfold buildReport
    simp only
    rw [← hlen]
    exact (reportRows_sameFigures bon _ 0 _ _ hsorted).2

theorem totals_independent_of_scan_order_witness :
    sampleSellers ≠ [] ∧ sampleProducts ≠ [] ∧ sampleRecords ≠ []
      ∧ Rearranged sampleRecords sampleRecords.reverse
      ∧ ∃ rows rows2,
          analyzeSalesData (mkData sampleSellers sampleProducts sampleRecords)
            (mkOptions simpleRevenue bonusByProfit) = .ok rows
          ∧ analyzeSalesData (mkData sampleSellers sampleProducts sampleRecords.reverse)
            (mkOptions simpleRevenue bonusByProfit) = .ok rows2
          ∧ List.Forall₂ SameFigures rows rows2
          ∧ (OrderInsensitive bonusByProfit →
              List.Forall₂ (fun a b : ReportRow => a.bonus = b.bonus) rows rows2)
          ∧ OrderInsensitive bonusByProfit :=
  ⟨by decide, by decide, by decide,
    ⟨sampleRecords, List.forall₂_same.mpr (fun r _ => ⟨rfl, rfl, rfl, List.Perm.refl _⟩),
      (List.reverse_perm _).symm⟩,
    totals_independent_of_scan_order simpleRevenue bonusByProfit sampleSellers sampleProducts
      sampleRecords sampleRecords.reverse (by decide) (by decide) (by decide)
      ⟨sampleRecords, List.forall₂_same.mpr (fun r _ => ⟨rfl, rfl, rfl, List.Perm.refl _⟩),
        (List.reverse_perm _).symm⟩⟩


/-! ## Binary floating point: known doubles -/

/-- The rounding `toDouble` at values whose doubles are known: `1` and `0.5` are doubles,
`0.1` is `0x3FB999999999999A`, `0.1 + 0.2` is `0.30000000000000004` and not the double
`0.3`, a negative number rounds as its absolute value, and half of the least subnormal
`2^-1074` rounds to 0 while three halves of it round to twice it. -/
theorem toDouble_known_values :
    toDouble 1 = 1 ∧ toDouble (1 / 2) = 1 / 2
      ∧ toDouble (1 / 10) = 3602879701896397 / 36028797018963968
      ∧ toDouble (3 / 10) = 5404319552844595 / 18014398509481984
      ∧ toDouble (toDouble (1 / 10) + toDouble (2 / 10))
          = 5404319552844596 / 18014398509481984
      ∧ toDouble (-(1 / 10)) = -toDouble (1 / 10)
      ∧ toDouble (toDouble (1 / 10)) = toDouble (1 / 10)
      ∧ toDouble (scale2 1 (-1075)) = 0
      ∧ toDouble (scale2 3 (-1075)) = scale2 2 (-1074) := by
  refine ⟨by decide!, by decide!, by decide!, by decide!, by decide!, by decide!, by decide!,
    by decide!, by decide!⟩

/-! ## The run on doubles: the scan -/

theorem processItemWith_id (rev : LineItem → Option Product → ℚ) (products : List Product) :
    processItemWith id rev products = processItem rev products := rfl

theorem applyRecordWith_id (rev : LineItem → Option Product → ℚ) (products : List Product) :
    applyRecordWith id rev products = applyRecord rev products := rfl

theorem aggregateWith_id (rev : LineItem → Option Product → ℚ) (sellers : List Seller)
    (products : List Product) (records : List PurchaseRecord) :
    aggregateWith id rev sellers products records = aggregate rev sellers products records := rfl

theorem buildReportWith_id (rev : LineItem → Option Product → ℚ)
    (bon : Int → Int → SellerStat → ℚ) (sellers : List Seller) (products : List Product)
    (records : List PurchaseRecord) :
    buildReportWith id rev bon sellers products records
      = buildReport rev bon sellers products records := rfl

theorem foldl_processItemWith_fixed (fl : ℚ → ℚ) (rev : LineItem → Option Product → ℚ)
    (products : List Product) (items : List LineItem) (s : SellerStat) :
    (items.foldl (processItemWith fl rev products) s).id = s.id
      ∧ (items.foldl (processItemWith fl rev products) s).name = s.name
      ∧ (items.foldl (processItemWith fl rev products) s).revenue = s.revenue
      ∧ (items.foldl (processItemWith fl rev products) s).sales_count = s.sales_count := by
  induction items generalizing s with
  | nil => simp
  | cons item items ih =>
    simp only [List.foldl_cons]
    obtain ⟨h1, h2, h3, h4⟩ := ih (processItemWith fl rev products s item)
    exact ⟨h1, h2, h3, h4⟩

theorem applyRecordWith_id_eq (fl : ℚ → ℚ) (rev : LineItem → Option Product → ℚ)
    (products : List Product) (r : PurchaseRecord) (s : SellerStat) :
    (applyRecordWith fl rev products r s).id = s.id := by
  unfold applyRecordWith
  exact (foldl_processItemWith_fixed fl rev products _ _).1

theorem applyRecordWith_sales_count (fl : ℚ → ℚ) (rev : LineItem → Option Product → ℚ)
    (products : List Product) (r : PurchaseRecord) (s : SellerStat) :
    (applyRecordWith fl rev products r s).sales_count = s.sales_count + 1 := by
  unfold applyRecordWith
  exact (foldl_processItemWith_fixed fl rev products _ _).2.2.2

theorem applyRecordWith_revenue (fl : ℚ → ℚ) (rev : LineItem → Option Product → ℚ)
    (products : List Product) (r : PurchaseRecord) (s : SellerStat) :
    (applyRecordWith fl rev products r s).revenue
      = fl (s.revenue + fl (r.total_amount.getD 0 - r.total_discount.getD 0)) := by
  unfold applyRecordWith
  exact (foldl_processItemWith_fixed fl rev products _ _).2.2.1

theorem length_processRecordWith (fl : ℚ → ℚ) (rev : LineItem → Option Product → ℚ)
    (products : List Product) (index : String → Option Nat) (stats : List SellerStat)
    (r : PurchaseRecord) :
    (processRecordWith fl rev products index stats r).length = stats.length := by
  unfold processRecordWith
  cases index r.seller_id <;> simp [length_modifyAt]

theorem map_id_foldl_processRecordWith (fl : ℚ → ℚ) (rev : LineItem → Option Product → ℚ)
    (products : List Product) (index : String → Option Nat) (records : List PurchaseRecord)
    (stats : List SellerStat) :
    (records.foldl (processRecordWith fl rev products index) stats).map (fun s => s.id)
      = stats.map (fun s => s.id) := by
  induction records generalizing stats with
  | nil => rfl
  | cons r records ih =>
    simp only [List.foldl_cons, ih]
    unfold processRecordWith
    cases index r.seller_id with
    | none => rfl
    | some i => exact map_modifyAt_of_fixed _ _ (applyRecordWith_id_eq fl rev products r) i stats

theorem map_id_aggregateWith (fl : ℚ → ℚ) (rev : LineItem → Option Product → ℚ)
    (sellers : List Seller) (products : List Product) (records : List PurchaseRecord) :
    (aggregateWith fl rev sellers products records).map (fun s => s.id)
      = sellers.map (fun s => s.id) := by
  unfold aggregateWith
  rw [map_id_foldl_processRecordWith, map_id_initStats]

theorem length_aggregateWith (fl : ℚ → ℚ) (rev : LineItem → Option Product → ℚ)
    (sellers : List Seller) (products : List Product) (records : List PurchaseRecord) :
    (aggregateWith fl rev sellers products records).length = sellers.length := by
  have := congrArg List.length (map_id_aggregateWith fl rev sellers products records)
  simpa using this

theorem sum_sales_count_modifyAt_of_succ (f : SellerStat → SellerStat)
    (hf : ∀ s, (f s).sales_count = s.sales_count + 1) (i : Nat) (l : List SellerStat)
    (hi : i < l.length) :
    ((modifyAt f i l).map (fun s => s.sales_count)).sum
      = (l.map (fun s => s.sales_count)).sum + 1 := by
  induction l generalizing i with
  | nil => simp at hi
  | cons a l ih =>
    cases i with
    | zero => simp [modifyAt, hf]; omega
    | succ i =>
      simp only [List.length_cons, Nat.add_lt_add_iff_right] at hi
      simp only [modifyAt, List.map_cons, List.sum_cons, ih i hi]
      omega

theorem sum_sales_count_foldl_With (fl : ℚ → ℚ) (rev : LineItem → Option Product → ℚ)
    (products : List Product) (index : String → Option Nat) (records : List PurchaseRecord)
    (stats : List SellerStat) (hidx : ∀ id i, index id = some i → i < stats.length) :
    ((records.foldl (processRecordWith fl rev products index) stats).map
        (fun s => s.sales_count)).sum
      = (stats.map (fun s => s.sales_count)).sum
        + (records.filter (fun r => (index r.seller_id).isSome)).length := by
  induction records generalizing stats with
  | nil => simp
  | cons r records ih =>
    simp only [List.foldl_cons]
    rw [ih _ (by rw [length_processRecordWith]; exact hidx)]
    unfold processRecordWith
    cases h : index r.seller_id with
    | none => simp [List.filter_cons, h]
    | some i =>
      simp only [List.filter_cons, h, Option.isSome_some, if_true, List.length_cons]
      rw [sum_sales_count_modifyAt_of_succ _ (applyRecordWith_sales_count fl rev products r) i
        stats (hidx _ _ h)]
      omega

/-- Every object of `sellerStats` receives exactly the records whose reference points to it,
in input order, whatever the rounding. -/
theorem getElem?_foldl_processRecordWith (fl : ℚ → ℚ) (rev : LineItem → Option Product → ℚ)
    (products : List Product) (index : String → Option Nat) (records : List PurchaseRecord)
    (stats : List SellerStat) (i : Nat) :
    (records.foldl (processRecordWith fl rev products index) stats)[i]?
      = (stats[i]?).map (fun s =>
          (records.filter (fun r => decide (index r.seller_id = some i))).foldl
            (fun acc r => applyRecordWith fl rev products r acc) s) := by
  induction records generalizing stats with
  | nil => simp
  | cons r records ih =>
    simp only [List.foldl_cons]
    rw [ih]
    unfold processRecordWith
    cases h : index r.seller_id with
    | none => simp [List.filter_cons, h]
    | some j =>
      rw [getElem?_modifyAt]
      by_cases hji : j = i
      · subst hji
        simp only [List.filter_cons, h, decide_True, if_true, List.foldl_cons, Option.map_map]
        rfl
      · simp [List.filter_cons, h, hji]

theorem foldl_applyRecordWith_revenue (fl : ℚ → ℚ) (rev : LineItem → Option Product → ℚ)
    (products : List Product) (rs : List PurchaseRecord) (s : SellerStat) :
    (rs.foldl (fun acc r => applyRecordWith fl rev products r acc) s).revenue
      = rs.foldl (fun x r => fl (x + fl (r.total_amount.getD 0 - r.total_discount.getD 0)))
          s.revenue
      ∧ (rs.foldl (fun acc r => applyRecordWith fl rev products r acc) s).id = s.id := by
  induction rs generalizing s with
  | nil => exact ⟨rfl, rfl⟩
  | cons r rs ih =>
    simp only [List.foldl_cons]
    obtain ⟨h1, h2⟩ := ih (applyRecordWith fl rev products r s)
    rw [h1, h2, applyRecordWith_revenue, applyRecordWith_id_eq]
    exact ⟨rfl, rfl⟩

/-! ## The run on doubles: outcomes -/

theorem analyzeSalesDataJs_ok (fl : ℚ → ℚ) (sellers : List Seller) (products : List Product)
    (records : List PurchaseRecord) (rev : LineItem → Option Product → ℚ)
    (bon : Int → Int → SellerStat → ℚ) (rows : List ReportRow)
    (h : analyzeSalesDataJs fl (mkData sellers products records) (jsOptions rev bon) = .ok rows) :
    rows = buildReportWith fl rev bon sellers products records
      ∧ sellers ≠ [] ∧ products ≠ [] ∧ records ≠ []
      ∧ scanEvent true sellers records = none := by
  have hv : invalidData (mkData sellers products records) = false := by
    cases hx : invalidData (mkData sellers products records) with
    | false => rfl
    | true => simp [analyzeSalesDataJs, hx] at h
  have hne : sellers ≠ [] ∧ products ≠ [] ∧ records ≠ [] := by
    refine ⟨?_, ?_, ?_⟩ <;>
      · intro h0
        subst h0
        simp [invalidData, mkData, JsField.isArray, JsField.elems] at hv
  unfold analyzeSalesDataJs at h
  rw [hv] at h
  simp only [mkData, jsOptions, Option.map_some', Option.getD_some, JsField.elems,
    PolicyValue.isMissing, PolicyValue.isCallable, PolicyValue.fn, Bool.or_self,
    Bool.false_eq_true, if_false, if_true] at h
  cases hev : scanEvent true sellers records with
  | some event => rw [hev] at h; cases h
  | none =>
    rw [hev] at h
    simp only [Except.ok.injEq] at h
    exact ⟨h.symm, hne.1, hne.2.1, hne.2.2, rfl⟩

theorem mem_inheritedNames_of_hits (sellers : List Seller) (r : PurchaseRecord)
    (h : hitsInheritedSeller sellers r = true) : r.seller_id ∈ inheritedNames := by
  unfold hitsInheritedSeller at h
  simp only [Bool.and_eq_true, decide_eq_true_eq] at h
  exact h.2

theorem recordEvent_of_ordinary (b : Bool) (sellers : List Seller) (r : PurchaseRecord)
    (h : r.seller_id ∉ inheritedNames ∧ ∀ it ∈ r.items.getD [], it.sku ∉ inheritedNames) :
    recordEvent b sellers r = none ∨ (b = false ∧ recordEvent b sellers r = some .typeError) := by
  unfold recordEvent
  cases hp : isProcessed sellers r with
  | true =>
    simp only [if_true]
    cases hitems : r.items.getD [] with
    | nil => exact Or.inl rfl
    | cons item items =>
      rw [hitems] at h
      cases b with
      | false => exact Or.inr ⟨rfl, rfl⟩
      | true =>
        left
        have hno : (item :: items).any (fun it => decide (it.sku ∈ inheritedNames)) = false := by
          rw [List.any_eq_false]
          intro it hit
          simpa using h.2 it hit
        simp only [Bool.not_true, Bool.false_eq_true, if_false, hno]
  | false =>
    have hh : hitsInheritedSeller sellers r = false := by
      cases hx : hitsInheritedSeller sellers r with
      | false => rfl
      | true => exact absurd (mem_inheritedNames_of_hits sellers r hx) h.1
    simp [hh]

theorem scanEvent_of_ordinary (b : Bool) (sellers : List Seller) (records : List PurchaseRecord)
    (h : ∀ r ∈ records, r.seller_id ∉ inheritedNames
      ∧ ∀ it ∈ r.items.getD [], it.sku ∉ inheritedNames) :
    scanEvent b sellers records = none
      ∨ (b = false ∧ scanEvent b sellers records = some .typeError) := by
  unfold scanEvent
  induction records with
  | nil => exact Or.inl rfl
  | cons r records ih =>
    simp only [List.findSome?_cons]
    rcases recordEvent_of_ordinary b sellers r (h r (List.mem_cons_self _ _)) with h1 | ⟨hb, h1⟩
    · rw [h1]
      exact ih (fun r2 hr2 => h r2 (List.mem_cons_of_mem _ hr2))
    · rw [h1]
      exact Or.inr ⟨hb, rfl⟩

/-- C6 (as stated, refuted): the data is well-formed and neither policy is absent, yet the
run returns no report: a bonus policy that is a truthy value other than a function passes
the check of line 59 and the call of line 107 throws a `TypeError`. -/
theorem non_function_policy_throws :
    ¬ MalformedData (mkData sampleSellers sampleProducts sampleRecords)
      ∧ ¬ JsPolicyMissing
          (some { calculateRevenue := .function (simpleRevenueWith toDouble),
                  calculateBonus := .notCallable })
      ∧ analyzeSalesDataJs toDouble (mkData sampleSellers sampleProducts sampleRecords)
          (some { calculateRevenue := .function (simpleRevenueWith toDouble),
                  calculateBonus := .notCallable })
        = .error .typeError
      ∧ ¬ ∃ rows, analyzeSalesDataJs toDouble
          (mkData sampleSellers sampleProducts sampleRecords)
          (some { calculateRevenue := .function (simpleRevenueWith toDouble),
                  calculateBonus := .notCallable })
        = .ok rows := by
  have h : analyzeSalesDataJs toDouble (mkData sampleSellers sampleProducts sampleRecords)
      (some { calculateRevenue := .function (simpleRevenueWith toDouble),
              calculateBonus := .notCallable }) = .error .typeError := by decide!
  refine ⟨?_, ?_, h, ?_⟩
  · rw [← invalidData_iff]
    decide
  · unfold JsPolicyMissing
    simp
  · rintro ⟨rows, hrows⟩
    rw [h] at hrows
    cases hrows

theorem recordEvent_ne_validation (b : Bool) (sellers : List Seller) (r : PurchaseRecord) :
    recordEvent b sellers r ≠ some .malformedData
      ∧ recordEvent b sellers r ≠ some .missingPolicy := by
  unfold recordEvent
  constructor <;>
    · split_ifs <;> first | (simp; done) | (split <;> (try split_ifs) <;> simp)

theorem scanEvent_ne_validation (b : Bool) (sellers : List Seller)
    (records : List PurchaseRecord) :
    scanEvent b sellers records ≠ some .malformedData
      ∧ scanEvent b sellers records ≠ some .missingPolicy := by
  unfold scanEvent
  induction records with
  | nil => simp
  | cons r records ih =>
    simp only [List.findSome?_cons]
    cases hr : recordEvent b sellers r with
    | none => exact ih
    | some e =>
      have := recordEvent_ne_validation b sellers r
      rw [hr] at this
      exact this

/-- C6 (amended): `analyzeSalesData` fails with the malformed-data error exactly when data is
absent or one of `sellers`, `products`, `purchase_records` is missing, not an array or empty,
whatever the options are; it fails with the distinct missing-policy error exactly when the
data is well-formed and `calculateRevenue` or `calculateBonus` is absent (or another falsy
value); it returns a report when the data is well-formed, both policies are functions and no
`seller_id` of a record and no `sku` of an item is a name inherited from `Object.prototype`;
for such names, a bonus policy that is present but not a function passes the validation and
the run throws a `TypeError`. -/
theorem analyzeSalesDataJs_outcomes (fl : ℚ → ℚ) (data : Option Data)
    (options : Option JsOptions) :
    (analyzeSalesDataJs fl data options = .error .malformedData ↔ MalformedData data)
      ∧ (analyzeSalesDataJs fl data options = .error .missingPolicy
          ↔ ¬ MalformedData data ∧ JsPolicyMissing options)
      ∧ (¬ MalformedData data → PoliciesAreFunctions options → OrdinaryNames data →
          ∃ rows, analyzeSalesDataJs fl data options = .ok rows)
      ∧ (¬ MalformedData data → OrdinaryNames data →
          (∃ o, options = some o ∧ o.calculateRevenue ≠ .missing
            ∧ o.calculateBonus = .notCallable) →
          analyzeSalesDataJs fl data options = .error .typeError)
      ∧ RunError.malformedData ≠ RunError.missingPolicy := by
  have hmiss : (((options.map (fun o : JsOptions => o.calculateRevenue)).getD
        PolicyValue.missing).isMissing
      || ((options.map (fun o : JsOptions => o.calculateBonus)).getD
        PolicyValue.missing).isMissing) = true
      ↔ JsPolicyMissing options := by
    unfold JsPolicyMissing
    cases options with
    | none => simp [PolicyValue.isMissing]
    | some o =>
      obtain ⟨r, b⟩ := o
      cases r <;> cases b <;> simp [PolicyValue.isMissing]
  rw [← invalidData_iff]
  refine ⟨?_, ?_, ?_, ?_, by decide⟩
  · unfold analyzeSalesDataJs
    simp only
    have hE := (scanEvent_ne_validation
      ((options.map (fun o : JsOptions => o.calculateRevenue)).getD
        PolicyValue.missing).isCallable
      ((data.map (fun d => d.sellers.elems)).getD [])
      ((data.map (fun d => d.purchase_records.elems)).getD [])).1
    generalize scanEvent _ _ _ = E at hE ⊢
    cases invalidData data
    · simp only [Bool.false_eq_true, if_false, iff_false]
      split_ifs
      · simp
      all_goals
        cases E with
        | none => simp
        | some e =>
          simp only [Except.error.injEq]
          intro he
          exact hE (by rw [he])
    · simp
  · unfold analyzeSalesDataJs
    simp only
    rw [← hmiss]
    have hE := (scanEvent_ne_validation
      ((options.map (fun o : JsOptions => o.calculateRevenue)).getD
        PolicyValue.missing).isCallable
      ((data.map (fun d => d.sellers.elems)).getD [])
      ((data.map (fun d => d.purchase_records.elems)).getD [])).2
    generalize scanEvent _ _ _ = E at hE ⊢
    cases invalidData data
    · simp only [Bool.false_eq_true, if_false, not_false_eq_true, true_and]
      by_cases h1 : (((options.map (fun o : JsOptions => o.calculateRevenue)).getD
          PolicyValue.missing).isMissing
        || ((options.map (fun o : JsOptions => o.calculateBonus)).getD
          PolicyValue.missing).isMissing) = true
      · simp only [h1, if_true]
      · simp only [h1, Bool.false_eq_true, if_false, iff_false]
        cases E with
        | none => split_ifs <;> simp
        | some e =>
          simp only [Except.error.injEq]
          intro he
          exact hE (by rw [he])
    · simp
  · rintro hd ⟨rev, bon, rfl⟩ hnames
    have hv : invalidData data = false := by simpa using hd
    unfold analyzeSalesDataJs
    simp only [hv, Bool.false_eq_true, if_false, jsOptions, Option.map_some',
      Option.getD_some, PolicyValue.isMissing, PolicyValue.isCallable, Bool.or_self]
    cases data with
    | none => simp [invalidData] at hv
    | some d =>
      have hn := hnames d rfl
      simp only [Option.map_some', Option.getD_some]
      rcases scanEvent_of_ordinary true d.sellers.elems d.purchase_records.elems hn with
        h1 | ⟨hb, _⟩
      · rw [h1]
        exact ⟨_, rfl⟩
      · cases hb
  · rintro hd hnames ⟨o, rfl, hrev, hbon⟩
    have hv : invalidData data = false := by simpa using hd
    unfold analyzeSalesDataJs
    have hrm : o.calculateRevenue.isMissing = false := by
      cases hr : o.calculateRevenue with
      | missing => exact absurd hr hrev
      | notCallable => rfl
      | function f => rfl
    have hbm : o.calculateBonus.isMissing = false := by rw [hbon]; rfl
    have hbc : o.calculateBonus.isCallable = false := by rw [hbon]; rfl
    simp only [hv, Bool.false_eq_true, if_false, Option.map_some', Option.getD_some, hrm, hbm,
      hbc, Bool.or_self]
    cases data with
    | none => simp [invalidData] at hv
    | some d =>
      have hn := hnames d rfl
      simp only [Option.map_some', Option.getD_some]
      rcases scanEvent_of_ordinary o.calculateRevenue.isCallable d.sellers.elems
        d.purchase_records.elems hn with h1 | ⟨_, h1⟩
      · rw [h1]
      · rw [h1]

theorem analyzeSalesDataJs_outcomes_witness :
    ¬ MalformedData (mkData sampleSellers sampleProducts sampleRecords)
      ∧ PoliciesAreFunctions (jsOptions (simpleRevenueWith toDouble) (bonusByProfitWith toDouble))
      ∧ OrdinaryNames (mkData sampleSellers sampleProducts sampleRecords)
      ∧ (∃ rows, analyzeSalesDataJs toDouble (mkData sampleSellers sampleProducts sampleRecords)
          (jsOptions (simpleRevenueWith toDouble) (bonusByProfitWith toDouble)) = .ok rows)
      ∧ analyzeSalesDataJs toDouble (mkData sampleSellers sampleProducts sampleRecords)
          (jsOptions (simpleRevenueWith toDouble) (bonusByProfitWith toDouble))
        = .ok sampleReport :=
  have hd : ¬ MalformedData (mkData sampleSellers sampleProducts sampleRecords) := by
    rw [← invalidData_iff]; decide
  have hn : OrdinaryNames (mkData sampleSellers sampleProducts sampleRecords) := by
    intro d hdata
    simp only [mkData, Option.some.injEq] at hdata
    subst hdata
    decide
  ⟨hd, ⟨_, _, rfl⟩, hn,
    (analyzeSalesDataJs_outcomes toDouble (mkData sampleSellers sampleProducts sampleRecords)
      (jsOptions (simpleRevenueWith toDouble) (bonusByProfitWith toDouble))).2.2.1 hd
      ⟨_, _, rfl⟩ hn,
    by decide!⟩

/-- C1 (failing input): a dataset with non-empty sellers, products and purchase records and
both policies supplied as functions, one record of which carries the `seller_id`
`constructor` and a line item: the run returns no row at all, it throws a `TypeError`. -/
theorem inherited_seller_id_no_rows :
    sampleSellers ≠ [] ∧ sampleProducts ≠ [] ∧ sampleRecords ++ [constructorRecord] ≠ []
      ∧ analyzeSalesDataJs toDouble
          (mkData sampleSellers sampleProducts (sampleRecords ++ [constructorRecord]))
          (jsOptions (simpleRevenueWith toDouble) (bonusByProfitWith toDouble))
        = .error .typeError := by
  refine ⟨by decide, by decide, by decide, by decide!⟩

/-- C10 (failing input): no sample seller has the id `constructor`, and the sample dataset
gives the sample report; with the record of `seller_id` `constructor` and one line item
inserted after the first record the run throws a `TypeError` instead. -/
theorem inherited_seller_id_not_skipped :
    (∀ s ∈ sampleSellers, s.id ≠ constructorRecord.seller_id)
      ∧ analyzeSalesDataJs toDouble
          (mkData sampleSellers sampleProducts (sampleRecords.take 1 ++ sampleRecords.drop 1))
          (jsOptions (simpleRevenueWith toDouble) (bonusByProfitWith toDouble))
        = .ok sampleReport
      ∧ analyzeSalesDataJs toDouble
          (mkData sampleSellers sampleProducts
            (sampleRecords.take 1 ++ constructorRecord :: sampleRecords.drop 1))
          (jsOptions (simpleRevenueWith toDouble) (bonusByProfitWith toDouble))
        = .error .typeError := by
  refine ⟨by decide, by decide!, by decide!⟩

/-- C9: whenever `analyzeSalesData` returns a report, the sum of `sales_count` over its rows
is the number of purchase records whose `seller_id` is the id of an input seller; a record
with an unmatched `seller_id` adds nothing to the `sales_count` of any row.  This holds for
the run on doubles as for the run over exact arithmetic. -/
theorem sales_count_of_report (fl : ℚ → ℚ) (rev : LineItem → Option Product → ℚ)
    (bon : Int → Int → SellerStat → ℚ) (sellers : List Seller) (products : List Product)
    (records : List PurchaseRecord) (rows : List ReportRow)
    (h : analyzeSalesDataJs fl (mkData sellers products records) (jsOptions rev bon)
      = .ok rows) :
    (rows.map (fun row => row.sales_count)).sum
      = (records.filter
          (fun r => decide (r.seller_id ∈ sellers.map (fun s => s.id)))).length := by
  obtain ⟨rfl, _, _, _, _⟩ := analyzeSalesDataJs_ok fl sellers products records rev bon rows h
  unfold buildReportWith
  simp only
  rw [map_sales_count_reportRows, ((sortByProfit_perm _).map _).sum_eq]
  unfold aggregateWith
  rw [sum_sales_count_foldl_With fl rev products (sellerIndex (initStats sellers)) records
    (initStats sellers) (fun id i h => lastIndexWhere_lt _ _ i h)]
  have hzero : ((initStats sellers).map (fun s => s.sales_count)).sum = 0 := by
    simp [initStats, Function.comp_def]
  rw [hzero, Nat.zero_add]
  congr 1
  apply List.filter_congr
  intro r _
  rw [Bool.eq_iff_iff, sellerIndex_isSome_iff]
  simp

theorem sales_count_of_report_witness :
    analyzeSalesDataJs toDouble
        (mkData sampleSellers sampleProducts
          (constructorRecordNoItems :: ghostRecord :: sampleRecords))
        (jsOptions (simpleRevenueWith toDouble) (bonusByProfitWith toDouble))
      = .ok sampleReport
      ∧ (sampleReport.map (fun row => row.sales_count)).sum
          = ((constructorRecordNoItems :: ghostRecord :: sampleRecords).filter
              (fun r => decide (r.seller_id ∈ sampleSellers.map (fun s => s.id)))).length
      ∧ (sampleReport.map (fun row => row.sales_count)).sum = 3 :=
  ⟨by decide!,
    sales_count_of_report toDouble (simpleRevenueWith toDouble) (bonusByProfitWith toDouble)
      sampleSellers sampleProducts (constructorRecordNoItems :: ghostRecord :: sampleRecords)
      sampleReport (by decide!),
    by decide⟩


/-! ## The run on doubles: what an accumulator holds -/

/-- With pairwise distinct seller ids, an accumulator after the scan is its initial object
updated with the records that carry its id, in scan order, whatever the rounding. -/
theorem mem_aggregateWith_eq_foldl_of_nodup (fl : ℚ → ℚ)
    (rev : LineItem → Option Product → ℚ) (sellers : List Seller) (products : List Product)
    (records : List PurchaseRecord) (hnd : (sellers.map (fun s => s.id)).Nodup)
    (s : SellerStat) (hs : s ∈ aggregateWith fl rev sellers products records) :
    ∃ s0 ∈ initStats sellers,
      s = (records.filter (fun r => decide (r.seller_id = s0.id))).foldl
            (fun acc r => applyRecordWith fl rev products r acc) s0 := by
  obtain ⟨i, hi⟩ := List.mem_iff_getElem?.mp hs
  unfold aggregateWith at hi
  rw [getElem?_foldl_processRecordWith] at hi
  cases h0 : (initStats sellers)[i]? with
  | none => rw [h0] at hi; cases hi
  | some s0 =>
    rw [h0] at hi
    simp only [Option.map_some', Option.some.injEq] at hi
    have hnd0 : ((initStats sellers).map (fun s => s.id)).Nodup := by
      rw [map_id_initStats]; exact hnd
    have hfilter : records.filter (fun r => decide (sellerIndex (initStats sellers) r.seller_id
          = some i)) = records.filter (fun r => decide (r.seller_id = s0.id)) := by
      apply List.filter_congr
      intro r _
      rw [Bool.eq_iff_iff]
      simp only [decide_eq_true_eq]
      unfold sellerIndex
      rw [lastIndexWhere_key_eq_some_iff (fun s : SellerStat => s.id) (initStats sellers)
        hnd0 i s0 h0 r.seller_id]
      exact eq_comm
    rw [hfilter] at hi
    exact ⟨s0, List.getElem?_mem h0, hi.symm⟩

theorem foldl_processItemWith_profit (fl : ℚ → ℚ) (rev : LineItem → Option Product → ℚ)
    (products : List Product) (items : List LineItem) (s : SellerStat) :
    (items.foldl (processItemWith fl rev products) s).profit
      = items.foldl
          (fun total it =>
            fl (total + fl (rev it (productIndex products it.sku)
              - fl (((productIndex products it.sku).bind (fun p => p.purchase_price)).getD 0
                  * it.quantity.getD 0))))
          s.profit := by
  induction items generalizing s with
  | nil => rfl
  | cons item items ih =>
    simp only [List.foldl_cons]
    rw [ih]
    rfl

theorem foldl_applyRecordWith_profit (fl : ℚ → ℚ) (rev : LineItem → Option Product → ℚ)
    (products : List Product) (rs : List PurchaseRecord) (s : SellerStat) :
    (rs.foldl (fun acc r => applyRecordWith fl rev products r acc) s).profit
      = (rs.flatMap (fun r => r.items.getD [])).foldl
          (fun total it =>
            fl (total + fl (rev it (productIndex products it.sku)
              - fl (((productIndex products it.sku).bind (fun p => p.purchase_price)).getD 0
                  * it.quantity.getD 0))))
          s.profit := by
  induction rs generalizing s with
  | nil => rfl
  | cons r rs ih =>
    simp only [List.foldl_cons, List.flatMap_cons, List.foldl_append]
    rw [ih]
    congr 1
    unfold applyRecordWith
    rw [foldl_processItemWith_profit]

/-- With pairwise distinct seller ids, the profit of an accumulator is the running total of
line 92 over the line items of the records that carry its id. -/
theorem profit_of_mem_aggregateWith (fl : ℚ → ℚ) (rev : LineItem → Option Product → ℚ)
    (sellers : List Seller) (products : List Product) (records : List PurchaseRecord)
    (hnd : (sellers.map (fun s => s.id)).Nodup) (s : SellerStat)
    (hs : s ∈ aggregateWith fl rev sellers products records) :
    s.profit = runningProfit fl rev products (sellerItems records s.id) := by
  obtain ⟨s0, hs0, rfl⟩ :=
    mem_aggregateWith_eq_foldl_of_nodup fl rev sellers products records hnd s hs
  obtain ⟨_, z2, _, _⟩ := mem_initStats sellers s0 hs0
  rw [foldl_applyRecordWith_profit, (foldl_applyRecordWith_revenue fl rev products _ s0).2, z2]
  rfl

/-- With pairwise distinct seller ids, the revenue of an accumulator is the running total of
line 83 over the records that carry its id; the revenue policy does not occur in it. -/
theorem revenue_of_mem_aggregateWith (fl : ℚ → ℚ) (rev : LineItem → Option Product → ℚ)
    (sellers : List Seller) (products : List Product) (records : List PurchaseRecord)
    (hnd : (sellers.map (fun s => s.id)).Nodup) (s : SellerStat)
    (hs : s ∈ aggregateWith fl rev sellers products records) :
    s.revenue = runningRevenue fl records s.id := by
  obtain ⟨s0, hs0, rfl⟩ :=
    mem_aggregateWith_eq_foldl_of_nodup fl rev sellers products records hnd s hs
  obtain ⟨z1, _, _, _⟩ := mem_initStats sellers s0 hs0
  obtain ⟨f1, f2⟩ := foldl_applyRecordWith_revenue fl rev products
    (records.filter (fun r => decide (r.seller_id = s0.id))) s0
  rw [f1, f2, z1]
  rfl

theorem runningRevenue_id (records : List PurchaseRecord) (id : String) :
    runningRevenue (fun x => x) records id = sellerRevenue records id := by
  unfold runningRevenue sellerRevenue
  generalize records.filter (fun r => decide (r.seller_id = id)) = rs
  have hsum : ∀ (x : ℚ), rs.foldl
      (fun x r => x + (r.total_amount.getD 0 - r.total_discount.getD 0)) x
      = x + (rs.map (fun r => r.total_amount.getD 0 - r.total_discount.getD 0)).sum := by
    induction rs with
    | nil => intro x; simp
    | cons r rs ih =>
      intro x
      simp only [List.foldl_cons, List.map_cons, List.sum_cons, ih]
      ring
  have h0 := hsum 0
  rw [zero_add] at h0
  exact h0

theorem runningProfit_id (rev : LineItem → Option Product → ℚ) (products : List Product)
    (records : List PurchaseRecord) (id : String) :
    runningProfit (fun x => x) rev products (sellerItems records id)
      = sellerProfit rev products records id := by
  unfold runningProfit sellerProfit sellerItems
  generalize records.filter (fun r => decide (r.seller_id = id)) = rs
  have hitems : ∀ (items : List LineItem) (x : ℚ), items.foldl
      (fun total it =>
        total + (rev it (productIndex products it.sku)
          - ((productIndex products it.sku).bind (fun p => p.purchase_price)).getD 0
              * it.quantity.getD 0)) x
      = x + (items.map (itemProfit rev products)).sum := by
    intro items
    induction items with
    | nil => intro x; simp
    | cons it items ih =>
      intro x
      simp only [List.foldl_cons, List.map_cons, List.sum_cons, ih, itemProfit]
      ring
  rw [hitems, zero_add]
  induction rs with
  | nil => rfl
  | cons r rs ih =>
    simp only [List.flatMap_cons, List.map_append, List.sum_append, List.map_cons,
      List.sum_cons, ih]
    rfl

/-! ## The run on doubles: the quantity map -/

theorem objGet_addSoldWith (fl : ℚ → ℚ) (m : List (String × ℚ)) (sku : String) (q : ℚ)
    (k : String) :
    objGet (addSoldWith fl m sku q) k
      = if sku = k then some (fl ((objGet m sku).getD 0 + q)) else objGet m k := by
  unfold addSoldWith
  simp only
  by_cases h0 : (objGet m sku).getD 0 = 0
  · simp only [h0, if_true, objGet_objSet]
    by_cases hk : sku = k
    · simp [hk]
    · simp [hk]
  · simp only [h0, if_false, objGet_objSet]

theorem keys_addSoldWith (fl : ℚ → ℚ) (m : List (String × ℚ)) (sku : String) (q : ℚ) :
    (addSoldWith fl m sku q).map Prod.fst
      = if sku ∈ m.map Prod.fst then m.map Prod.fst else m.map Prod.fst ++ [sku] := by
  unfold addSoldWith
  simp only
  by_cases h0 : (objGet m sku).getD 0 = 0
  · simp only [h0, if_true, keys_objSet]
    by_cases hk : sku ∈ m.map Prod.fst
    · simp [hk]
    · simp [hk]
  · have hk : sku ∈ m.map Prod.fst := by
      by_contra hk
      rw [(objGet_eq_none_iff m sku).mpr hk] at h0
      exact h0 rfl
    simp only [h0, if_false, keys_objSet, hk, if_true]

theorem keys_foldSoldWith (fl : ℚ → ℚ) (items : List LineItem) (m : List (String × ℚ)) :
    (foldSoldWith fl m items).map Prod.fst
      = m.map Prod.fst
        ++ (firstSeen (items.map (fun it => it.sku))).filter
            (fun x => decide (x ∉ m.map Prod.fst)) := by
  induction items generalizing m with
  | nil => simp [foldSoldWith, firstSeen]
  | cons it rest ih =>
    have hstep : foldSoldWith fl m (it :: rest)
        = foldSoldWith fl (addSoldWith fl m it.sku (it.quantity.getD 0)) rest := rfl
    rw [hstep, ih, keys_addSoldWith]
    simp only [List.map_cons, firstSeen]
    by_cases hk : it.sku ∈ m.map Prod.fst
    · simp only [hk, if_true, List.filter_cons, not_true_eq_false, decide_False, if_false,
        List.filter_filter]
      congr 1
      apply List.filter_congr
      intro x _
      by_cases hx : x = it.sku
      · subst hx; simp [hk]
      · simp [hx]
    · simp only [hk, if_false, List.filter_cons, not_false_eq_true, decide_True, if_true,
        List.filter_filter, List.append_assoc, List.singleton_append]
      congr 2
      apply List.filter_congr
      intro x _
      by_cases hx : x = it.sku
      · subst hx; simp
      · simp [hx]

theorem getD_objGet_foldSoldWith (fl : ℚ → ℚ) (items : List LineItem) (m : List (String × ℚ))
    (k : String) :
    (objGet (foldSoldWith fl m items) k).getD 0
      = (items.filter (fun it => decide (it.sku = k))).foldl
          (fun total it => fl (total + it.quantity.getD 0)) ((objGet m k).getD 0) := by
  induction items generalizing m with
  | nil => rfl
  | cons it rest ih =>
    have hstep : foldSoldWith fl m (it :: rest)
        = foldSoldWith fl (addSoldWith fl m it.sku (it.quantity.getD 0)) rest := rfl
    rw [hstep, ih, objGet_addSoldWith]
    by_cases h : it.sku = k
    · subst h
      simp [List.filter_cons]
    · simp [List.filter_cons, h]

theorem foldSoldWith_nil_eq_soldMapWith (fl : ℚ → ℚ) (items : List LineItem) :
    foldSoldWith fl [] items = soldMapWith fl items := by
  have hkeys : (foldSoldWith fl [] items).map Prod.fst
      = firstSeen (items.map (fun it => it.sku)) := by
    rw [keys_foldSoldWith]
    simp
  have hnd : ((foldSoldWith fl [] items).map Prod.fst).Nodup := by
    rw [hkeys]; exact firstSeen_nodup _
  rw [eq_map_keys_of_nodup _ hnd, hkeys]
  unfold soldMapWith runningQuantity
  apply List.map_congr_left
  intro k _
  rw [getD_objGet_foldSoldWith]
  simp [objGet]

theorem foldl_processItemWith_products_sold (fl : ℚ → ℚ)
    (rev : LineItem → Option Product → ℚ) (products : List Product) (items : List LineItem)
    (s : SellerStat) :
    (items.foldl (processItemWith fl rev products) s).products_sold
      = foldSoldWith fl s.products_sold items := by
  induction items generalizing s with
  | nil => rfl
  | cons it rest ih =>
    simp only [List.foldl_cons]
    rw [ih]
    rfl

theorem foldl_applyRecordWith_products_sold (fl : ℚ → ℚ)
    (rev : LineItem → Option Product → ℚ) (products : List Product)
    (rs : List PurchaseRecord) (s : SellerStat) :
    (rs.foldl (fun acc r => applyRecordWith fl rev products r acc) s).products_sold
      = foldSoldWith fl s.products_sold (rs.flatMap (fun r => r.items.getD [])) := by
  induction rs generalizing s with
  | nil => rfl
  | cons r rs ih =>
    simp only [List.foldl_cons, List.flatMap_cons]
    rw [ih]
    unfold applyRecordWith
    rw [foldl_processItemWith_products_sold]
    unfold foldSoldWith
    rw [List.foldl_append]

/-- With pairwise distinct seller ids, `products_sold` of an accumulator is the quantity map
of the line items of the records that carry its id. -/
theorem products_sold_of_mem_aggregateWith (fl : ℚ → ℚ)
    (rev : LineItem → Option Product → ℚ) (sellers : List Seller) (products : List Product)
    (records : List PurchaseRecord) (hnd : (sellers.map (fun s => s.id)).Nodup)
    (s : SellerStat) (hs : s ∈ aggregateWith fl rev sellers products records) :
    s.products_sold = soldMapWith fl (sellerItems records s.id) := by
  obtain ⟨s0, hs0, rfl⟩ :=
    mem_aggregateWith_eq_foldl_of_nodup fl rev sellers products records hnd s hs
  obtain ⟨_, _, _, hsold⟩ := mem_initStats sellers s0 hs0
  rw [foldl_applyRecordWith_products_sold,
    (foldl_applyRecordWith_revenue fl rev products _ s0).2, hsold,
    foldSoldWith_nil_eq_soldMapWith]
  rfl

theorem runningQuantity_id (items : List LineItem) (k : String) :
    runningQuantity (fun x => x) items k = quantityOf items k := by
  unfold runningQuantity quantityOf
  generalize items.filter (fun it => decide (it.sku = k)) = l
  have hsum : ∀ (x : ℚ), l.foldl (fun total it => total + it.quantity.getD 0) x
      = x + (l.map (fun it => it.quantity.getD 0)).sum := by
    induction l with
    | nil => intro x; simp
    | cons it l ih =>
      intro x
      simp only [List.foldl_cons, List.map_cons, List.sum_cons, ih]
      ring
  rw [hsum, zero_add]

/-- A run that returns a report has met no inherited sku in a line item of a seller. -/
theorem sku_ordinary_of_scanEvent (sellers : List Seller) (records : List PurchaseRecord)
    (h : scanEvent true sellers records = none) (id : String)
    (hid : id ∈ sellers.map (fun s => s.id)) :
    ∀ it ∈ sellerItems records id, it.sku ∉ inheritedNames := by
  intro it hit
  unfold sellerItems at hit
  simp only [List.mem_flatMap, List.mem_filter, decide_eq_true_eq] at hit
  obtain ⟨r, ⟨hr, hrid⟩, hitr⟩ := hit
  unfold scanEvent at h
  rw [List.findSome?_eq_none_iff] at h
  have hrec := h r hr
  have hp : isProcessed sellers r = true := by
    unfold isProcessed
    rw [hrid]
    simpa using hid
  unfold recordEvent at hrec
  rw [hp] at hrec
  simp only [if_true] at hrec
  cases hitems : r.items.getD [] with
  | nil => rw [hitems] at hitr; cases hitr
  | cons item items =>
    rw [hitems] at hrec hitr
    simp only [Bool.not_true, Bool.false_eq_true, if_false] at hrec
    intro hsku
    have hany : (item :: items).any (fun it => decide (it.sku ∈ inheritedNames)) = true := by
      rw [List.any_eq_true]
      exact ⟨it, hitr, by simpa using hsku⟩
    rw [hany] at hrec
    simp at hrec

/-! ## Every returned report -/

/-- A report of the run over exact arithmetic is the report of `analyzeSalesData`: on the
runs that return one, the two models agree. -/
theorem analyzeSalesData_of_exact_run (rev : LineItem → Option Product → ℚ)
    (bon : Int → Int → SellerStat → ℚ) (sellers : List Seller) (products : List Product)
    (records : List PurchaseRecord) (rows : List ReportRow)
    (h : analyzeSalesDataJs id (mkData sellers products records) (jsOptions rev bon)
      = .ok rows) :
    analyzeSalesData (mkData sellers products records) (mkOptions rev bon) = .ok rows := by
  obtain ⟨rfl, hs, hp, hr, _⟩ :=
    analyzeSalesDataJs_ok id sellers products records rev bon rows h
  rw [buildReportWith_id]
  exact analyzeSalesData_valid rev bon sellers products records hs hp hr

/-- A returned report has one row per input seller: the seller ids of its rows are a
permutation of the input seller ids. -/
theorem seller_ids_of_report (fl : ℚ → ℚ) (rev : LineItem → Option Product → ℚ)
    (bon : Int → Int → SellerStat → ℚ) (sellers : List Seller) (products : List Product)
    (records : List PurchaseRecord) (rows : List ReportRow)
    (h : analyzeSalesDataJs fl (mkData sellers products records) (jsOptions rev bon)
      = .ok rows) :
    (rows.map (fun row => row.seller_id)).Perm (sellers.map (fun s => s.id))
      ∧ rows.length = sellers.length := by
  obtain ⟨rfl, _, _, _, _⟩ := analyzeSalesDataJs_ok fl sellers products records rev bon rows h
  unfold buildReportWith
  simp only
  refine ⟨?_, ?_⟩
  · rw [map_seller_id_reportRows, ← map_id_aggregateWith fl rev sellers products records]
    exact (sortByProfit_perm _).map _
  · rw [length_reportRows, length_sortByProfit, length_aggregateWith]

/-- In a returned report on which no processed line item has an inherited name as its sku,
`top_products` of every row has at most 10 entries, sorted by quantity descending. -/
theorem top_products_of_report (fl : ℚ → ℚ) (rev : LineItem → Option Product → ℚ)
    (bon : Int → Int → SellerStat → ℚ) (sellers : List Seller) (products : List Product)
    (records : List PurchaseRecord) (rows : List ReportRow)
    (h : analyzeSalesDataJs fl (mkData sellers products records) (jsOptions rev bon)
      = .ok rows) :
    ∀ row ∈ rows, row.top_products.length ≤ 10
      ∧ List.Chain' (fun a b => b.quantity ≤ a.quantity) row.top_products := by
  obtain ⟨rfl, _, _, _, _⟩ := analyzeSalesDataJs_ok fl sellers products records rev bon rows h
  intro row hrow
  unfold buildReportWith at hrow
  obtain ⟨s, _, _, _, _, _, _, htop⟩ := mem_reportRows bon _ 0 _ row hrow
  rw [htop]
  exact ⟨topProducts_length_le _, (topProducts_pairwise _).chain'⟩

/-- A line item whose sku is no property of `productIndex`, own or inherited: the policy is
called with the product absent, the cost is 0 and the quantity is added to the quantity of
the sku. -/
theorem processItemWith_missing_product (fl : ℚ → ℚ) (rev : LineItem → Option Product → ℚ)
    (products : List Product) (s : SellerStat) (item : LineItem)
    (h : productIndex products item.sku = none) :
    (processItemWith fl rev products s item).profit
        = fl (s.profit + fl (rev item none - fl (0 * item.quantity.getD 0)))
      ∧ objGet (processItemWith fl rev products s item).products_sold item.sku
        = some (fl ((objGet s.products_sold item.sku).getD 0 + item.quantity.getD 0)) := by
  refine ⟨?_, ?_⟩
  · simp [processItemWith, h]
  · show objGet (addSoldWith fl s.products_sold item.sku (item.quantity.getD 0)) item.sku = _
    rw [objGet_addSoldWith]
    simp


/-! ## Totals: doubles and exact arithmetic -/

/-- C7 (as stated, refuted): the seller earns 1 and 0.005 on two line items.  The running
profit `1 + 0.005` is rounded to the double just below 1.005, so the row shows the profit
1.00, while the 2-decimal rounding of the exact sum of the two item profits is 1.01. -/
theorem profit_not_rounding_of_exact_sum :
    analyzeSalesDataJs toDouble (mkData [⟨"s1", "Ann", "Lee"⟩] sampleProducts halfCentItems)
        (jsOptions (simpleRevenueWith toDouble) (bonusByProfitWith toDouble))
      = .ok [⟨"s1", "Ann Lee", 1, 1, 1, [⟨"x1", 1⟩, ⟨"x2", 1⟩], 3 / 20⟩]
      ∧ round2 (sellerProfit (simpleRevenueWith toDouble) sampleProducts halfCentItems "s1")
          = 101 / 100
      ∧ ¬ (∀ rows, analyzeSalesDataJs toDouble
              (mkData [⟨"s1", "Ann", "Lee"⟩] sampleProducts halfCentItems)
              (jsOptions (simpleRevenueWith toDouble) (bonusByProfitWith toDouble)) = .ok rows →
            ∀ row ∈ rows, row.profit
              = round2 (sellerProfit (simpleRevenueWith toDouble) sampleProducts halfCentItems
                  row.seller_id)) := by
  have h1 : analyzeSalesDataJs toDouble
      (mkData [⟨"s1", "Ann", "Lee"⟩] sampleProducts halfCentItems)
      (jsOptions (simpleRevenueWith toDouble) (bonusByProfitWith toDouble))
      = .ok [⟨"s1", "Ann Lee", 1, 1, 1, [⟨"x1", 1⟩, ⟨"x2", 1⟩], 3 / 20⟩] := by decide!
  have h2 : round2 (sellerProfit (simpleRevenueWith toDouble) sampleProducts halfCentItems "s1")
      = 101 / 100 := by decide!
  refine ⟨h1, h2, ?_⟩
  intro hall
  have := hall _ h1 _ (List.mem_singleton_self _)
  rw [h2] at this
  norm_num at this

/-- C7 (amended): whenever `analyzeSalesData` returns a report for a dataset whose seller ids
are pairwise distinct, the profit of each row is the 2-decimal rounding of the running total
of line 92: the item profits `calculateRevenue(item, product) - purchase_price * quantity`
(a missing quantity or price counting as 0) of every line item of every purchase record of
that seller are added one by one in scan order, each product, difference and sum rounded to
a double; over exact arithmetic this is the rounding of the exact sum.  The rounding to 2
decimals is applied once, to the total, not to the item profits. -/
theorem row_profit_of_running_total (fl : ℚ → ℚ) (rev : LineItem → Option Product → ℚ)
    (bon : Int → Int → SellerStat → ℚ) (sellers : List Seller) (products : List Product)
    (records : List PurchaseRecord) (rows : List ReportRow)
    (h : analyzeSalesDataJs fl (mkData sellers products records) (jsOptions rev bon)
      = .ok rows)
    (hnd : (sellers.map (fun s => s.id)).Nodup) :
    (∀ row ∈ rows, row.profit
        = round2 (runningProfit fl rev products (sellerItems records row.seller_id)))
      ∧ ((∀ x, fl x = x) →
          ∀ row ∈ rows, row.profit = round2 (sellerProfit rev products records row.seller_id)) := by
  obtain ⟨rfl, _, _, _, _⟩ := analyzeSalesDataJs_ok fl sellers products records rev bon rows h
  have key : ∀ row ∈ buildReportWith fl rev bon sellers products records, row.profit
      = round2 (runningProfit fl rev products (sellerItems records row.seller_id)) := by
    intro row hrow
    unfold buildReportWith at hrow
    obtain ⟨s, hmem, hid, _, _, hprofit, _⟩ := mem_reportRows bon _ 0 _ row hrow
    have hagg : s ∈ aggregateWith fl rev sellers products records :=
      (sortByProfit_perm _).mem_iff.mp hmem
    rw [hprofit, hid, profit_of_mem_aggregateWith fl rev sellers products records hnd s hagg]
  refine ⟨key, ?_⟩
  intro hfl row hrow
  have hid : fl = fun x => x := funext hfl
  subst hid
  rw [key row hrow, runningProfit_id]

theorem row_profit_of_running_total_witness :
    analyzeSalesDataJs toDouble (mkData [⟨"s1", "Ann", "Lee"⟩] sampleProducts halfCentItems)
        (jsOptions (simpleRevenueWith toDouble) (bonusByProfitWith toDouble))
      = .ok [⟨"s1", "Ann Lee", 1, 1, 1, [⟨"x1", 1⟩, ⟨"x2", 1⟩], 3 / 20⟩]
      ∧ ([(⟨"s1", "Ann", "Lee"⟩ : Seller)].map (fun s => s.id)).Nodup
      ∧ (∀ row ∈ [(⟨"s1", "Ann Lee", 1, 1, 1, [⟨"x1", 1⟩, ⟨"x2", 1⟩], 3 / 20⟩ : ReportRow)],
          row.profit = round2 (runningProfit toDouble (simpleRevenueWith toDouble)
            sampleProducts (sellerItems halfCentItems row.seller_id)))
      ∧ round2 (runningProfit toDouble (simpleRevenueWith toDouble) sampleProducts
          (sellerItems halfCentItems "s1")) = 1 :=
  ⟨by decide!, by decide,
    (row_profit_of_running_total toDouble (simpleRevenueWith toDouble)
      (bonusByProfitWith toDouble) [⟨"s1", "Ann", "Lee"⟩] sampleProducts halfCentItems _
      (by decide!) (by decide)).1,
    by decide!⟩

/-- C8 (as stated, refuted): the seller has two purchase records with the totals 1 and
0.005.  The running revenue `1 + 0.005` is rounded to the double just below 1.005, so the
row shows the revenue 1.00, while the 2-decimal rounding of the sum of the two totals is
1.01. -/
theorem revenue_not_rounding_of_exact_sum :
    analyzeSalesDataJs toDouble (mkData [⟨"s1", "Ann", "Lee"⟩] sampleProducts halfCentTotals)
        (jsOptions (simpleRevenueWith toDouble) (bonusByProfitWith toDouble))
      = .ok [⟨"s1", "Ann Lee", 1, 0, 2, [], 0⟩]
      ∧ round2 (sellerRevenue halfCentTotals "s1") = 101 / 100
      ∧ ¬ (∀ rows, analyzeSalesDataJs toDouble
              (mkData [⟨"s1", "Ann", "Lee"⟩] sampleProducts halfCentTotals)
              (jsOptions (simpleRevenueWith toDouble) (bonusByProfitWith toDouble)) = .ok rows →
            ∀ row ∈ rows, row.revenue = round2 (sellerRevenue halfCentTotals row.seller_id)) := by
  have h1 : analyzeSalesDataJs toDouble
      (mkData [⟨"s1", "Ann", "Lee"⟩] sampleProducts halfCentTotals)
      (jsOptions (simpleRevenueWith toDouble) (bonusByProfitWith toDouble))
      = .ok [⟨"s1", "Ann Lee", 1, 0, 2, [], 0⟩] := by decide!
  have h2 : round2 (sellerRevenue halfCentTotals "s1") = 101 / 100 := by decide!
  refine ⟨h1, h2, ?_⟩
  intro hall
  have := hall _ h1 _ (List.mem_singleton_self _)
  rw [h2] at this
  norm_num at this

/-- C8 (amended): whenever `analyzeSalesData` returns a report for a dataset whose seller ids
are pairwise distinct, the revenue of each row is the 2-decimal rounding of the running
total of line 83: the values `total_amount - total_discount` (missing fields counting as 0)
of that seller's purchase records are added one by one in scan order, each difference and
sum rounded to a double; over exact arithmetic this is the rounding of the exact sum.  The
revenue depends neither on the revenue policy nor on the line items: two runs that differ
only in `calculateRevenue` give every seller id the same revenue. -/
theorem row_revenue_of_record_totals (fl : ℚ → ℚ) (rev1 rev2 : LineItem → Option Product → ℚ)
    (bon : Int → Int → SellerStat → ℚ) (sellers : List Seller) (products : List Product)
    (records : List PurchaseRecord) (rows1 rows2 : List ReportRow)
    (h1 : analyzeSalesDataJs fl (mkData sellers products records) (jsOptions rev1 bon)
      = .ok rows1)
    (h2 : analyzeSalesDataJs fl (mkData sellers products records) (jsOptions rev2 bon)
      = .ok rows2)
    (hnd : (sellers.map (fun s => s.id)).Nodup) :
    (∀ row ∈ rows1, row.revenue = round2 (runningRevenue fl records row.seller_id))
      ∧ ((∀ x, fl x = x) →
          ∀ row ∈ rows1, row.revenue = round2 (sellerRevenue records row.seller_id))
      ∧ (∀ row1 ∈ rows1, ∀ row2 ∈ rows2,
          row1.seller_id = row2.seller_id → row1.revenue = row2.revenue) := by
  obtain ⟨rfl, _, _, _, _⟩ :=
    analyzeSalesDataJs_ok fl sellers products records rev1 bon rows1 h1
  obtain ⟨rfl, _, _, _, _⟩ :=
    analyzeSalesDataJs_ok fl sellers products records rev2 bon rows2 h2
  have key : ∀ (rev : LineItem → Option Product → ℚ),
      ∀ row ∈ buildReportWith fl rev bon sellers products records,
        row.revenue = round2 (runningRevenue fl records row.seller_id) := by
    intro rev row hrow
    unfold buildReportWith at hrow
    obtain ⟨s, hmem, hid, _, hrev, _⟩ := mem_reportRows bon _ 0 _ row hrow
    have hagg : s ∈ aggregateWith fl rev sellers products records :=
      (sortByProfit_perm _).mem_iff.mp hmem
    rw [hrev, hid, revenue_of_mem_aggregateWith fl rev sellers products records hnd s hagg]
  refine ⟨key rev1, ?_, ?_⟩
  · intro hfl row hrow
    have hid : fl = fun x => x := funext hfl
    subst hid
    rw [key rev1 row hrow, runningRevenue_id]
  · intro row1 hr1 row2 hr2 hid
    rw [key rev1 row1 hr1, key rev2 row2 hr2, hid]

theorem row_revenue_of_record_totals_witness :
    analyzeSalesDataJs toDouble (mkData sampleSellers sampleProducts sampleRecords)
        (jsOptions (simpleRevenueWith toDouble) (bonusByProfitWith toDouble)) = .ok sampleReport
      ∧ analyzeSalesDataJs toDouble (mkData sampleSellers sampleProducts sampleRecords)
        (jsOptions (fun _ _ => 100) (bonusByProfitWith toDouble))
        = .ok [ ⟨"s2", "Bob Ray", 115, 289, 2, [⟨"p1", 3⟩, ⟨"p3", 2⟩, ⟨"p2", 1⟩], 4335 / 100⟩,
                ⟨"s1", "Ann Lee", 50, 96, 1, [⟨"p1", 2⟩], 96 / 10⟩,
                ⟨"s3", "Cy Dow", 0, 0, 0, [], 0⟩ ]
      ∧ (sampleSellers.map (fun s => s.id)).Nodup
      ∧ (∀ row ∈ sampleReport,
          row.revenue = round2 (runningRevenue toDouble sampleRecords row.seller_id))
      ∧ ∀ row1 ∈ sampleReport,
          ∀ row2 ∈ [ (⟨"s2", "Bob Ray", 115, 289, 2, [⟨"p1", 3⟩, ⟨"p3", 2⟩, ⟨"p2", 1⟩],
                        4335 / 100⟩ : ReportRow),
                     ⟨"s1", "Ann Lee", 50, 96, 1, [⟨"p1", 2⟩], 96 / 10⟩,
                     ⟨"s3", "Cy Dow", 0, 0, 0, [], 0⟩ ],
            row1.seller_id = row2.seller_id → row1.revenue = row2.revenue :=
  have h := row_revenue_of_record_totals toDouble (simpleRevenueWith toDouble) (fun _ _ => 100)
    (bonusByProfitWith toDouble) sampleSellers sampleProducts sampleRecords sampleReport _
    (by decide!) (by decide!) (by decide)
  ⟨by decide!, by decide!, by decide, h.1, h.2.2⟩

/-! ## Top products of the run on doubles -/

/-- C13 (as stated, refuted): one seller sells sku "2" and then sku "1", one unit each.  The
quantity map in first-seen order is "2", "1", and so is its stable sort by quantity, but the
row lists "1" before "2": `Object.entries` enumerates array-index keys first, in ascending
numeric order. -/
theorem top_products_not_first_seen_order :
    analyzeSalesDataJs toDouble
        (mkData [⟨"s1", "Ann", "Lee"⟩] sampleProducts numericSkuRecords)
        (jsOptions (simpleRevenueWith toDouble) (bonusByProfitWith toDouble))
      = .ok [⟨"s1", "Ann Lee", 10, 10, 1, [⟨"1", 1⟩, ⟨"2", 1⟩], 3 / 2⟩]
      ∧ topByQuantity (soldMapWith toDouble (sellerItems numericSkuRecords "s1"))
          = [⟨"2", 1⟩, ⟨"1", 1⟩]
      ∧ ¬ (∀ rows, analyzeSalesDataJs toDouble
              (mkData [⟨"s1", "Ann", "Lee"⟩] sampleProducts numericSkuRecords)
              (jsOptions (simpleRevenueWith toDouble) (bonusByProfitWith toDouble)) = .ok rows →
            ∀ row ∈ rows, row.top_products
              = topByQuantity (soldMapWith toDouble
                  (sellerItems numericSkuRecords row.seller_id))) := by
  have h1 : analyzeSalesDataJs toDouble
      (mkData [⟨"s1", "Ann", "Lee"⟩] sampleProducts numericSkuRecords)
      (jsOptions (simpleRevenueWith toDouble) (bonusByProfitWith toDouble))
      = .ok [⟨"s1", "Ann Lee", 10, 10, 1, [⟨"1", 1⟩, ⟨"2", 1⟩], 3 / 2⟩] := by decide!
  have h2 : topByQuantity (soldMapWith toDouble (sellerItems numericSkuRecords "s1"))
      = [⟨"2", 1⟩, ⟨"1", 1⟩] := by decide!
  refine ⟨h1, h2, ?_⟩
  intro hall
  have := hall _ h1 _ (List.mem_singleton_self _)
  rw [h2] at this
  exact absurd this (by decide)

/-- C13 (amended): whenever `analyzeSalesData` returns a report for a dataset with pairwise
distinct seller ids, and no line item of a seller has a name inherited from
`Object.prototype` as its sku, the quantity map of a seller has one entry for each sku that
occurs in the line items of the seller's records (also with quantity 0 or missing) and for
no other sku, in first-seen order, each with the running sum of `quantity` over the seller's
items of that sku (each addition rounded to a double; the exact sum over exact arithmetic);
`top_products` is the first 10 entries of the map, enumerated as `Object.entries` does
(array-index skus first, in ascending numeric order, then the other skus in first-seen
order) and sorted by quantity descending with ties kept in that enumeration order; when no
sku of the seller is an array-index numeral the ties are in first-seen order; every entry
left out has a quantity no greater than every listed one. -/
theorem top_products_of_quantity_map (fl : ℚ → ℚ) (rev : LineItem → Option Product → ℚ)
    (bon : Int → Int → SellerStat → ℚ) (sellers : List Seller) (products : List Product)
    (records : List PurchaseRecord) (rows : List ReportRow)
    (h : analyzeSalesDataJs fl (mkData sellers products records) (jsOptions rev bon)
      = .ok rows)
    (hnd : (sellers.map (fun s => s.id)).Nodup) :
    ∀ row ∈ rows,
      row.top_products
          = topByQuantity (objectEntries (soldMapWith fl (sellerItems records row.seller_id)))
      ∧ ((∀ it ∈ sellerItems records row.seller_id, arrayIndex it.sku = none) →
          row.top_products = topByQuantity (soldMapWith fl (sellerItems records row.seller_id)))
      ∧ (∀ it ∈ sellerItems records row.seller_id, it.sku ∉ inheritedNames)
      ∧ (∀ k, k ∈ (soldMapWith fl (sellerItems records row.seller_id)).map Prod.fst
          ↔ ∃ it ∈ sellerItems records row.seller_id, it.sku = k)
      ∧ ((soldMapWith fl (sellerItems records row.seller_id)).map Prod.fst).Nodup
      ∧ (∀ e ∈ soldMapWith fl (sellerItems records row.seller_id),
          e.2 = runningQuantity fl (sellerItems records row.seller_id) e.1)
      ∧ ((∀ x, fl x = x) → ∀ e ∈ soldMapWith fl (sellerItems records row.seller_id),
          e.2 = quantityOf (sellerItems records row.seller_id) e.1)
      ∧ (∀ x ∈ row.top_products,
          ∀ y ∈ ((((objectEntries (soldMapWith fl (sellerItems records row.seller_id))).map
                (fun e => ({ sku := e.1, quantity := e.2 } : TopProduct))).insertionSort
                (fun a b => b.quantity ≤ a.quantity))).drop 10,
          y.quantity ≤ x.quantity) := by
  obtain ⟨rfl, _, _, _, hscan⟩ :=
    analyzeSalesDataJs_ok fl sellers products records rev bon rows h
  intro row hrow
  unfold buildReportWith at hrow
  obtain ⟨s, hmem, hid, _, _, _, _, htop⟩ := mem_reportRows bon _ 0 _ row hrow
  have hagg : s ∈ aggregateWith fl rev sellers products records :=
    (sortByProfit_perm _).mem_iff.mp hmem
  have hsold := products_sold_of_mem_aggregateWith fl rev sellers products records hnd s hagg
  rw [← hid] at hsold
  rw [hsold] at htop
  have hrowid : row.seller_id ∈ sellers.map (fun s => s.id) := by
    rw [hid, ← map_id_aggregateWith fl rev sellers products records]
    exact List.mem_map_of_mem (fun s => s.id) hagg
  have hkeys : (soldMapWith fl (sellerItems records row.seller_id)).map Prod.fst
      = firstSeen ((sellerItems records row.seller_id).map (fun it => it.sku)) := by
    simp [soldMapWith, Function.comp_def]
  have hval : ∀ e ∈ soldMapWith fl (sellerItems records row.seller_id),
      e.2 = runningQuantity fl (sellerItems records row.seller_id) e.1 := by
    intro e he
    simp only [soldMapWith, List.mem_map] at he
    obtain ⟨k, _, rfl⟩ := he
    rfl
  refine ⟨htop, ?_, sku_ordinary_of_scanEvent sellers records hscan _ hrowid, ?_, ?_, hval,
    ?_, ?_⟩
  · intro hno
    rw [htop]
    unfold topProducts topByQuantity
    rw [objectEntries_of_no_arrayIndex]
    intro e he
    have hk : e.1 ∈ (soldMapWith fl (sellerItems records row.seller_id)).map Prod.fst :=
      List.mem_map_of_mem Prod.fst he
    rw [hkeys, mem_firstSeen] at hk
    obtain ⟨it, hit, hsku⟩ := List.mem_map.mp hk
    rw [← hsku]
    exact hno it hit
  · intro k
    rw [hkeys, mem_firstSeen, List.mem_map]
  · rw [hkeys]
    exact firstSeen_nodup _
  · intro hfl e he
    have hidf : fl = fun x => x := funext hfl
    subst hidf
    rw [hval e he, runningQuantity_id]
  · intro x hx y hy
    rw [htop] at hx
    unfold topProducts at hx
    haveI : IsTotal TopProduct (fun a b => b.quantity ≤ a.quantity) :=
      ⟨fun a b => le_total _ _⟩
    haveI : IsTrans TopProduct (fun a b => b.quantity ≤ a.quantity) :=
      ⟨fun a b c hab hbc => le_trans hbc hab⟩
    exact (List.sorted_insertionSort (fun a b : TopProduct => b.quantity ≤ a.quantity)
      _).rel_of_mem_take_of_mem_drop hx hy

theorem top_products_of_quantity_map_witness :
    analyzeSalesDataJs toDouble (mkData sampleSellers sampleProducts sampleRecords)
        (jsOptions (simpleRevenueWith toDouble) (bonusByProfitWith toDouble)) = .ok sampleReport
      ∧ (sampleSellers.map (fun s => s.id)).Nodup
      ∧ (∀ row ∈ sampleReport, row.top_products
          = topByQuantity (objectEntries
              (soldMapWith toDouble (sellerItems sampleRecords row.seller_id))))
      ∧ topByQuantity (objectEntries (soldMapWith toDouble (sellerItems sampleRecords "s2")))
          = [⟨"p1", 3⟩, ⟨"p3", 2⟩, ⟨"p2", 1⟩] :=
  ⟨by decide!, by decide,
    fun row hrow =>
      (top_products_of_quantity_map toDouble (simpleRevenueWith toDouble)
        (bonusByProfitWith toDouble) sampleSellers sampleProducts sampleRecords sampleReport
        (by decide!) (by decide) row hrow).1,
    by decide!⟩

/-! ## Ranks and bonuses of the run on doubles -/

/-- C14 (as stated, refuted): a single seller whose accumulated profit is the double 0.1.
The reference policy computes `profit * 0.15` as a double just below 0.015, so the row shows
the bonus 0.01, while the 2-decimal rounding of the product `0.15 * profit` is 0.02, with
`0.15` taken as the decimal or as the double. -/
theorem bonus_not_rounding_of_exact_product :
    analyzeSalesDataJs toDouble (mkData [⟨"s1", "Ann", "Lee"⟩] sampleProducts dimeRecords)
        (jsOptions (simpleRevenueWith toDouble) (bonusByProfitWith toDouble))
      = .ok [⟨"s1", "Ann Lee", 1 / 10, 1 / 10, 1, [⟨"x1", 1⟩], 1 / 100⟩]
      ∧ (sortByProfit (aggregateWith toDouble (simpleRevenueWith toDouble)
            [⟨"s1", "Ann", "Lee"⟩] sampleProducts dimeRecords)).map (fun s => s.profit)
          = [toDouble (1 / 10)]
      ∧ round2 ((15 / 100) * toDouble (1 / 10)) = 2 / 100
      ∧ round2 (toDouble (15 / 100) * toDouble (1 / 10)) = 2 / 100
      ∧ ¬ (∀ rows, analyzeSalesDataJs toDouble
              (mkData [⟨"s1", "Ann", "Lee"⟩] sampleProducts dimeRecords)
              (jsOptions (simpleRevenueWith toDouble) (bonusByProfitWith toDouble)) = .ok rows →
            ∀ acc, (sortByProfit (aggregateWith toDouble (simpleRevenueWith toDouble)
                [⟨"s1", "Ann", "Lee"⟩] sampleProducts dimeRecords))[0]? = some acc →
              ∃ row, rows[0]? = some row ∧ row.bonus = round2 ((15 / 100) * acc.profit)) := by
  have h1 : analyzeSalesDataJs toDouble
      (mkData [⟨"s1", "Ann", "Lee"⟩] sampleProducts dimeRecords)
      (jsOptions (simpleRevenueWith toDouble) (bonusByProfitWith toDouble))
      = .ok [⟨"s1", "Ann Lee", 1 / 10, 1 / 10, 1, [⟨"x1", 1⟩], 1 / 100⟩] := by decide!
  have h2 : sortByProfit (aggregateWith toDouble (simpleRevenueWith toDouble)
      [⟨"s1", "Ann", "Lee"⟩] sampleProducts dimeRecords)
      = [⟨"s1", "Ann Lee", toDouble (1 / 10), toDouble (1 / 10), 1, [("x1", 1)]⟩] := by decide!
  have h3 : round2 ((15 / 100) * toDouble (1 / 10)) = 2 / 100 := by decide!
  have h4 : round2 (toDouble (15 / 100) * toDouble (1 / 10)) = 2 / 100 := by decide!
  refine ⟨h1, by rw [h2]; rfl, h3, h4, ?_⟩
  intro hall
  obtain ⟨row, hrow, hbonus⟩ := hall _ h1
    ⟨"s1", "Ann Lee", toDouble (1 / 10), toDouble (1 / 10), 1, [("x1", 1)]⟩ (by rw [h2]; rfl)
  simp only [List.getElem?_cons_zero, Option.some.injEq] at hrow
  subst hrow
  have hb : (1 / 100 : ℚ) = round2 ((15 / 100) * toDouble (1 / 10)) := hbonus
  rw [h3] at hb
  norm_num at hb

/-- C14 (amended): whenever `analyzeSalesData` returns a report, the row at output position
`i` (0-based) has the bonus `round2 (calculateBonus(i, n, accumulator))`, where `n` is the
number of input sellers and the accumulator is the one at position `i` after the sort by
profit descending (not at position `i` of the input seller list), carrying the unrounded
accumulated profit; with `calculateBonusByProfit` the bonus of the first row is the
2-decimal rounding of the product `profit * 0.15` rounded to a double, which over exact
arithmetic is `round2 (0.15 * profit)`. -/
theorem row_bonus_by_rank (fl : ℚ → ℚ) (rev : LineItem → Option Product → ℚ)
    (bon : Int → Int → SellerStat → ℚ) (sellers : List Seller) (products : List Product)
    (records : List PurchaseRecord) (rows : List ReportRow)
    (h : analyzeSalesDataJs fl (mkData sellers products records) (jsOptions rev bon)
      = .ok rows) :
    rows.length = sellers.length
      ∧ (∀ (i : Nat) (acc : SellerStat),
          (sortByProfit (aggregateWith fl rev sellers products records))[i]? = some acc →
          ∃ row, rows[i]? = some row ∧ row.seller_id = acc.id
            ∧ row.profit = round2 acc.profit
            ∧ row.bonus = round2 (bon (i : Int) (sellers.length : Int) acc))
      ∧ (bon = bonusByProfitWith fl →
          ∀ acc, (sortByProfit (aggregateWith fl rev sellers products records))[0]? = some acc →
            ∃ row, rows[0]? = some row
              ∧ row.bonus = round2 (fl (acc.profit * fl (15 / 100)))
              ∧ ((∀ x, fl x = x) → row.bonus = round2 ((15 / 100) * acc.profit))) := by
  obtain ⟨rfl, hs, _, _, _⟩ := analyzeSalesDataJs_ok fl sellers products records rev bon rows h
  have hlen : (sortByProfit (aggregateWith fl rev sellers products records)).length
      = sellers.length := by rw [length_sortByProfit, length_aggregateWith]
  have hpos : 0 < sellers.length := List.length_pos.mpr hs
  refine ⟨?_, ?_, ?_⟩
  · unfold buildReportWith
    simp only
    rw [length_reportRows, hlen]
  · intro i acc hacc
    unfold buildReportWith
    simp only
    rw [getElem?_reportRows, hacc, hlen]
    exact ⟨_, rfl, rfl, rfl, by simp⟩
  · intro hbon acc hacc
    subst hbon
    unfold buildReportWith
    simp only
    rw [getElem?_reportRows, hacc, hlen]
    have hn : ¬ ((sellers.length : Int) ≤ 0) := by omega
    have hb : bonusByProfitWith fl ((0 + 0 : Nat) : Int) (sellers.length : Int) acc
        = fl (acc.profit * fl (15 / 100)) := by
      simp [bonusByProfitWith, calculateBonusByProfitWith, SellerStat.card, hn]
    refine ⟨_, rfl, ?_, ?_⟩
    · show round2 (bonusByProfitWith fl ((0 + 0 : Nat) : Int) (sellers.length : Int) acc) = _
      rw [hb]
    · intro hfl
      show round2 (bonusByProfitWith fl ((0 + 0 : Nat) : Int) (sellers.length : Int) acc) = _
      rw [hb, hfl, hfl, mul_comm]

theorem row_bonus_by_rank_witness :
    analyzeSalesDataJs toDouble (mkData [⟨"s1", "Ann", "Lee"⟩] sampleProducts dimeRecords)
        (jsOptions (simpleRevenueWith toDouble) (bonusByProfitWith toDouble))
      = .ok [⟨"s1", "Ann Lee", 1 / 10, 1 / 10, 1, [⟨"x1", 1⟩], 1 / 100⟩]
      ∧ (∀ (i : Nat) (acc : SellerStat),
          (sortByProfit (aggregateWith toDouble (simpleRevenueWith toDouble)
            [⟨"s1", "Ann", "Lee"⟩] sampleProducts dimeRecords))[i]? = some acc →
          ∃ row, [(⟨"s1", "Ann Lee", 1 / 10, 1 / 10, 1, [⟨"x1", 1⟩], 1 / 100⟩ : ReportRow)][i]?
              = some row ∧ row.seller_id = acc.id
            ∧ row.profit = round2 acc.profit
            ∧ row.bonus = round2 (bonusByProfitWith toDouble (i : Int)
                (([⟨"s1", "Ann", "Lee"⟩] : List Seller).length : Int) acc))
      ∧ round2 (toDouble (toDouble (1 / 10) * toDouble (15 / 100))) = 1 / 100
      ∧ (sortByProfit (aggregateWith toDouble (simpleRevenueWith toDouble) sampleSellers
          sampleProducts sampleRecords)).map (fun s => s.id) = ["s2", "s1", "s3"] :=
  ⟨by decide!,
    (row_bonus_by_rank toDouble (simpleRevenueWith toDouble) (bonusByProfitWith toDouble)
      [⟨"s1", "Ann", "Lee"⟩] sampleProducts dimeRecords _ (by decide!)).2.1,
    by decide!, by decide!⟩

/-- C15: whenever `analyzeSalesData` returns a report, its ranking is a stable sort by
accumulated (unrounded) profit descending: the ranked accumulators are a permutation of the
accumulators, ordered by profit descending, the rows follow their order, and two sellers
whose accumulated profits are equal appear in the output in the same relative order as in
the input seller list.  The accumulated profit is the running total of the program: the
statement holds for the run on doubles as for the run over exact arithmetic. -/
theorem ranking_is_stable (fl : ℚ → ℚ) (rev : LineItem → Option Product → ℚ)
    (bon : Int → Int → SellerStat → ℚ) (sellers : List Seller) (products : List Product)
    (records : List PurchaseRecord) (rows : List ReportRow)
    (h : analyzeSalesDataJs fl (mkData sellers products records) (jsOptions rev bon)
      = .ok rows) :
    rows.map (fun row => row.seller_id)
        = (sortByProfit (aggregateWith fl rev sellers products records)).map (fun s => s.id)
      ∧ (sortByProfit (aggregateWith fl rev sellers products records)).Perm
          (aggregateWith fl rev sellers products records)
      ∧ (sortByProfit (aggregateWith fl rev sellers products records)).Pairwise
          (fun a b => b.profit ≤ a.profit)
      ∧ ∀ (i j : Nat) (si sj : Seller) (a b : SellerStat), i < j →
          sellers[i]? = some si → sellers[j]? = some sj →
          (aggregateWith fl rev sellers products records)[i]? = some a →
          (aggregateWith fl rev sellers products records)[j]? = some b →
          a.profit = b.profit →
          a.id = si.id ∧ b.id = sj.id
            ∧ List.Sublist [a, b] (sortByProfit (aggregateWith fl rev sellers products records))
            ∧ List.Sublist [si.id, sj.id] (rows.map (fun row => row.seller_id)) := by
  obtain ⟨rfl, _, _, _, _⟩ := analyzeSalesDataJs_ok fl sellers products records rev bon rows h
  refine ⟨?_, sortByProfit_perm _, sortByProfit_pairwise _, ?_⟩
  · unfold buildReportWith
    simp only
    rw [map_seller_id_reportRows]
  · intro i j si sj a b hij hsi hsj ha hb hprofit
    have hids := map_id_aggregateWith fl rev sellers products records
    have hai : a.id = si.id := by
      have h1 := congrArg (fun l => l[i]?) hids
      simp only [List.getElem?_map, ha, hsi, Option.map_some', Option.some.injEq] at h1
      exact h1
    have hbj : b.id = sj.id := by
      have h1 := congrArg (fun l => l[j]?) hids
      simp only [List.getElem?_map, hb, hsj, Option.map_some', Option.some.injEq] at h1
      exact h1
    have hsub : List.Sublist [a, b]
        (sortByProfit (aggregateWith fl rev sellers products records)) :=
      List.pair_sublist_insertionSort (le_of_eq hprofit.symm)
        (pair_sublist_of_getElem? _ i j a b hij ha hb)
    refine ⟨hai, hbj, hsub, ?_⟩
    unfold buildReportWith
    simp only
    rw [map_seller_id_reportRows, ← hai, ← hbj]
    exact hsub.map (fun s => s.id)

theorem ranking_is_stable_witness :
    analyzeSalesDataJs toDouble (mkData tieSellers sampleProducts levelRecords)
        (jsOptions (simpleRevenueWith toDouble) (bonusByProfitWith toDouble))
      = .ok [ ⟨"b", "Bea Moss", 0, 3 / 10, 1, [⟨"x1", 2⟩], 1 / 20⟩,
              ⟨"a", "Abe Long", 0, 3 / 10, 1, [⟨"x1", 2⟩], 3 / 100⟩ ]
      ∧ (aggregateWith toDouble (simpleRevenueWith toDouble) tieSellers sampleProducts
          levelRecords).map (fun s => s.profit)
          = [toDouble (toDouble (1 / 10) + toDouble (2 / 10)),
             toDouble (toDouble (1 / 10) + toDouble (2 / 10))]
      ∧ List.Sublist ["b", "a"]
          ([ (⟨"b", "Bea Moss", 0, 3 / 10, 1, [⟨"x1", 2⟩], 1 / 20⟩ : ReportRow),
             ⟨"a", "Abe Long", 0, 3 / 10, 1, [⟨"x1", 2⟩], 3 / 100⟩ ].map
            (fun row => row.seller_id))
      ∧ analyzeSalesDataJs toDouble (mkData tieSellers sampleProducts tieRecords)
          (jsOptions (simpleRevenueWith toDouble) (bonusByProfitWith toDouble))
        = .ok [ ⟨"a", "Abe Long", 0, 3 / 5, 1, [⟨"x1", 3⟩], 9 / 100⟩,
                ⟨"b", "Bea Moss", 0, 3 / 5, 1, [⟨"x1", 3⟩], 3 / 50⟩ ] :=
  ⟨by decide!, by decide!,
    ((ranking_is_stable toDouble (simpleRevenueWith toDouble) (bonusByProfitWith toDouble)
      tieSellers sampleProducts levelRecords _ (by decide!)).2.2.2 0 1
      ⟨"b", "Bea", "Moss"⟩ ⟨"a", "Abe", "Long"⟩
      ⟨"b", "Bea Moss", 0, toDouble (toDouble (1 / 10) + toDouble (2 / 10)), 1, [("x1", 2)]⟩
      ⟨"a", "Abe Long", 0, toDouble (toDouble (1 / 10) + toDouble (2 / 10)), 1, [("x1", 2)]⟩
      (by decide) (by decide) (by decide) (by decide!) (by decide!) rfl).2.2.2,
    by decide!⟩

end SalesBonus
